import Mathlib

/-!
# Kaskad-1-MT meter protocol engine (`src/src/kaskad_1_mt.c`, `src/src/device.c`)

A shallow embedding of the wire codec (checksum, byte stuffing and unstuffing), of the
request builder, of the transport session and of the readings decoders, followed by the
properties proved about them.

Conventions of the embedding:

* a memory region (`package_buff`, the bytes of a `package_t`) is a function from byte
  offsets to cell contents; every load of a `uint8_t` goes through `rd`, which reduces the
  cell modulo 256, so no well-formedness invariant on cells is needed;
* a region starts at the address of its object and goes on behind it: the cells of
  `package_buff` at the offsets `PKT_BUFF_MAX_LEN` and above are not cells of the array
  but the memory that follows it, whose content the program does not control;
* machine integers are natural numbers, reduced modulo `2^w` at the places where the C
  code truncates;
* a C pointer into a region is the offset it points at;
* the serial driver is an environment: the results of its write calls and the bytes it
  delivers are given in advance, and received bytes become available during the calls of
  `sleep_ms`;
* declarations of headers that are not among the sources are the fields of the parameter
  record `Decls`;
* the field `requested` of the state is not a program variable: it records the commands
  `send_command` is called with, so that the commands of a cycle can be stated;
* a loop without a bound of its own (the scaling loop of the current, the scan for the
  terminator of a string) takes a bound, and its result is `none` when the bound is used
  up; the theorems about such a loop prove that it returns;
* a division by zero ends the run: the function that performs it, and every caller,
  yields `none`.
-/

namespace Kaskad

/-! ## Memory regions -/

/-- A byte-addressed memory region. -/
abbrev Buf := Nat → Nat

/-- Load of a `uint8_t` cell. -/
def rd (b : Buf) (i : Nat) : Nat := b i % 256

/-- Store into one cell. -/
def wr (b : Buf) (i v : Nat) : Buf := fun j => if j = i then v else b j

/-- A region filled with zeros (`memset(.., 0, ..)`, static initialisation). -/
def zeroBuf : Buf := fun _ => 0

/-- A region whose first cells hold the given list, zeros after it. -/
def ofList (l : List Nat) : Buf := fun i => l.getD i 0

/-- The first `n` cells of a region, as loaded bytes. -/
def bytesOf (b : Buf) (n : Nat) : List Nat := (List.range n).map (rd b)

/-! ## Protocol constants (`kaskad_1_mt.c`, lines 12-18) -/

def START : Nat := 0x73
def BOUNDARY : Nat := 0x55
def PROG_ADDR : Nat := 0xffff
def PASSWORD : Nat := 0x00000000
def STUFF_55 : Nat := 0x11
def STUFF_73 : Nat := 0x22

/-! ## `checksum` (lines 24-42) -/

/-- One pass of the inner `bit` loop body: test the top bit, shift, xor the generator;
the result is stored back into the `uint8_t crc`. -/
def crcBit (crc : Nat) : Nat :=
  if crc &&& 0x80 ≠ 0 then ((crc <<< 1) ^^^ 0xA9) % 256 else (crc <<< 1) % 256

/-- The inner loop `for (bit = 8; bit > 0; bit--)`, run `bit` times. -/
def crcBits : Nat → Nat → Nat
  | 0, crc => crc
  | bit + 1, crc => crcBits bit (crcBit crc)

/-- The outer loop over `ptr`, with `k` bytes left to go: `crc ^= *ptr`, then eight
bit steps. -/
def crcLoop (src : Buf) : Nat → Nat → Nat → Nat
  | 0, _, crc => crc
  | k + 1, ptr, crc => crcLoop src k (ptr + 1) (crcBits 8 ((crc ^^^ rd src ptr) % 256))

/-- The function `checksum(src_buffer, len)`: `len` is a `uint8_t`, and so is
`packet_len = len - 4`, which therefore wraps modulo 256. -/
def checksum (src_buffer : Buf) (len : Nat) : Nat :=
  let packet_len := (len % 256 + 256 - 4) % 256
  crcLoop src_buffer packet_len 2 0

/-! ## `byte_stuffing` and `byte_unstuffing` (lines 86-157) -/

/-- A `package_t` seen as the codec sees it: its raw bytes (from the start marker on) and
its `pkt_len` field, which lies behind the payload and is an 8-bit quantity (it is what
`checksum` receives as its `uint8_t len`). -/
structure package_t where
  bytes : Buf
  pkt_len : Nat

/-- The cursors of a copy loop: `source`, `receiver`, the running `len`, and the region
written through `receiver`. -/
structure Cur where
  source : Nat
  receiver : Nat
  len : Nat
  out : Buf

/-- One iteration of the `for` loop of `byte_stuffing`. -/
def stuffStep (src : Buf) (c : Cur) : Cur :=
  if rd src c.source = BOUNDARY then
    { source := c.source + 1, receiver := c.receiver + 2, len := c.len + 2,
      out := wr (wr c.out c.receiver START) (c.receiver + 1) STUFF_55 }
  else if rd src c.source = START then
    { source := c.source + 1, receiver := c.receiver + 2, len := c.len + 2,
      out := wr (wr c.out c.receiver START) (c.receiver + 1) STUFF_73 }
  else
    { source := c.source + 1, receiver := c.receiver + 1, len := c.len + 1,
      out := wr c.out c.receiver (rd src c.source) }

/-- The `for` loop of `byte_stuffing`, run `k` times. -/
def stuffLoop (src : Buf) : Nat → Cur → Cur
  | 0, c => c
  | k + 1, c => stuffLoop src k (stuffStep src c)

/-- The function `byte_stuffing()`: reads `request_pkt`, writes `package_buff`, returns
the written buffer and `len`.  The loop bound `request_pkt.pkt_len-3` is computed in
`int`, so for `pkt_len < 3` it is negative and the loop does not run: this is the
truncated subtraction of natural numbers. -/
def byte_stuffing (request_pkt : package_t) (package_buff : Buf) : Buf × Nat :=
  let src := request_pkt.bytes
  let b1 := wr package_buff 0 (rd src 0)
  let b2 := wr b1 1 (rd src 1)
  let c := stuffLoop src (request_pkt.pkt_len - 3)
    { source := 2, receiver := 2, len := 2, out := b2 }
  (wr c.out c.receiver (rd src c.source), c.len + 1)

/-- The `for` loop of `byte_unstuffing`, run `k` times.  The boolean is `false` when the
loop left through `return 0`. -/
def unstuffLoop (src : Buf) : Nat → Cur → Cur × Bool
  | 0, c => (c, true)
  | k + 1, c =>
    if rd src c.source = START then
      if rd src (c.source + 1) = STUFF_55 then
        unstuffLoop src k
          { source := c.source + 2, receiver := c.receiver + 1, len := c.len - 1 + 1,
            out := wr c.out c.receiver BOUNDARY }
      else if rd src (c.source + 1) = STUFF_73 then
        unstuffLoop src k
          { source := c.source + 2, receiver := c.receiver + 1, len := c.len - 1 + 1,
            out := wr c.out c.receiver START }
      else
        ({ c with source := c.source + 1, len := c.len - 1 }, false)
    else
      unstuffLoop src k
        { source := c.source + 1, receiver := c.receiver + 1, len := c.len + 1,
          out := wr c.out c.receiver (rd src c.source) }

/-- The function `byte_unstuffing(load_len)`: reads `package_buff`, writes the bytes of
`response_pkt`, returns them and `len` (0 on a framing violation).  `load_len` is a
`uint8_t` parameter; the bound `load_len-3` is computed in `int`. -/
def byte_unstuffing (load_len : Nat) (package_buff : Buf) (response : Buf) : Buf × Nat :=
  let src := package_buff
  let b1 := wr response 0 (rd src 0)
  let b2 := wr b1 1 (rd src 1)
  let r := unstuffLoop src (load_len % 256 - 3)
    { source := 2, receiver := 2, len := 2, out := b2 }
  if r.2 then (wr r.1.out r.1.receiver (rd src r.1.source), r.1.len + 1)
  else (r.1.out, 0)

/-! ## The escape pass as the specification words it -/

/-- The escape of one scanned byte, in the words of the specification: the boundary
marker becomes `[start-marker, ESCAPED_BOUNDARY]`, the start marker becomes
`[start-marker, ESCAPED_START]`, any other byte is emitted unchanged. -/
def escapeOne (b : Nat) : List Nat :=
  if b = BOUNDARY then [START, STUFF_55] else if b = START then [START, STUFF_73] else [b]

/-- The escape pass in the words of the specification, on a frame of `n` bytes: the first
two bytes verbatim, the escapes of the bytes at indices `2 .. n-2` in order, the final
byte verbatim. -/
def escapeFrame (frame : Buf) (n : Nat) : List Nat :=
  [rd frame 0, rd frame 1]
    ++ ((List.range' 2 (n - 3)).map (rd frame)).flatMap escapeOne
    ++ [rd frame (n - 1)]

/-- The number of indices in `2 .. n-2` whose byte is the boundary or the start marker. -/
def reservedCount (frame : Buf) (n : Nat) : Nat :=
  ((List.range' 2 (n - 3)).filter
    (fun j => decide (rd frame j = BOUNDARY ∨ rd frame j = START))).length

/-- The `n` cells of a region from offset `s` on, as loaded bytes. -/
def seg (b : Buf) (s n : Nat) : List Nat := (List.range' s n).map (rd b)

/-- The buffer `package_buff` as `byte_stuffing` leaves it after the nine-byte request
`73 55 01 02 03 04 05 73 55` was stuffed into the zeroed buffer. -/
def staleBuff : Buf :=
  (byte_stuffing ⟨ofList [0x73, 0x55, 1, 2, 3, 4, 5, 0x73, 0x55], 9⟩ zeroBuf).1

/-! ## Declarations the sources take from headers that are not among them -/

/-- The fields of `package_header_t` (`kaskad_1_mt.h`), by the names the code uses. -/
structure package_header_t where
  data_len : Nat
  from_to : Nat
  address_to : Nat
  address_from : Nat
  command : Nat
  password_status : Nat

/-- What `kaskad_1_mt.c` uses from `kaskad_1_mt.h`, `device.h` and `app.h`, none of which
is among the sources: the size and the byte layout of the packet header, the buffer bound,
the notification constant, the values of the `command_t` enumerators and the layouts of
the response payloads.  Everything below is parametrised by such a record, so that the
results hold for every layout and every choice of constants. -/
structure Decls where
  /-- The value of `sizeof(package_header_t)`. -/
  header_size : Nat
  /-- Byte `i` (for `i < header_size`) of a header holding the given field values. -/
  ser : package_header_t → Nat → Nat
  /-- The field values held by the given header bytes. -/
  deser : Buf → package_header_t
  PKT_BUFF_MAX_LEN : Nat
  NOTIFY_MAX : Nat
  cmd_open_channel : Nat
  cmd_tariffs_data : Nat
  cmd_power_data : Nat
  cmd_read_configure : Nat
  cmd_get_info : Nat
  cmd_test_error : Nat
  cmd_resource_battery : Nat
  cmd_amps_data : Nat
  cmd_volts_data : Nat
  cmd_serial_number : Nat
  cmd_date_release : Nat
  cmd_factory_manufacturer : Nat
  cmd_name_device : Nat
  cmd_name_device2 : Nat
  /-- The fields `tariff_1`, `tariff_2`, `tariff_3` of a `pkt_tariffs_t` payload. -/
  tariff_1 : Buf → Nat
  tariff_2 : Buf → Nat
  tariff_3 : Buf → Nat
  /-- The offset of the byte array `amps` inside `pkt_amps_t`. -/
  amps_offset : Nat
  /-- The field `volts` of a `pkt_volts_t` payload. -/
  volts : Buf → Nat
  /-- The offset of the byte array `power` inside `pkt_power_t`. -/
  power_offset : Nat
  /-- The fields `worktime` and `lifetime` of a `pkt_resbat_t` payload. -/
  worktime : Buf → Nat
  lifetime : Buf → Nat
  /-- The offset of the byte array `data` inside `pkt_data31_t`, counted from the start of
  the packet (the decoders of the identity strings cast the packet itself). -/
  data31_offset : Nat
  /-- The bound `DATA_MAX_LEN` of the identity strings. -/
  DATA_MAX_LEN : Nat
  /-- The values of `sizeof(serial_number_notify.serial_number)` and of
  `sizeof(date_release_notify.date_release)`. -/
  sn_notify_size : Nat
  dr_notify_size : Nat

/-- The case labels of the first group of the `switch` in `set_command`. -/
def Decls.simpleCommands (D : Decls) : List Nat :=
  [D.cmd_open_channel, D.cmd_tariffs_data, D.cmd_power_data, D.cmd_read_configure,
   D.cmd_get_info, D.cmd_test_error, D.cmd_resource_battery]

/-- The case labels of the second group of the `switch` in `set_command`. -/
def Decls.paramCommands (D : Decls) : List Nat :=
  [D.cmd_amps_data, D.cmd_volts_data, D.cmd_serial_number, D.cmd_date_release,
   D.cmd_factory_manufacturer, D.cmd_name_device, D.cmd_name_device2]

/-- The enumerators of `command_t` are pairwise different, as the case labels of one
`switch` must be. -/
def Decls.distinctCommands (D : Decls) : Prop := (D.simpleCommands ++ D.paramCommands).Nodup

instance (D : Decls) : Decidable D.distinctCommands := by
  unfold Decls.distinctCommands; infer_instance

/-- Modelled from the spec: `response_status_t` is not among the sources; the spec has
the low byte of the header's status field reinterpreted as the response error code. -/
def status_error (password_status : Nat) : Nat := password_status % 256

/-- The outcomes of one exchange (`pkt_error_t`), by the names the code uses.  `PKT_OK`
is also the value the status byte of a response is compared with; the spec has that
comparison as "nonzero", so its numeric value is taken to be 0. -/
inductive pkt_error_t where
  | PKT_OK
  | PKT_ERR_NO_PKT
  | PKT_ERR_TIMEOUT
  | PKT_ERR_UNKNOWN_FORMAT
  | PKT_ERR_DIFFERENT_COMMAND
  | PKT_ERR_INCOMPLETE
  | PKT_ERR_UNSTUFFING
  | PKT_ERR_ADDRESS
  | PKT_ERR_RESPONSE
  | PKT_ERR_CRC
  deriving DecidableEq, Repr

open pkt_error_t

/-! ## `set_command` (lines 44-84) -/

/-- The header bytes of a packet, written as a whole from the field values: the header
occupies the offsets `2 .. 2 + header_size - 1` of the packet. -/
def storeHeader (D : Decls) (b : Buf) (h : package_header_t) : Buf :=
  fun j => if 2 ≤ j ∧ j < 2 + D.header_size then D.ser h (j - 2) else b j

/-- The function `set_command(command)`: the value of `request_pkt` it leaves.  The
packet is zeroed, the markers and the header fields are stored, and the `switch` sets
length, sub-command, checksum and trailing boundary.  `data[k]` is the byte at offset
`2 + header_size + k`; `address_device` is `config.save_data.address_device`. -/
def set_command (D : Decls) (address_device : Nat) (command : Nat) : package_t :=
  let hdr : package_header_t :=
    { data_len := 0, from_to := 1, address_to := address_device, address_from := PROG_ADDR,
      command := command &&& 0xff, password_status := PASSWORD }
  let b0 := wr (wr zeroBuf 0 START) 1 BOUNDARY
  let data := 2 + D.header_size
  if command ∈ D.simpleCommands then
    let b := storeHeader D b0 hdr
    let pkt_len := (2 + D.header_size + 2) % 256
    let b := wr b data (checksum b pkt_len)
    let b := wr b (data + 1) BOUNDARY
    { bytes := b, pkt_len := pkt_len }
  else if command ∈ D.paramCommands then
    let b := storeHeader D b0 { hdr with data_len := 1 }
    let pkt_len := (2 + D.header_size + 3) % 256
    let b := wr b data ((command >>> 8) &&& 0xff)
    let b := wr b (data + 1) (checksum b pkt_len)
    let b := wr b (data + 2) BOUNDARY
    { bytes := b, pkt_len := pkt_len }
  else
    { bytes := storeHeader D b0 hdr, pkt_len := 0 }

/-! ## The serial link and the program state -/

/-- The serial driver as the protocol engine sees it.  `rx` are the bytes waiting in the
driver's receive buffer; `arrivals` are the bytes that come in during each of the
following calls of `sleep_ms`; `wr_results` are the values the following calls of
`write_bytes_to_uart` return; `tx` logs what was handed to `write_bytes_to_uart`. -/
structure Uart where
  rx : List Nat
  arrivals : List (List Nat)
  wr_results : List Nat
  tx : List (List Nat)

/-- The call `write_bytes_to_uart(buf, len)`: hands `len` bytes to the driver and returns
what the driver reports (0 once the scripted results are used up). -/
def write_bytes_to_uart (u : Uart) (buf : Buf) (len : Nat) : Uart × Nat :=
  ({ u with wr_results := u.wr_results.tail, tx := u.tx ++ [bytesOf buf len] },
   u.wr_results.headD 0)

/-- The call `sleep_ms(ms)`: the bytes arriving meanwhile are appended to the receive
buffer. -/
def sleep_ms (_ms : Nat) (u : Uart) : Uart :=
  { u with rx := u.rx ++ u.arrivals.headD [], arrivals := u.arrivals.tail }

/-- The part of `meter_t` the decoders of `kaskad_1_mt.c` touch. -/
structure meter_t where
  tariff_1 : Nat
  tariff_2 : Nat
  tariff_3 : Nat
  amps : Nat
  voltage : Nat
  power : Nat
  battery_level : Nat
  serial_number : Buf
  serial_number_len : Nat
  date_release : Buf
  date_release_len : Nat

/-- The globals the protocol engine reads and writes. -/
structure State where
  /-- The value of `config.save_data.address_device`. -/
  address_device : Nat
  request_pkt : package_t
  response_pkt : package_t
  package_buff : Buf
  pkt_error_no : pkt_error_t
  meter : meter_t
  tariff_changed : Bool
  pva_changed : Bool
  tariff1_notify : Nat
  tariff2_notify : Nat
  tariff3_notify : Nat
  ampere_notify : Nat
  voltage_notify : Nat
  power_notify : Nat
  sn_notify : Nat
  dr_notify : Nat
  serial_number_notify : Buf
  date_release_notify : Buf
  new_start : Bool
  uart : Uart
  /-- Not a program variable: the commands `send_command` was called with, in order. -/
  requested : List Nat := []

/-! ## `send_command` (lines 159-200) -/

/-- The transmit loop of `send_command` with `k` attempts left; returns the final `len`
(a `uint8_t`, so the driver's result is truncated when it is stored). -/
def sendLoop (buf : Buf) (buff_len : Nat) : Nat → Uart → Uart × Nat
  | 0, u => (u, 0)
  | k + 1, u =>
    let r := write_bytes_to_uart u buf buff_len
    let len := r.2 % 256
    if len = buff_len then (r.1, len)
    else sendLoop buf buff_len k (sleep_ms 250 r.1)

/-- The function `send_command(command)`; `buff_len` is a `uint8_t`.  The call is recorded
in `requested`. -/
def send_command (D : Decls) (command : Nat) (s : State) : State × Nat :=
  let req := set_command D s.address_device command
  let st := byte_stuffing req s.package_buff
  let buff_len := st.2 % 256
  let r := sendLoop st.1 buff_len 3 s.uart
  let u := if r.2 = 0 then r.1 else sleep_ms 100 r.1
  ({ s with request_pkt := req, package_buff := st.1, uart := u,
            requested := s.requested ++ [command] }, r.2)

/-! ## `response_meter` (lines 202-292) -/

/-- The variables of the receive loops of `response_meter`. -/
structure Recv where
  uart : Uart
  load_size : Nat
  buff : Buf
  err : pkt_error_t
  complete : Bool

/-- The inner `while` loop of `response_meter`, over the bytes waiting in the driver
(`available_buff_uart()` is their number, `read_byte_from_buff_uart()` takes the first
and returns it as a `uint8_t`).  Returns the bytes left waiting, `load_size`,
`package_buff`, `pkt_error_no` and `complete`. -/
def recvWhile (max_len : Nat) : List Nat → Nat → Buf → pkt_error_t →
    List Nat × Nat × Buf × pkt_error_t × Bool
  | [], load_size, buff, err => ([], load_size, buff, err, false)
  | c :: rest, load_size, buff, err =>
    if load_size < max_len then
      let ch := c % 256
      if load_size = 0 then
        if ch ≠ START then recvWhile max_len rest load_size buff PKT_ERR_NO_PKT
        else recvWhile max_len rest (load_size + 1) (wr buff load_size ch) err
      else if load_size = 1 then
        if ch ≠ BOUNDARY then recvWhile max_len rest 0 buff PKT_ERR_UNKNOWN_FORMAT
        else recvWhile max_len rest (load_size + 1) (wr buff load_size ch) err
      else if ch = BOUNDARY then
        (rest, load_size + 1, wr buff load_size ch, PKT_OK, true)
      else recvWhile max_len rest (load_size + 1) (wr buff load_size ch) err
    else (c :: rest, load_size, buff, err, false)

/-- The `for (attempt ...)` loop of `response_meter` with `k` attempts left.  Every
attempt resets `load_size`, runs the inner loop and sleeps; a completed frame ends the
attempts. -/
def recvAttempts (max_len : Nat) : Nat → Recv → Recv
  | 0, r => r
  | k + 1, r =>
    let w := recvWhile max_len r.uart.rx 0 r.buff r.err
    let u := sleep_ms 250 { r.uart with rx := w.1 }
    let r1 : Recv :=
      { uart := u, load_size := w.2.1, buff := w.2.2.1, err := w.2.2.2.1,
        complete := w.2.2.2.2 }
    if r1.complete then r1 else recvAttempts max_len k r1

/-- The call `memset(s, c, n)` on an array of `n` cells: these are set to `c`.  The cells
of the region from offset `n` on are not part of the array: they stand for whatever lies
behind it in memory, and keep their content. -/
def memset (s : Buf) (c n : Nat) : Buf := fun i => if i < n then c else s i

/-- The receive phase of `response_meter` (lines 204-241): `pkt_error_no` starts as
`PKT_ERR_TIMEOUT`, the `PKT_BUFF_MAX_LEN` cells of `package_buff` are zeroed
(`memset(package_buff, 0, sizeof(package_buff))`), three attempts. -/
def receive (D : Decls) (s : State) : Recv :=
  recvAttempts D.PKT_BUFF_MAX_LEN 3
    { uart := s.uart, load_size := 0, buff := memset s.package_buff 0 D.PKT_BUFF_MAX_LEN,
      err := PKT_ERR_TIMEOUT, complete := false }

/-- The header of a packet, read through the layout. -/
def headerOf (D : Decls) (p : package_t) : package_header_t :=
  D.deser (fun i => rd p.bytes (2 + i))

/-- The byte `data[k]` of a packet. -/
def dataAt (D : Decls) (p : package_t) (k : Nat) : Nat := rd p.bytes (2 + D.header_size + k)

/-- The checks of lines 260-278 on the unstuffed `response_pkt`.  The local `err` of
line 274 receives the status byte and is never read again, and `pkt_error_t` has no room
for it: it takes no part in the result. -/
def checkResponse (D : Decls) (address_device command : Nat) (p : package_t) : pkt_error_t :=
  let crc := checksum p.bytes p.pkt_len
  if crc = dataAt D p (headerOf D p).data_len then
    if status_error (headerOf D p).password_status = 0 then
      if (headerOf D p).address_from = address_device then
        if (headerOf D p).command = command &&& 0xff then PKT_OK
        else PKT_ERR_DIFFERENT_COMMAND
      else PKT_ERR_ADDRESS
    else PKT_ERR_RESPONSE
  else PKT_ERR_CRC

/-- The function `response_meter(command)`.  `byte_unstuffing` receives `load_size` as a
`uint8_t`; `response_pkt.pkt_len = len` stores an 8-bit field. -/
def response_meter (D : Decls) (command : Nat) (s : State) : State × pkt_error_t :=
  let r := receive D s
  let s1 := { s with uart := r.uart, package_buff := r.buff }
  if r.load_size ≠ 0 then
    if r.complete then
      let un := byte_unstuffing r.load_size r.buff s.response_pkt.bytes
      if un.2 ≠ 0 then
        let p : package_t := { bytes := un.1, pkt_len := un.2 % 256 }
        let e := checkResponse D s.address_device command p
        ({ s1 with response_pkt := p, pkt_error_no := e }, e)
      else
        ({ s1 with response_pkt := { s.response_pkt with bytes := un.1 },
                   pkt_error_no := PKT_ERR_UNSTUFFING }, PKT_ERR_UNSTUFFING)
    else ({ s1 with pkt_error_no := PKT_ERR_INCOMPLETE }, PKT_ERR_INCOMPLETE)
  else ({ s1 with pkt_error_no := r.err }, r.err)

/-- The function `get_pkt_data(command)`; the boolean tells whether the returned pointer
is `&response_pkt` rather than `NULL`. -/
def get_pkt_data (D : Decls) (command : Nat) (s : State) : State × Bool :=
  let r := send_command D command s
  if r.2 ≠ 0 then
    let q := response_meter D command r.1
    (q.1, decide (q.2 = PKT_OK))
  else (r.1, false)

/-- The result of `byte_unstuffing` on what the receive phase of an exchange collected
(line 256). -/
def unstuffed (D : Decls) (s : State) : Buf × Nat :=
  byte_unstuffing (receive D s).load_size (receive D s).buff s.response_pkt.bytes

/-- The packet `response_pkt` as lines 256-258 leave it. -/
def unstuffedPkt (D : Decls) (s : State) : package_t :=
  { bytes := (unstuffed D s).1, pkt_len := (unstuffed D s).2 % 256 }

/-! ## `from24to32` (`device.c`, lines 31-40) -/

/-- The function `from24to32(str)`; `str` is the region starting at the pointer. -/
def from24to32 (str : Buf) : Nat :=
  let value := rd str 0 &&& 0xff
  let value := value ||| ((rd str 1 <<< 8) &&& 0xff00)
  let value := value ||| ((rd str 2 <<< 16) &&& 0xff0000)
  value

/-! ## The readings decoders (`kaskad_1_mt.c`, lines 319-540) -/

/-- The payload `pkt->data` of the response packet, as a region of its own. -/
def payload (D : Decls) (s : State) : Buf := fun k => dataAt D s.response_pkt k

/-- The three guarded updates of `get_tariffs_data` (lines 331-353), on the state the
exchange left. -/
def update_tariffs (D : Decls) (s : State) : State :=
  let tariff := D.tariff_1 (payload D s)
  let s1 :=
    if s.meter.tariff_1 < tariff then
      { s with meter := { s.meter with tariff_1 := tariff }, tariff_changed := true,
               tariff1_notify := D.NOTIFY_MAX }
    else s
  let tariff := D.tariff_2 (payload D s)
  let s2 :=
    if s1.meter.tariff_2 < tariff then
      { s1 with meter := { s1.meter with tariff_2 := tariff }, tariff_changed := true,
                tariff2_notify := D.NOTIFY_MAX }
    else s1
  let tariff := D.tariff_3 (payload D s)
  if s2.meter.tariff_3 < tariff then
    { s2 with meter := { s2.meter with tariff_3 := tariff }, tariff_changed := true,
              tariff3_notify := D.NOTIFY_MAX }
  else s2

/-- The function `get_tariffs_data()`. -/
def get_tariffs_data (D : Decls) (s : State) : State :=
  let r := get_pkt_data D D.cmd_tariffs_data s
  if r.2 then update_tariffs D r.1 else r.1

/-- The loop `while (amps > 0xffff) amps /= 10;` with a bound on its iterations; `none`
when the bound is used up before the loop condition fails. -/
def scaleLoop : Nat → Nat → Option Nat
  | 0, _ => none
  | fuel + 1, amps => if amps > 0xffff then scaleLoop fuel (amps / 10) else some amps

/-- The raw current value of lines 381-386: two bytes when the declared payload length is
3, the 24-bit decode otherwise. -/
def raw_amps (D : Decls) (s : State) : Nat :=
  let amps_bytes : Buf := fun k => payload D s (D.amps_offset + k)
  if (headerOf D s.response_pkt).data_len = 3 then
    let amps := rd amps_bytes 0
    amps ||| ((rd amps_bytes 1 <<< 8) &&& 0xff00)
  else from24to32 amps_bytes

/-- The body of `get_amps_data` after a successful exchange (lines 376-395); `none` if
the scaling loop did not end within `raw + 1` iterations. -/
def update_amps (D : Decls) (s : State) : Option State :=
  match scaleLoop (raw_amps D s + 1) (raw_amps D s) with
  | none => none
  | some amps =>
    if s.meter.amps ≠ amps then
      some { s with meter := { s.meter with amps := amps }, pva_changed := true,
                    ampere_notify := D.NOTIFY_MAX }
    else some s

/-- The function `get_amps_data()`. -/
def get_amps_data (D : Decls) (s : State) : Option State :=
  let r := get_pkt_data D D.cmd_amps_data s
  if r.2 then update_amps D r.1 else some r.1

/-- The function `get_voltage_data()`. -/
def get_voltage_data (D : Decls) (s : State) : State :=
  let r := get_pkt_data D D.cmd_volts_data s
  if r.2 then
    let s := r.1
    if s.meter.voltage ≠ D.volts (payload D s) then
      { s with meter := { s.meter with voltage := D.volts (payload D s) }, pva_changed := true,
               voltage_notify := D.NOTIFY_MAX }
    else s
  else r.1

/-- The function `get_power_data()`. -/
def get_power_data (D : Decls) (s : State) : State :=
  let r := get_pkt_data D D.cmd_power_data s
  if r.2 then
    let s := r.1
    let power := from24to32 (fun k => payload D s (D.power_offset + k))
    if s.meter.power ≠ power then
      { s with meter := { s.meter with power := power }, pva_changed := true,
               power_notify := D.NOTIFY_MAX }
    else s
  else r.1

/-- The value of the `uint8_t battery_level` of lines 528-532.  The product
`worktime*100` is computed in 32 bits; the quotient is truncated when it is stored in
the 8-bit variable, and so is the increment.  With `lifetime = 0` line 528 divides by
zero, and nothing guards it: the program does not go on from there, which is `none`. -/
def battery_level (worktime lifetime : Nat) : Option Nat :=
  if lifetime = 0 then none
  else
    let level := ((worktime * 100) % 2 ^ 32 / lifetime) % 256
    some (if ((worktime * 100) % 2 ^ 32) % lifetime ≥ lifetime / 2 then (level + 1) % 256
          else level)

/-- The body of `get_resbat_data` after a successful exchange (lines 521-537); `none`
when the division of line 528 is a division by zero. -/
def update_resbat (D : Decls) (s : State) : Option State :=
  (battery_level (D.worktime (payload D s)) (D.lifetime (payload D s))).map (fun level =>
    if s.meter.battery_level ≠ level then
      { s with meter := { s.meter with battery_level := level }, pva_changed := true }
    else s)

/-- The function `get_resbat_data()`; `none` when it does not return. -/
def get_resbat_data (D : Decls) (s : State) : Option State :=
  let r := get_pkt_data D D.cmd_resource_battery s
  if r.2 then update_resbat D r.1 else some r.1

/-! ## A concrete choice of the missing declarations -/

/-- Little-endian read of a 16-bit field. -/
def le16 (b : Buf) (i : Nat) : Nat := rd b i + 256 * rd b (i + 1)

/-- Little-endian read of a 32-bit field. -/
def le32 (b : Buf) (i : Nat) : Nat :=
  rd b i + 256 * rd b (i + 1) + 65536 * rd b (i + 2) + 16777216 * rd b (i + 3)

/-- Modelled from the spec: the header layout, the command identifiers and the payload
layouts are declared in headers that are not among the sources.  This instance follows
the data model of the spec: a header of direction flag, 16-bit target address, 16-bit
source address, 8-bit command code, 32-bit password/status field and 8-bit payload
length, in this order, multi-byte fields little-endian; payload fields packed in the
order the spec names them.  The numeric values (command identifiers, buffer bound,
notification constant, string bound, sizes of the notification buffers) are sample
values; `pkt_data31_t` is taken to have its `data` right behind the header.  It serves to evaluate the definitions on
concrete inputs; no theorem depends on these choices. -/
def sampleDecls : Decls where
  header_size := 11
  ser := fun h i =>
    [h.from_to % 256,
     h.address_to % 256, h.address_to / 256 % 256,
     h.address_from % 256, h.address_from / 256 % 256,
     h.command % 256,
     h.password_status % 256, h.password_status / 256 % 256,
     h.password_status / 65536 % 256, h.password_status / 16777216 % 256,
     h.data_len % 256].getD i 0
  deser := fun b =>
    { from_to := rd b 0, address_to := le16 b 1, address_from := le16 b 3,
      command := rd b 5, password_status := le32 b 6, data_len := rd b 10 }
  PKT_BUFF_MAX_LEN := 128
  NOTIFY_MAX := 2
  cmd_open_channel := 0x01
  cmd_tariffs_data := 0x05
  cmd_power_data := 0x2d
  cmd_read_configure := 0x10
  cmd_get_info := 0x30
  cmd_test_error := 0x60
  cmd_resource_battery := 0x1e
  cmd_amps_data := 0x012c
  cmd_volts_data := 0x0129
  cmd_serial_number := 0x010a
  cmd_date_release := 0x020a
  cmd_factory_manufacturer := 0x030a
  cmd_name_device := 0x040a
  cmd_name_device2 := 0x050a
  tariff_1 := fun b => le32 b 0
  tariff_2 := fun b => le32 b 4
  tariff_3 := fun b => le32 b 8
  amps_offset := 1
  volts := fun b => le16 b 1
  power_offset := 0
  worktime := fun b => le16 b 2
  lifetime := fun b => le16 b 0
  data31_offset := 13
  DATA_MAX_LEN := 8
  sn_notify_size := 6
  dr_notify_size := 6

/-- An idle link: nothing waiting, nothing arriving, every write refused. -/
def idleUart : Uart := { rx := [], arrivals := [], wr_results := [], tx := [] }

/-- The state after start-up: zeroed buffers and meter, flags as initialised in
`device.c` (lines 11-17), configured device address `addr`, link `u`. -/
def initState (addr : Nat) (u : Uart) : State where
  address_device := addr
  request_pkt := { bytes := zeroBuf, pkt_len := 0 }
  response_pkt := { bytes := zeroBuf, pkt_len := 0 }
  package_buff := zeroBuf
  pkt_error_no := PKT_OK
  meter :=
    { tariff_1 := 0, tariff_2 := 0, tariff_3 := 0, amps := 0, voltage := 0, power := 0,
      battery_level := 0, serial_number := zeroBuf, serial_number_len := 0,
      date_release := zeroBuf, date_release_len := 0 }
  tariff_changed := true
  pva_changed := true
  tariff1_notify := 0
  tariff2_notify := 0
  tariff3_notify := 0
  ampere_notify := 0
  voltage_notify := 0
  power_notify := 0
  sn_notify := 0
  dr_notify := 0
  serial_number_notify := zeroBuf
  date_release_notify := zeroBuf
  new_start := true
  uart := u

/-- A response frame as a meter with the sample layout sends it: header for direction
"from device", the given addresses, command, status and payload, then the checksum and
the trailing boundary; unescaped. -/
def sampleResponse (address_to address_from command status : Nat) (data : List Nat) :
    List Nat :=
  let hdr : package_header_t :=
    { data_len := data.length, from_to := 0, address_to := address_to,
      address_from := address_from, command := command, password_status := status }
  let body := [START, BOUNDARY] ++ (List.range 11).map (sampleDecls.ser hdr) ++ data
  body ++ [checksum (ofList (body ++ [0, 0])) (body.length + 2), BOUNDARY]

/-- The escaped form of an unescaped frame given as a list (through `byte_stuffing`). -/
def escaped (frame : List Nat) : List Nat :=
  bytesOf (byte_stuffing ⟨ofList frame, frame.length⟩ zeroBuf).1
    (byte_stuffing ⟨ofList frame, frame.length⟩ zeroBuf).2

/-! ## What an exchange leaves alone -/

/-- The state `t` holds the same readings as `s`: the same configuration, meter values,
changed flags, notification counters and buffers, and first-cycle flag. -/
def sameReadings (s t : State) : Prop :=
  t.address_device = s.address_device ∧ t.meter = s.meter
    ∧ t.tariff_changed = s.tariff_changed ∧ t.pva_changed = s.pva_changed
    ∧ t.tariff1_notify = s.tariff1_notify ∧ t.tariff2_notify = s.tariff2_notify
    ∧ t.tariff3_notify = s.tariff3_notify ∧ t.ampere_notify = s.ampere_notify
    ∧ t.voltage_notify = s.voltage_notify ∧ t.power_notify = s.power_notify
    ∧ t.sn_notify = s.sn_notify ∧ t.dr_notify = s.dr_notify
    ∧ t.serial_number_notify = s.serial_number_notify
    ∧ t.date_release_notify = s.date_release_notify ∧ t.new_start = s.new_start

/-- A start-up state whose link accepts one write of `accept` bytes and delivers the
bytes `response` during the turnaround wait that follows. -/
def exchangeState (addr accept : Nat) (response : List Nat) : State :=
  initState addr { rx := [], arrivals := [response], wr_results := [accept], tx := [] }

/-- A start-up state in whose receive buffer the bytes `rx` are waiting. -/
def waitingState (addr : Nat) (rx : List Nat) : State :=
  initState addr { idleUart with rx := rx }

/-- The state an exchange for `command` leaves. -/
def exchanged (D : Decls) (command : Nat) (s : State) : State := (get_pkt_data D command s).1

/-- A state with stored tariffs 5, 20, 40 and cleared tariff flag, whose link accepts the
15 bytes of the tariffs request and answers with a validated tariffs response of device
20109 carrying the values 10, 20, 30. -/
def tariffsScenario : State :=
  { exchangeState 20109 15
      [115, 85, 0, 255, 255, 141, 78, 5, 0, 0, 0, 0, 12,
       10, 0, 0, 0, 20, 0, 0, 0, 30, 0, 0, 0, 62, 85] with
    meter := { (initState 20109 idleUart).meter with tariff_1 := 5, tariff_2 := 20, tariff_3 := 40 }
    tariff_changed := false }

/-- A start-up state whose link accepts the 16 bytes of the current request and answers
with a validated response of device 20109 with declared payload length 4 and the current
bytes `40 42 0f` (raw value 1000000). -/
def ampsScenario : State :=
  exchangeState 20109 16
    [115, 85, 0, 255, 255, 141, 78, 44, 0, 0, 0, 0, 4, 1, 64, 66, 15, 84, 85]

/-- A start-up state whose link accepts the 15 bytes of the battery-resource request and
answers with a validated response of device 20109 whose payload holds the two 16-bit
values `lifetime` and `worktime` (each below 256 here, so the high bytes are 0), with the
checksum byte `crc`. -/
def resbatScenario (lifetime worktime crc : Nat) : State :=
  exchangeState 20109 15
    [115, 85, 0, 255, 255, 141, 78, 30, 0, 0, 0, 0, 4, lifetime, 0, worktime, 0, crc, 85]

/-! ## Notions for the transmit retry -/

/-- The byte count `buff_len` that `send_command(command)` passes to the link in the
state `s`. -/
def buff_len (D : Decls) (command : Nat) (s : State) : Nat :=
  (byte_stuffing (set_command D s.address_device command) s.package_buff).2 % 256

/-- The `i`-th of the following calls of `write_bytes_to_uart` accepts `len` bytes: the
driver's result, as stored in the `uint8_t len` of `send_command`, equals `len`. -/
def accepts (u : Uart) (len i : Nat) : Prop := u.wr_results.getD i 0 % 256 = len

instance (u : Uart) (len i : Nat) : Decidable (accepts u len i) := by
  unfold accepts; infer_instance

/-- The bytes that arrive during the `i`-th of the following calls of `sleep_ms`. -/
def arriving (u : Uart) (i : Nat) : List Nat := u.arrivals.getD i []

/-- The link after `k` refused writes of the same buffer, each followed by the 250 ms
wait. -/
def afterFailures (buf : Buf) (len : Nat) : Nat → Uart → Uart
  | 0, u => u
  | k + 1, u => afterFailures buf len k (sleep_ms 250 (write_bytes_to_uart u buf len).1)

/-- A state whose link refuses the first two writes and accepts the third (15 bytes), and
one whose link refuses every write; in both, five bytes are waiting in the receive
buffer. -/
def retryState (wr_results : List Nat) : State :=
  initState 20109 { rx := [1, 2, 3, 4, 5], arrivals := [], wr_results := wr_results, tx := [] }

/-! ## The identity decoders (`kaskad_1_mt.c`, lines 458-509) -/

/-- The test `memcmp(a, b, n) != 0`: the first `n` bytes of the two regions differ. -/
def memcmp_ne (a b : Buf) (n : Nat) : Bool := decide (seg a 0 n ≠ seg b 0 n)

/-- The call `memcpy(dst, src, n)`: the region `dst` afterwards. -/
def memcpy (dst src : Buf) (n : Nat) : Buf := fun i => if i < n then rd src i else dst i

/-- The scan of `sprintf(.., "%s", src)` for the terminating zero byte, from offset `i`
on, over at most `fuel` cells; `none` when no zero byte is among them. -/
def strlen (src : Buf) : Nat → Nat → Option Nat
  | 0, _ => none
  | fuel + 1, i => if rd src i = 0 then some i else strlen src fuel (i + 1)

/-- The call `sprintf(dst, "%s", src)`: the string is copied with its terminating zero
byte; the result is the region `dst` afterwards and the returned length. -/
def sprintf_s (fuel : Nat) (dst src : Buf) : Option (Buf × Nat) :=
  (strlen src fuel 0).map (fun len => (wr (memcpy dst src len) len 0, len))

/-- The array `data` of the response packet seen as a `pkt_data31_t`. -/
def data31 (D : Decls) (s : State) : Buf :=
  fun k => rd s.response_pkt.bytes (D.data31_offset + k)

/-- The body of `get_serial_number_data_kaskad1mt` after a successful exchange (lines
468-480); `none` when the string of the response has no terminator within `fuel`
cells. -/
def update_serial_number (D : Decls) (fuel : Nat) (s : State) : Option State :=
  if memcmp_ne s.meter.serial_number (data31 D s) D.DATA_MAX_LEN then
    (sprintf_s fuel s.meter.serial_number (data31 D s)).map (fun r =>
      { s with
        meter := { s.meter with serial_number := r.1, serial_number_len := r.2 }
        serial_number_notify :=
          memcpy s.serial_number_notify r.1
            (if r.2 > D.sn_notify_size then D.sn_notify_size else r.2)
        sn_notify := D.NOTIFY_MAX })
  else some s

/-- The function `get_serial_number_data_kaskad1mt()`. -/
def get_serial_number_data_kaskad1mt (D : Decls) (fuel : Nat) (s : State) : Option State :=
  let r := get_pkt_data D D.cmd_serial_number s
  if r.2 then update_serial_number D fuel r.1 else some r.1

/-- The body of `get_date_release_data_kaskad1mt` after a successful exchange (lines
494-506).  The condition of line 500 calls `memcpy`, not `memcmp`: it copies
`DATA_MAX_LEN` bytes of the response into `meter.date_release` and yields the
destination pointer, which is the address of a global array and so never null; the
guarded block always runs. -/
def update_date_release (D : Decls) (fuel : Nat) (s : State) : Option State :=
  let copied := memcpy s.meter.date_release (data31 D s) D.DATA_MAX_LEN
  (sprintf_s fuel copied (data31 D s)).map (fun r =>
    { s with
      meter := { s.meter with date_release := r.1, date_release_len := r.2 }
      date_release_notify :=
        memcpy s.date_release_notify r.1
          (if r.2 > D.dr_notify_size then D.dr_notify_size else r.2)
      dr_notify := D.NOTIFY_MAX })

/-- The function `get_date_release_data_kaskad1mt()`. -/
def get_date_release_data_kaskad1mt (D : Decls) (fuel : Nat) (s : State) : Option State :=
  let r := get_pkt_data D D.cmd_date_release s
  if r.2 then update_date_release D fuel r.1 else some r.1

/-- A state in which the identity string `AB12` is already stored, as serial number and
as release date, with its length and its copy in the notification buffers, and whose
notification counters have been used up; the link accepts the 16 bytes of an identity
request and answers with a validated response of device 20109 carrying the same eight
bytes `41 42 31 32 00 00 00 00`. -/
def identityScenario : State :=
  { exchangeState 20109 16
      [115, 85, 0, 255, 255, 141, 78, 10, 0, 0, 0, 0, 8,
       65, 66, 49, 50, 0, 0, 0, 0, 157, 85] with
    meter :=
      { (initState 20109 idleUart).meter with
        serial_number := ofList [65, 66, 49, 50], serial_number_len := 4
        date_release := ofList [65, 66, 49, 50], date_release_len := 4 }
    serial_number_notify := ofList [65, 66, 49, 50]
    date_release_notify := ofList [65, 66, 49, 50]
    sn_notify := 0
    dr_notify := 0 }

/-! ## `set_device_type` (`device.c`, lines 42-69) -/

/-- The values of `config.save_data.device_type`: the four enumerators the `switch`
names, and any other stored value. -/
inductive device_type_t where
  | device_undefined
  | device_kaskad_1_mt
  | device_kaskad_11
  | device_mercury_206
  | other (value : Nat)
  deriving DecidableEq, Repr

/-- The functions a `measure_meter` pointer is bound to. -/
inductive measure_fn where
  | k1mt_measure_meter
  | k11_measure_meter
  | m206_measure_meter
  deriving DecidableEq, Repr

/-- The functions a `get_date_release_data` pointer is bound to. -/
inductive date_release_fn where
  | k1mt_get_date_release_data
  | k11_get_date_release_data
  | m206_get_date_release_data
  deriving DecidableEq, Repr

/-- The functions a `get_serial_number_data` pointer is bound to. -/
inductive serial_number_fn where
  | k1mt_get_serial_number_data
  | k11_get_serial_number_data
  deriving DecidableEq, Repr

/-- What `set_device_type` reads and writes: the configured device type and the three
function pointers of `meter`; `none` is the null pointer, the value they have after the
static initialisation `meter = {0}`. -/
structure dispatch_t where
  device_type : device_type_t
  measure_meter : Option measure_fn
  get_date_release_data : Option date_release_fn
  get_serial_number_data : Option serial_number_fn
  deriving DecidableEq, Repr

open device_type_t measure_fn date_release_fn serial_number_fn in
/-- The function `set_device_type()`.  In the case `device_mercury_206` the assignment
of `meter.get_serial_number_data` is commented out (line 64), so that pointer keeps its
value. -/
def set_device_type (d : dispatch_t) : dispatch_t :=
  match d.device_type with
  | device_undefined =>
    { device_type := device_kaskad_1_mt
      measure_meter := some k1mt_measure_meter
      get_date_release_data := some k1mt_get_date_release_data
      get_serial_number_data := some k1mt_get_serial_number_data }
  | device_kaskad_1_mt =>
    { d with
      measure_meter := some k1mt_measure_meter
      get_date_release_data := some k1mt_get_date_release_data
      get_serial_number_data := some k1mt_get_serial_number_data }
  | device_kaskad_11 =>
    { d with
      measure_meter := some k11_measure_meter
      get_date_release_data := some k11_get_date_release_data
      get_serial_number_data := some k11_get_serial_number_data }
  | device_mercury_206 =>
    { d with
      measure_meter := some m206_measure_meter
      get_date_release_data := some m206_get_date_release_data }
  | other _ => d

/-- The dispatch state after start-up with the given configured device type: all three
pointers null. -/
def startDispatch (t : device_type_t) : dispatch_t :=
  { device_type := t, measure_meter := none, get_date_release_data := none,
    get_serial_number_data := none }

/-! ## `ping_start_data` and `measure_meter_kaskad1mt` (lines 304-317, 554-568) -/

/-- The function `ping_start_data()`. -/
def ping_start_data (D : Decls) (s : State) : State × Bool :=
  let r := get_pkt_data D D.cmd_open_channel s
  if r.2 then (r.1, true) else (r.1, false)

/-- The block of lines 557-561: after a reset the two identity strings are fetched and
`new_start` is cleared. -/
def identity_fetch (D : Decls) (fuel : Nat) (s : State) : Option State :=
  if s.new_start then
    (get_serial_number_data_kaskad1mt D fuel s).bind (fun s1 =>
      (get_date_release_data_kaskad1mt D fuel s1).map (fun s2 =>
        { s2 with new_start := false }))
  else some s

/-- The five fetches of lines 562-566, each on the state the one before it left; a fetch
that does not return ends the run. -/
def readings_fetch (D : Decls) (s : State) : Option State :=
  (get_resbat_data D (get_tariffs_data D s)).bind (fun s2 =>
    get_amps_data D (get_power_data D (get_voltage_data D s2)))

/-- The function `measure_meter_kaskad1mt()`; `none` when it does not return: a string
scan or the scaling loop does not end within its bound, or `get_resbat_data` divides by
zero. -/
def measure_meter_kaskad1mt (D : Decls) (fuel : Nat) (s : State) : Option State :=
  let p := ping_start_data D s
  if p.2 then (identity_fetch D fuel p.1).bind (readings_fetch D)
  else some p.1

/-- The commands of the five fetches of every cycle, in the order of lines 562-566. -/
def readingCommands (D : Decls) : List Nat :=
  [D.cmd_tariffs_data, D.cmd_resource_battery, D.cmd_volts_data, D.cmd_power_data,
   D.cmd_amps_data]

/-- The state in which a cycle with a successful ping calls `get_resbat_data` (line
563): after the ping, the identity fetch and `get_tariffs_data`. -/
def before_resbat (D : Decls) (fuel : Nat) (s : State) : Option State :=
  (identity_fetch D fuel (ping_start_data D s).1).map (get_tariffs_data D)

/-- A link that accepts every request of one cycle (15 or 16 bytes) and answers each
during the turnaround wait with a validated response of device 20109 under the sample
layout: open-channel; on a first cycle the identity string `AB12`, twice; tariffs 10, 20,
30; a battery resource of the given `lifetime` (below 256) and `worktime` 50, with the
checksum byte `crc`; voltage 230; power 10000; current bytes `40 42 0f`. -/
def cycleLink (first : Bool) (lifetime crc : Nat) : Uart :=
  { rx := []
    arrivals :=
      [[115, 85, 0, 255, 255, 141, 78, 1, 0, 0, 0, 0, 0, 255, 85], []]
      ++ (if first then
            [[115, 85, 0, 255, 255, 141, 78, 10, 0, 0, 0, 0, 8,
              65, 66, 49, 50, 0, 0, 0, 0, 157, 85], [],
             [115, 85, 0, 255, 255, 141, 78, 10, 0, 0, 0, 0, 8,
              65, 66, 49, 50, 0, 0, 0, 0, 157, 85], []]
          else [])
      ++ [[115, 85, 0, 255, 255, 141, 78, 5, 0, 0, 0, 0, 12,
           10, 0, 0, 0, 20, 0, 0, 0, 30, 0, 0, 0, 62, 85], [],
          [115, 85, 0, 255, 255, 141, 78, 30, 0, 0, 0, 0, 4, lifetime, 0, 50, 0, crc, 85], [],
          [115, 85, 0, 255, 255, 141, 78, 41, 0, 0, 0, 0, 3, 1, 230, 0, 213, 85], [],
          [115, 85, 0, 255, 255, 141, 78, 45, 0, 0, 0, 0, 3, 16, 39, 0, 86, 85], [],
          [115, 85, 0, 255, 255, 141, 78, 44, 0, 0, 0, 0, 4, 1, 64, 66, 15, 84, 85], []]
    wr_results := [15] ++ (if first then [16, 16] else []) ++ [15, 15, 16, 15, 16]
    tx := [] }

/-- A start-up state on the link `cycleLink`, with the first-cycle flag as given. -/
def answeredCycle (first : Bool) (lifetime crc : Nat) : State :=
  { initState 20109 (cycleLink first lifetime crc) with new_start := first }
/-! ## The checksum as the specification words it -/

/-- One of the eight iterations of the specification's CRC: if the top bit of the 8-bit
accumulator is set, shift left and XOR with the polynomial `0xA9`, else shift left. -/
def crc8_bit (acc : Nat) : Nat :=
  if 128 ≤ acc % 256 then (2 * acc % 256) ^^^ 0xA9 else 2 * acc % 256

/-- The specification's treatment of one byte: XOR it into the accumulator, then eight
iterations. -/
def crc8_byte (acc b : Nat) : Nat := Nat.iterate crc8_bit 8 (acc ^^^ b)

/-- The specification's CRC-8 of a byte sequence: seed 0, the bytes in order, no
reflection, no final XOR. -/
def crc8 (bytes : List Nat) : Nat := bytes.foldl crc8_byte 0

/-! ## Concrete inputs for the receive path -/

/-- A state in whose receive buffer the three bytes `73 55 55` are waiting, with the
given stale content of `response_pkt`. -/
def shortFrameState (stale : Buf) : State :=
  { waitingState 20109 [0x73, 0x55, 0x55] with
    response_pkt := { bytes := stale, pkt_len := 0 } }

/-- A state whose link accepts the 15 bytes of the tariffs request and answers with a
response of device 20109 that is well-formed and checksummed but reports the status
`code` in the low byte of its status field; `crc` is its checksum byte. -/
def deviceErrorScenario (code crc : Nat) : State :=
  exchangeState 20109 15
    [115, 85, 0, 255, 255, 141, 78, 5, code, 0, 0, 0, 12,
     10, 0, 0, 0, 20, 0, 0, 0, 30, 0, 0, 0, crc, 85]

/-! ## Notions for the acceptance of a response -/

/-- The header fields are read from the bytes of the header alone. -/
def Decls.headerLocal (D : Decls) : Prop :=
  ∀ b d : Buf, (∀ i, i < D.header_size → b i = d i) → D.deser b = D.deser d

/-- The bytes of a list stored one after the other from offset `i` on, each as the
`uint8_t` it is read as. -/
def storeList (b : Buf) : Nat → List Nat → Buf
  | _, [] => b
  | i, x :: l => storeList (wr b i (x % 256)) (i + 1) l

/-- The unescaped tariffs response `73 55 | 00 ff ff 8d 4e 05 00 00 00 00 0c | 55 73 00 00
14 00 00 00 1e 00 00 00 | 7c 55` of device 20109 under the sample layout, whose first
tariff bytes are the two reserved values. -/
def reservedResponse : Buf :=
  ofList [115, 85, 0, 255, 255, 141, 78, 5, 0, 0, 0, 0, 12,
          85, 115, 0, 0, 20, 0, 0, 0, 30, 0, 0, 0, 124, 85]

/-- A state in whose receive buffer three stray bytes are waiting, followed by the
escaped form of `reservedResponse`, 29 bytes. -/
def acceptScenario : State :=
  waitingState 20109
    ([0, 1, 2] ++ [115, 85, 0, 255, 255, 141, 78, 5, 0, 0, 0, 0, 12,
                   115, 17, 115, 34, 0, 0, 20, 0, 0, 0, 30, 0, 0, 0, 124, 85] ++ [])


/-- The unescaped response `73 55 | 00 ff ff 8d 4e 05 00 00 00 00 6f | 55 73 00 .. 00 | a9
55` of device 20109 to the tariffs request under the sample layout: 126 bytes, declared
payload length 111, the payload being the two reserved values and 109 zero bytes.  Its
escaped form has 128 bytes, as many as the receive buffer of the sample layout has
cells. -/
def longResponse : Buf :=
  ofList ([115, 85, 0, 255, 255, 141, 78, 5, 0, 0, 0, 0, 111, 85, 115]
    ++ List.replicate 109 0 ++ [169, 85])

/-- A state in whose receive buffer the escaped form of `longResponse` is waiting, and
in which the two memory cells right behind the array `package_buff` (offsets 128 and
129 of the region) hold `b0` and `b1`. -/
def bufferEndScenario (b0 b1 : Nat) : State :=
  { waitingState 20109 (escapeFrame longResponse 126) with
    package_buff := wr (wr zeroBuf 128 b0) 129 b1 }
/-! ## Auxiliary definitions used in the proofs -/

/-- Undoes one bit step on an 8-bit value: the generator is odd, so the parity of the
result tells which branch was taken. -/
def crcBitInv (y : Nat) : Nat :=
  if y % 2 = 1 then ((y ^^^ 0xA9) >>> 1) ||| 0x80 else y >>> 1

/-! # Properties -/

/-! ## Facts about the memory model -/

theorem rd_lt (b : Buf) (i : Nat) : rd b i < 256 := Nat.mod_lt _ (by decide)

theorem rd_wr_same (b : Buf) (i v : Nat) : rd (wr b i v) i = v % 256 := by
  simp [rd, wr]

theorem rd_wr_other (b : Buf) {i j : Nat} (v : Nat) (h : j ≠ i) : rd (wr b i v) j = rd b j := by
  simp [rd, wr, h]

/-! ## Facts about `checksum` -/

theorem crcBit_lt (c : Nat) : crcBit c < 256 := by
  unfold crcBit
  split <;> exact Nat.mod_lt _ (by decide)

theorem crcBits_lt : ∀ (k c : Nat), c < 256 → crcBits k c < 256
  | 0, _, h => h
  | k + 1, c, _ => crcBits_lt k (crcBit c) (crcBit_lt c)

theorem crcBitInv_crcBit : ∀ x < 256, crcBitInv (crcBit x) = x := by decide!

theorem crcBit_inj {x y : Nat} (hx : x < 256) (hy : y < 256) (h : crcBit x = crcBit y) :
    x = y := by
  rw [← crcBitInv_crcBit x hx, ← crcBitInv_crcBit y hy, h]

theorem crcBits_inj : ∀ (k : Nat) {x y : Nat}, x < 256 → y < 256 →
    crcBits k x = crcBits k y → x = y
  | 0, _, _, _, _, h => h
  | k + 1, _, _, hx, hy, h =>
    crcBit_inj hx hy (crcBits_inj k (crcBit_lt _) (crcBit_lt _) h)

/-- The update of the accumulator by one message byte. -/
theorem crcByte_lt (c b : Nat) : crcBits 8 ((c ^^^ b) % 256) < 256 :=
  crcBits_lt 8 _ (Nat.mod_lt _ (by decide))

theorem xor_mod_256 {c b : Nat} (hc : c < 256) (hb : b < 256) : (c ^^^ b) % 256 = c ^^^ b :=
  Nat.mod_eq_of_lt (Nat.xor_lt_two_pow (n := 8) hc hb)

theorem crcByte_inj_acc {c d b : Nat} (hc : c < 256) (hd : d < 256) (hb : b < 256)
    (h : crcBits 8 ((c ^^^ b) % 256) = crcBits 8 ((d ^^^ b) % 256)) : c = d := by
  have h1 := crcBits_inj 8 (Nat.mod_lt _ (by decide)) (Nat.mod_lt _ (by decide)) h
  rw [xor_mod_256 hc hb, xor_mod_256 hd hb] at h1
  exact Nat.xor_left_injective h1

theorem crcByte_inj_byte {c a b : Nat} (hc : c < 256) (ha : a < 256) (hb : b < 256)
    (h : crcBits 8 ((c ^^^ a) % 256) = crcBits 8 ((c ^^^ b) % 256)) : a = b := by
  have h1 := crcBits_inj 8 (Nat.mod_lt _ (by decide)) (Nat.mod_lt _ (by decide)) h
  rw [xor_mod_256 hc ha, xor_mod_256 hc hb] at h1
  exact Nat.xor_right_injective h1

theorem crcLoop_lt (src : Buf) : ∀ (k p c : Nat), c < 256 → crcLoop src k p c < 256
  | 0, _, _, h => h
  | k + 1, p, c, _ => crcLoop_lt src k (p + 1) _ (crcByte_lt c _)

/-- The loop reads only the cells `p .. p+k-1`. -/
theorem crcLoop_congr (f g : Buf) : ∀ (k p c : Nat),
    (∀ j, p ≤ j → j < p + k → rd f j = rd g j) → crcLoop f k p c = crcLoop g k p c
  | 0, _, _, _ => rfl
  | k + 1, p, c, h => by
    simp only [crcLoop]
    rw [h p (Nat.le_refl p) (by omega)]
    exact crcLoop_congr f g k (p + 1) _ (fun j h1 h2 => h j (by omega) (by omega))

/-- Over the same bytes, different accumulators stay different. -/
theorem crcLoop_inj (f : Buf) : ∀ (k p : Nat) {c d : Nat}, c < 256 → d < 256 →
    crcLoop f k p c = crcLoop f k p d → c = d
  | 0, _, _, _, _, _, h => h
  | k + 1, p, _, _, hc, hd, h =>
    crcByte_inj_acc hc hd (rd_lt f p)
      (crcLoop_inj f k (p + 1) (crcByte_lt _ _) (crcByte_lt _ _) h)

/-- Replacing one byte inside the span the loop runs over changes its result. -/
theorem crcLoop_wr_ne (f : Buf) (i v : Nat) (hv : v < 256) (hne : v ≠ rd f i) :
    ∀ (k p c : Nat), c < 256 → p ≤ i → i < p + k →
      crcLoop (wr f i v) k p c ≠ crcLoop f k p c
  | 0, p, _, _, h1, h2 => by omega
  | k + 1, p, c, hc, h1, h2 => by
    simp only [crcLoop]
    by_cases hp : p = i
    · subst hp
      rw [rd_wr_same, Nat.mod_eq_of_lt hv]
      rw [crcLoop_congr (wr f p v) f k (p + 1) _
        (fun j hj _ => rd_wr_other f v (by omega))]
      intro h
      exact hne (crcByte_inj_byte hc hv (rd_lt f p)
        (crcLoop_inj f k (p + 1) (crcByte_lt _ _) (crcByte_lt _ _) h))
    · rw [rd_wr_other f v hp]
      exact crcLoop_wr_ne f i v hv hne k (p + 1) _ (crcByte_lt _ _) (by omega) (by omega)

/-- C2. The checksum detects every single-byte corruption of the covered region: in a
frame of length `n` (5 ≤ n ≤ 255, `n` being a `uint8_t`), replacing the byte at an index
`i` with 2 ≤ i ≤ n-3 by any different byte value changes the checksum. -/
theorem checksum_detects_single_byte (frame : Buf) (n i v : Nat)
    (hn : 5 ≤ n) (hn8 : n ≤ 255) (hi : 2 ≤ i) (hi2 : i ≤ n - 3)
    (hv : v < 256) (hne : v ≠ rd frame i) :
    checksum (wr frame i v) n ≠ checksum frame n := by
  unfold checksum
  have e : (n % 256 + 256 - 4) % 256 = n - 4 := by omega
  simp only [e]
  exact crcLoop_wr_ne frame i v hv hne (n - 4) 2 0 (by decide) hi (by omega)

/-- Witness for C2: a ten-byte frame whose byte at index 4 is changed from 3 to 7. -/
theorem checksum_detects_single_byte_witness :
    checksum (wr (ofList [0x73, 0x55, 1, 2, 3, 4, 5, 6, 0, 0x55]) 4 7) 10
      ≠ checksum (ofList [0x73, 0x55, 1, 2, 3, 4, 5, 6, 0, 0x55]) 10 :=
  checksum_detects_single_byte (ofList [0x73, 0x55, 1, 2, 3, 4, 5, 6, 0, 0x55]) 10 4 7
    (by decide) (by decide) (by decide) (by decide) (by decide) (by decide)

/-! ## Facts about `byte_stuffing` -/

theorem bytesOf_length (b : Buf) (n : Nat) : (bytesOf b n).length = n := by
  simp [bytesOf]

theorem bytesOf_succ (b : Buf) (n : Nat) : bytesOf b (n + 1) = bytesOf b n ++ [rd b n] := by
  simp [bytesOf, List.range_succ]

theorem bytesOf_wr_ge (b : Buf) {n i : Nat} (v : Nat) (h : n ≤ i) :
    bytesOf (wr b i v) n = bytesOf b n := by
  unfold bytesOf
  apply List.map_congr_left
  intro j hj
  have : j < n := List.mem_range.mp hj
  exact rd_wr_other b v (by omega)

theorem bytesOf_wr_end (b : Buf) (n v : Nat) :
    bytesOf (wr b n v) (n + 1) = bytesOf b n ++ [v % 256] := by
  rw [bytesOf_succ, rd_wr_same, bytesOf_wr_ge b v (Nat.le_refl n)]

theorem bytesOf_wr_end2 (b : Buf) (n v w : Nat) :
    bytesOf (wr (wr b n v) (n + 1) w) (n + 2) = bytesOf b n ++ [v % 256, w % 256] := by
  rw [bytesOf_wr_end (wr b n v) (n + 1) w, bytesOf_wr_end b n v]
  simp

theorem stuffStep_source (src : Buf) (c : Cur) : (stuffStep src c).source = c.source + 1 := by
  unfold stuffStep
  split
  · rfl
  · split <;> rfl

theorem stuffStep_len (src : Buf) (c : Cur) :
    (stuffStep src c).len + c.receiver = c.len + (stuffStep src c).receiver := by
  unfold stuffStep
  split
  · simp only []; omega
  · split <;> (simp only []; omega)

theorem stuffStep_bytes (src : Buf) (c : Cur) :
    bytesOf (stuffStep src c).out (stuffStep src c).receiver
      = bytesOf c.out c.receiver ++ escapeOne (rd src c.source) := by
  unfold stuffStep escapeOne
  split
  · simp only [bytesOf_wr_end2]; rfl
  · split
    · simp only [bytesOf_wr_end2]; rfl
    · simp only [bytesOf_wr_end, Nat.mod_eq_of_lt (rd_lt src c.source)]

theorem stuffLoop_source (src : Buf) : ∀ (k : Nat) (c : Cur),
    (stuffLoop src k c).source = c.source + k
  | 0, _ => rfl
  | k + 1, c => by
    simp only [stuffLoop]
    rw [stuffLoop_source src k, stuffStep_source]; omega

theorem stuffLoop_len (src : Buf) : ∀ (k : Nat) (c : Cur),
    (stuffLoop src k c).len + c.receiver = c.len + (stuffLoop src k c).receiver
  | 0, _ => by simp [stuffLoop, Nat.add_comm]
  | k + 1, c => by
    simp only [stuffLoop]
    have h1 := stuffLoop_len src k (stuffStep src c)
    have h2 := stuffStep_len src c
    omega

theorem stuffLoop_bytes (src : Buf) : ∀ (k : Nat) (c : Cur),
    bytesOf (stuffLoop src k c).out (stuffLoop src k c).receiver
      = bytesOf c.out c.receiver
        ++ ((List.range' c.source k).map (rd src)).flatMap escapeOne
  | 0, _ => by simp [stuffLoop]
  | k + 1, c => by
    simp only [stuffLoop]
    rw [stuffLoop_bytes src k, stuffStep_bytes, stuffStep_source, List.range'_succ]
    simp [List.flatMap_cons, List.append_assoc]

theorem escapeOne_length (b : Nat) :
    (escapeOne b).length = 1 + if b = BOUNDARY ∨ b = START then 1 else 0 := by
  unfold escapeOne
  by_cases h1 : b = BOUNDARY
  · simp [h1]
  · by_cases h2 : b = START
    · subst h2; simp [START, BOUNDARY]
    · simp [h1, h2]

theorem escape_length (src : Buf) : ∀ (l : List Nat),
    ((l.map (rd src)).flatMap escapeOne).length
      = l.length + (l.filter (fun j => decide (rd src j = BOUNDARY ∨ rd src j = START))).length
  | [] => rfl
  | j :: l => by
    simp only [List.map_cons, List.flatMap_cons, List.length_append, escape_length src l,
      escapeOne_length, List.length_cons, List.filter_cons]
    by_cases h : rd src j = BOUNDARY ∨ rd src j = START
    · simp only [h, if_true, decide_True, List.length_cons]; omega
    · simp only [h, if_false, decide_False, Bool.false_eq_true]; omega

/-- The bytes `byte_stuffing` leaves in `package_buff` and the length it returns, for a
request of at least three bytes. -/
theorem byte_stuffing_bytes (frame pb : Buf) (n : Nat) (hn : 3 ≤ n) :
    bytesOf (byte_stuffing ⟨frame, n⟩ pb).1 (byte_stuffing ⟨frame, n⟩ pb).2
      = escapeFrame frame n := by
  simp only [byte_stuffing]
  have hl := stuffLoop_len frame (n - 3)
    { source := 2, receiver := 2, len := 2, out := wr (wr pb 0 (rd frame 0)) 1 (rd frame 1) }
  simp only [] at hl
  have hr : (stuffLoop frame (n - 3)
      { source := 2, receiver := 2, len := 2,
        out := wr (wr pb 0 (rd frame 0)) 1 (rd frame 1) }).len
      = (stuffLoop frame (n - 3)
      { source := 2, receiver := 2, len := 2,
        out := wr (wr pb 0 (rd frame 0)) 1 (rd frame 1) }).receiver := by omega
  rw [hr, bytesOf_wr_end, stuffLoop_bytes, stuffLoop_source]
  simp only [Nat.mod_eq_of_lt (rd_lt frame _)]
  have h2 : bytesOf (wr (wr pb 0 (rd frame 0)) 1 (rd frame 1)) 2 = [rd frame 0, rd frame 1] := by
    have := bytesOf_wr_end2 pb 0 (rd frame 0) (rd frame 1)
    simpa [bytesOf, Nat.mod_eq_of_lt (rd_lt frame _)] using this
  have h3 : 2 + (n - 3) = n - 1 := by omega
  rw [h2, h3]
  rfl

theorem bytesOf_getElem? (b : Buf) {n i : Nat} (h : i < n) : (bytesOf b n)[i]? = some (rd b i) := by
  simp [bytesOf, List.getElem?_map, List.getElem?_range h]

theorem escape_plain (src : Buf) : ∀ (l : List Nat),
    (∀ j ∈ l, rd src j ≠ BOUNDARY ∧ rd src j ≠ START) →
    (l.map (rd src)).flatMap escapeOne = l.map (rd src)
  | [], _ => rfl
  | j :: l, h => by
    have hj := h j (List.mem_cons_self j l)
    simp only [List.map_cons, List.flatMap_cons,
      escape_plain src l (fun x hx => h x (List.mem_cons_of_mem j hx))]
    simp [escapeOne, hj.1, hj.2]

/-- The middle span split at an index `i` of it. -/
theorem range_split (n i : Nat) (h1 : 2 ≤ i) (h2 : i ≤ n - 2) (hn : 3 ≤ n) :
    List.range' 2 (n - 3) = List.range' 2 (i - 2) ++ i :: List.range' (i + 1) (n - 2 - i) := by
  have e1 : n - 3 = (n - 2 - i + 1) + (i - 2) := by omega
  rw [e1, ← List.range'_append 2 (i - 2) (n - 2 - i + 1) 1, List.range'_succ]
  have e2 : 2 + 1 * (i - 2) = i := by omega
  rw [e2]

theorem escapeFrame_single (frame : Buf) (n i : Nat) (hn : 3 ≤ n) (h1 : 2 ≤ i)
    (h2 : i ≤ n - 2) (hi : rd frame i = BOUNDARY)
    (ho : ∀ j, 2 ≤ j → j ≤ n - 2 → j ≠ i → rd frame j ≠ BOUNDARY ∧ rd frame j ≠ START) :
    escapeFrame frame n
      = ([rd frame 0, rd frame 1] ++ (List.range' 2 (i - 2)).map (rd frame))
        ++ START :: STUFF_55 ::
          ((List.range' (i + 1) (n - 2 - i)).map (rd frame) ++ [rd frame (n - 1)]) := by
  unfold escapeFrame
  rw [range_split n i h1 h2 hn]
  simp only [List.map_append, List.map_cons, List.flatMap_append, List.flatMap_cons]
  rw [escape_plain frame (List.range' 2 (i - 2)), escape_plain frame (List.range' (i + 1) (n - 2 - i))]
  · simp [escapeOne, hi]
  · intro j hj
    have := List.mem_range'_1.mp hj
    exact ho j (by omega) (by omega) (by omega)
  · intro j hj
    have := List.mem_range'_1.mp hj
    exact ho j (by omega) (by omega) (by omega)

/-- The length `byte_stuffing` returns: the request length plus the number of reserved
bytes in the scanned span. -/
theorem byte_stuffing_length (frame pb : Buf) (n : Nat) (hn : 3 ≤ n) :
    (byte_stuffing ⟨frame, n⟩ pb).2 = n + reservedCount frame n := by
  have hb := byte_stuffing_bytes frame pb n hn
  have hlen : (byte_stuffing ⟨frame, n⟩ pb).2 = (escapeFrame frame n).length := by
    rw [← hb, bytesOf_length]
  rw [hlen]
  unfold escapeFrame reservedCount
  simp only [List.length_append, escape_length, List.length_range', List.length_cons,
    List.length_nil]
  omega

/-- C8. The escape pass of `byte_stuffing` on a request of `n ≥ 3` bytes: the bytes left
in `package_buff` are the first two bytes verbatim, then the escape of every byte at
indices `2 .. n-2` in order (`[0x73, 0x11]` for `0x55`, `[0x73, 0x22]` for `0x73`, the
byte itself otherwise), then the final byte verbatim; the returned length is `n` plus the
number of reserved bytes in that span; and a frame whose only reserved byte in the span
is a `0x55` at index `i` gives a frame one byte longer with `0x73` at index `i` and
`0x11` at index `i + 1`. -/
theorem byte_stuffing_escape_pass (frame pb : Buf) (n : Nat) (hn : 3 ≤ n) :
    bytesOf (byte_stuffing ⟨frame, n⟩ pb).1 (byte_stuffing ⟨frame, n⟩ pb).2
        = escapeFrame frame n
      ∧ (byte_stuffing ⟨frame, n⟩ pb).2 = n + reservedCount frame n
      ∧ ∀ i, 2 ≤ i → i ≤ n - 2 → rd frame i = BOUNDARY →
          (∀ j, 2 ≤ j → j ≤ n - 2 → j ≠ i → rd frame j ≠ BOUNDARY ∧ rd frame j ≠ START) →
          (byte_stuffing ⟨frame, n⟩ pb).2 = n + 1
            ∧ rd (byte_stuffing ⟨frame, n⟩ pb).1 i = START
            ∧ rd (byte_stuffing ⟨frame, n⟩ pb).1 (i + 1) = STUFF_55 := by
  have hb := byte_stuffing_bytes frame pb n hn
  have hlen : (byte_stuffing ⟨frame, n⟩ pb).2 = (escapeFrame frame n).length := by
    rw [← hb, bytesOf_length]
  refine ⟨hb, byte_stuffing_length frame pb n hn, ?_⟩
  · intro i h1 h2 hi ho
    have hs := escapeFrame_single frame n i hn h1 h2 hi ho
    have hA : ([rd frame 0, rd frame 1] ++ (List.range' 2 (i - 2)).map (rd frame)).length = i := by
      simp; omega
    have hL : (byte_stuffing ⟨frame, n⟩ pb).2 = n + 1 := by
      rw [hlen, hs]
      simp; omega
    refine ⟨hL, ?_, ?_⟩
    · have h := bytesOf_getElem? (byte_stuffing ⟨frame, n⟩ pb).1
        (show i < (byte_stuffing ⟨frame, n⟩ pb).2 by omega)
      rw [hb, hs, List.getElem?_append_right (by omega), hA] at h
      simpa using h.symm
    · have h := bytesOf_getElem? (byte_stuffing ⟨frame, n⟩ pb).1
        (show i + 1 < (byte_stuffing ⟨frame, n⟩ pb).2 by omega)
      rw [hb, hs, List.getElem?_append_right (by omega), hA] at h
      have e : i + 1 - i = 1 := by omega
      rw [e] at h
      simpa using h.symm

/-- Witness for C8: the six-byte frame `73 55 01 55 02 55`, whose byte at index 3 is
the boundary value. -/
theorem byte_stuffing_escape_pass_witness :
    bytesOf (byte_stuffing ⟨ofList [0x73, 0x55, 1, 0x55, 2, 0x55], 6⟩ zeroBuf).1
        (byte_stuffing ⟨ofList [0x73, 0x55, 1, 0x55, 2, 0x55], 6⟩ zeroBuf).2
      = [0x73, 0x55, 1, 0x73, 0x11, 2, 0x55] := by
  rw [(byte_stuffing_escape_pass (ofList [0x73, 0x55, 1, 0x55, 2, 0x55]) zeroBuf 6
    (by decide)).1]
  decide

theorem escapeOne_ne_boundary {b x : Nat} (h : x ∈ escapeOne b) : x ≠ BOUNDARY := by
  unfold escapeOne at h
  by_cases h1 : b = BOUNDARY
  · rw [if_pos h1] at h
    rcases List.mem_cons.mp h with h | h
    · rw [h]; decide
    · rw [List.mem_singleton.mp h]; decide
  · rw [if_neg h1] at h
    by_cases h2 : b = START
    · rw [if_pos h2] at h
      rcases List.mem_cons.mp h with h | h
      · rw [h]; decide
      · rw [List.mem_singleton.mp h]; decide
    · rw [if_neg h2] at h
      rw [List.mem_singleton.mp h]; exact h1

/-- C7. Escaping leaves the boundary marker only as framing: for an unescaped frame of
length `n ≥ 4` (start marker, boundary marker, ..., boundary marker), the output of
`byte_stuffing` has `0x55` at index 1 and at its last index and at no index in between,
so from index 2 on the boundary value is found exactly at the frame terminator. -/
theorem byte_stuffing_boundary_only_framing (frame pb : Buf) (n : Nat) (hn : 4 ≤ n)
    (h0 : rd frame 0 = START) (h1 : rd frame 1 = BOUNDARY)
    (hlast : rd frame (n - 1) = BOUNDARY) :
    rd (byte_stuffing ⟨frame, n⟩ pb).1 0 = START
      ∧ rd (byte_stuffing ⟨frame, n⟩ pb).1 1 = BOUNDARY
      ∧ rd (byte_stuffing ⟨frame, n⟩ pb).1 ((byte_stuffing ⟨frame, n⟩ pb).2 - 1) = BOUNDARY
      ∧ (∀ j, 2 ≤ j → j < (byte_stuffing ⟨frame, n⟩ pb).2 - 1 →
          rd (byte_stuffing ⟨frame, n⟩ pb).1 j ≠ BOUNDARY)
      ∧ ∀ j, 2 ≤ j → j < (byte_stuffing ⟨frame, n⟩ pb).2 →
          (rd (byte_stuffing ⟨frame, n⟩ pb).1 j = BOUNDARY
            ↔ j = (byte_stuffing ⟨frame, n⟩ pb).2 - 1) := by
  have hb := byte_stuffing_bytes frame pb n (by omega)
  have hlen : (byte_stuffing ⟨frame, n⟩ pb).2 = (escapeFrame frame n).length := by
    rw [← hb, bytesOf_length]
  have hE : (byte_stuffing ⟨frame, n⟩ pb).2
      = 2 + (((List.range' 2 (n - 3)).map (rd frame)).flatMap escapeOne).length + 1 := by
    rw [hlen]; unfold escapeFrame
    simp only [List.length_append, List.length_cons, List.length_nil]
  have hA : ([rd frame 0, rd frame 1]
      ++ ((List.range' 2 (n - 3)).map (rd frame)).flatMap escapeOne).length
      = 2 + (((List.range' 2 (n - 3)).map (rd frame)).flatMap escapeOne).length := by
    simp only [List.length_append, List.length_cons, List.length_nil]
  have hB : [rd frame 0, rd frame 1].length = 2 := rfl
  have get : ∀ j, j < (byte_stuffing ⟨frame, n⟩ pb).2 →
      (escapeFrame frame n)[j]? = some (rd (byte_stuffing ⟨frame, n⟩ pb).1 j) := by
    intro j hj
    rw [← hb]; exact bytesOf_getElem? _ hj
  have mid : ∀ j, 2 ≤ j → j < (byte_stuffing ⟨frame, n⟩ pb).2 - 1 →
      rd (byte_stuffing ⟨frame, n⟩ pb).1 j ≠ BOUNDARY := by
    intro j hj1 hj2
    have h := get j (by omega)
    unfold escapeFrame at h
    rw [List.getElem?_append_left (by rw [hA]; omega),
      List.getElem?_append_right (by rw [hB]; omega)] at h
    obtain ⟨b, _, hx⟩ := List.mem_flatMap.mp (List.getElem?_mem h)
    exact escapeOne_ne_boundary hx
  have last : rd (byte_stuffing ⟨frame, n⟩ pb).1 ((byte_stuffing ⟨frame, n⟩ pb).2 - 1)
      = BOUNDARY := by
    have h := get ((byte_stuffing ⟨frame, n⟩ pb).2 - 1) (by omega)
    unfold escapeFrame at h
    rw [List.getElem?_append_right (by rw [hA]; omega)] at h
    have e : (byte_stuffing ⟨frame, n⟩ pb).2 - 1
        - ([rd frame 0, rd frame 1]
            ++ ((List.range' 2 (n - 3)).map (rd frame)).flatMap escapeOne).length = 0 := by
      rw [hA]; omega
    rw [e] at h
    simp only [List.getElem?_cons_zero, Option.some.injEq] at h
    rw [← h, hlast]
  refine ⟨?_, ?_, last, mid, ?_⟩
  · have h := get 0 (by omega)
    unfold escapeFrame at h
    simp only [List.cons_append, List.getElem?_cons_zero, Option.some.injEq] at h
    rw [← h, h0]
  · have h := get 1 (by omega)
    unfold escapeFrame at h
    simp only [List.cons_append, List.getElem?_cons_succ, List.getElem?_cons_zero,
      Option.some.injEq] at h
    rw [← h, h1]
  · intro j hj1 hj2
    constructor
    · intro hj
      by_contra hne
      exact mid j hj1 (by omega) hj
    · intro hj
      rw [hj]; exact last

/-- Witness for C7: the frame `73 55 55 73 55`, whose two middle bytes are both
reserved values: the escaped frame has the boundary value at index 1 and at its last
index, and not at index 3. -/
theorem byte_stuffing_boundary_only_framing_witness :
    rd (byte_stuffing ⟨ofList [0x73, 0x55, 0x55, 0x73, 0x55], 5⟩ zeroBuf).1 1 = BOUNDARY
    ∧ rd (byte_stuffing ⟨ofList [0x73, 0x55, 0x55, 0x73, 0x55], 5⟩ zeroBuf).1
        ((byte_stuffing ⟨ofList [0x73, 0x55, 0x55, 0x73, 0x55], 5⟩ zeroBuf).2 - 1) = BOUNDARY
    ∧ rd (byte_stuffing ⟨ofList [0x73, 0x55, 0x55, 0x73, 0x55], 5⟩ zeroBuf).1 3 ≠ BOUNDARY :=
  ⟨(byte_stuffing_boundary_only_framing (ofList [0x73, 0x55, 0x55, 0x73, 0x55]) zeroBuf 5
      (by decide) (by decide) (by decide) (by decide)).2.1,
   (byte_stuffing_boundary_only_framing (ofList [0x73, 0x55, 0x55, 0x73, 0x55]) zeroBuf 5
      (by decide) (by decide) (by decide) (by decide)).2.2.1,
   (byte_stuffing_boundary_only_framing (ofList [0x73, 0x55, 0x55, 0x73, 0x55]) zeroBuf 5
      (by decide) (by decide) (by decide) (by decide)).2.2.2.1 3 (by decide) (by decide)⟩

/-! ## Facts about `set_command` -/

theorem checksum_lt (f : Buf) (n : Nat) : checksum f n < 256 :=
  crcLoop_lt f _ 2 0 (by decide)

/-- The checksum depends only on the bytes of the covered span. -/
theorem checksum_congr (f g : Buf) (n : Nat)
    (h : ∀ j, 2 ≤ j → j < 2 + (n % 256 + 256 - 4) % 256 → rd f j = rd g j) :
    checksum f n = checksum g n :=
  crcLoop_congr f g _ 2 0 h

theorem low_byte (c : Nat) : c &&& 0xff = c % 256 :=
  Nat.and_pow_two_sub_one_eq_mod c 8

theorem high_byte (c : Nat) : (c >>> 8) &&& 0xff = c / 256 % 256 := by
  rw [low_byte, Nat.shiftRight_eq_div_pow]

theorem not_simple_of_param (D : Decls) (hd : D.distinctCommands) {c : Nat}
    (h : c ∈ D.paramCommands) : c ∉ D.simpleCommands := by
  intro hs
  exact (List.nodup_append.mp hd).2.2 hs h

theorem storeHeader_inside (D : Decls) (b : Buf) (h : package_header_t) {i : Nat}
    (hi : i < D.header_size) : storeHeader D b h (2 + i) = D.ser h i := by
  unfold storeHeader
  rw [if_pos ⟨by omega, by omega⟩]
  congr 1; omega

theorem storeHeader_outside (D : Decls) (b : Buf) (h : package_header_t) {j : Nat}
    (hj : j < 2 ∨ 2 + D.header_size ≤ j) : storeHeader D b h j = b j := by
  unfold storeHeader
  rw [if_neg (by omega)]

/-- C9. The request `set_command` builds, for every configured address and every catalog
command (header of at most 250 bytes, so that the length fits its 8-bit field): the frame
starts with `0x73, 0x55`; its header bytes are those of a header with direction 1, target
address = configured address, source address `0xFFFF`, command byte = low byte of the
command identifier and password 0.  For a command of the first group the declared payload
length is 0 and the frame length is `2 + header_size + 2`; for a command of the second
group the declared payload length is 1, the payload byte is the high byte of the command
identifier and the frame length is `2 + header_size + 3`.  In both shapes the byte at
payload offset = declared payload length is the checksum of the frame and the last byte
is `0x55`; so wherever the layout reads the declared payload length back from the header
bytes, the request passes the checksum comparison of `response_meter`. -/
theorem set_command_frame (D : Decls) (addr command : Nat) (hH : D.header_size ≤ 250)
    (hd : D.distinctCommands) :
    (command ∈ D.simpleCommands →
      (set_command D addr command).pkt_len = 2 + D.header_size + 2
      ∧ rd (set_command D addr command).bytes 0 = 0x73
      ∧ rd (set_command D addr command).bytes 1 = 0x55
      ∧ (∀ i, i < D.header_size → (set_command D addr command).bytes (2 + i)
          = D.ser { data_len := 0, from_to := 1, address_to := addr, address_from := 0xffff,
                    command := command % 256, password_status := 0 } i)
      ∧ dataAt D (set_command D addr command) 0
          = checksum (set_command D addr command).bytes (set_command D addr command).pkt_len
      ∧ rd (set_command D addr command).bytes ((set_command D addr command).pkt_len - 1)
          = 0x55
      ∧ ((headerOf D (set_command D addr command)).data_len = 0 →
          checksum (set_command D addr command).bytes (set_command D addr command).pkt_len
            = dataAt D (set_command D addr command)
                (headerOf D (set_command D addr command)).data_len))
    ∧ (command ∈ D.paramCommands →
      (set_command D addr command).pkt_len = 2 + D.header_size + 3
      ∧ rd (set_command D addr command).bytes 0 = 0x73
      ∧ rd (set_command D addr command).bytes 1 = 0x55
      ∧ (∀ i, i < D.header_size → (set_command D addr command).bytes (2 + i)
          = D.ser { data_len := 1, from_to := 1, address_to := addr, address_from := 0xffff,
                    command := command % 256, password_status := 0 } i)
      ∧ dataAt D (set_command D addr command) 0 = command / 256 % 256
      ∧ dataAt D (set_command D addr command) 1
          = checksum (set_command D addr command).bytes (set_command D addr command).pkt_len
      ∧ rd (set_command D addr command).bytes ((set_command D addr command).pkt_len - 1)
          = 0x55
      ∧ ((headerOf D (set_command D addr command)).data_len = 1 →
          checksum (set_command D addr command).bytes (set_command D addr command).pkt_len
            = dataAt D (set_command D addr command)
                (headerOf D (set_command D addr command)).data_len)) := by
  have e2 : (2 + D.header_size + 2) % 256 = 2 + D.header_size + 2 := by omega
  have e3 : (2 + D.header_size + 3) % 256 = 2 + D.header_size + 3 := by omega
  constructor
  · intro hs
    suffices h : (set_command D addr command).pkt_len = 2 + D.header_size + 2
        ∧ rd (set_command D addr command).bytes 0 = 0x73
        ∧ rd (set_command D addr command).bytes 1 = 0x55
        ∧ (∀ i, i < D.header_size → (set_command D addr command).bytes (2 + i)
            = D.ser { data_len := 0, from_to := 1, address_to := addr, address_from := 0xffff,
                      command := command % 256, password_status := 0 } i)
        ∧ dataAt D (set_command D addr command) 0
            = checksum (set_command D addr command).bytes (set_command D addr command).pkt_len
        ∧ rd (set_command D addr command).bytes ((set_command D addr command).pkt_len - 1)
            = 0x55 by
      obtain ⟨h1, h2, h3, h4, h5, h6⟩ := h
      exact ⟨h1, h2, h3, h4, h5, h6, fun h0 => by rw [h0]; exact h5.symm⟩
    unfold set_command
    simp only [if_pos hs, e2, low_byte]
    refine ⟨trivial, ?_, ?_, ?_, ?_, ?_⟩
    · rw [rd_wr_other _ _ (by omega), rd_wr_other _ _ (by omega)]
      unfold rd
      rw [storeHeader_outside D _ _ (Or.inl (by omega))]
      rfl
    · rw [rd_wr_other _ _ (by omega), rd_wr_other _ _ (by omega)]
      unfold rd
      rw [storeHeader_outside D _ _ (Or.inl (by omega))]
      rfl
    · intro i hi
      unfold wr
      rw [if_neg (by omega), if_neg (by omega)]
      exact storeHeader_inside D _ _ hi
    · unfold dataAt
      simp only [Nat.add_zero]
      rw [rd_wr_other _ _ (by omega), rd_wr_same, Nat.mod_eq_of_lt (checksum_lt _ _)]
      apply checksum_congr
      intro j hj1 hj2
      have : j < 2 + D.header_size := by omega
      rw [rd_wr_other _ _ (by omega), rd_wr_other _ _ (by omega)]
    · have e : 2 + D.header_size + 2 - 1 = 2 + D.header_size + 1 := by omega
      rw [e, rd_wr_same]; rfl
  · intro hp
    have hs := not_simple_of_param D hd hp
    suffices h : (set_command D addr command).pkt_len = 2 + D.header_size + 3
        ∧ rd (set_command D addr command).bytes 0 = 0x73
        ∧ rd (set_command D addr command).bytes 1 = 0x55
        ∧ (∀ i, i < D.header_size → (set_command D addr command).bytes (2 + i)
            = D.ser { data_len := 1, from_to := 1, address_to := addr, address_from := 0xffff,
                      command := command % 256, password_status := 0 } i)
        ∧ dataAt D (set_command D addr command) 0 = command / 256 % 256
        ∧ dataAt D (set_command D addr command) 1
            = checksum (set_command D addr command).bytes (set_command D addr command).pkt_len
        ∧ rd (set_command D addr command).bytes ((set_command D addr command).pkt_len - 1)
            = 0x55 by
      obtain ⟨h1, h2, h3, h4, h5, h6, h7⟩ := h
      exact ⟨h1, h2, h3, h4, h5, h6, h7, fun h0 => by rw [h0]; exact h6.symm⟩
    unfold set_command
    simp only [if_neg hs, if_pos hp, e3, low_byte, high_byte]
    refine ⟨trivial, ?_, ?_, ?_, ?_, ?_, ?_⟩
    · rw [rd_wr_other _ _ (by omega), rd_wr_other _ _ (by omega), rd_wr_other _ _ (by omega)]
      unfold rd
      rw [storeHeader_outside D _ _ (Or.inl (by omega))]
      rfl
    · rw [rd_wr_other _ _ (by omega), rd_wr_other _ _ (by omega), rd_wr_other _ _ (by omega)]
      unfold rd
      rw [storeHeader_outside D _ _ (Or.inl (by omega))]
      rfl
    · intro i hi
      unfold wr
      rw [if_neg (by omega), if_neg (by omega), if_neg (by omega)]
      exact storeHeader_inside D _ _ hi
    · unfold dataAt
      simp only [Nat.add_zero]
      rw [rd_wr_other _ _ (by omega), rd_wr_other _ _ (by omega), rd_wr_same, Nat.mod_mod,
        Nat.shiftRight_eq_div_pow]
    · unfold dataAt
      rw [rd_wr_other _ _ (by omega), rd_wr_same, Nat.mod_eq_of_lt (checksum_lt _ _)]
      apply checksum_congr
      intro j hj1 hj2
      have : j < 2 + D.header_size + 1 := by omega
      symm
      rw [rd_wr_other _ _ (by omega), rd_wr_other _ _ (by omega)]
    · have e : 2 + D.header_size + 3 - 1 = 2 + D.header_size + 2 := by omega
      rw [e, rd_wr_same]; rfl

set_option maxRecDepth 100000 in
/-- Witness for C9: the tariffs request (first group) and the current request (second
group) for the device address 20109 under the sample layout. -/
theorem set_command_frame_witness :
    (set_command sampleDecls 20109 0x05).pkt_len = 2 + 11 + 2
      ∧ (set_command sampleDecls 20109 0x012c).pkt_len = 2 + 11 + 3
      ∧ dataAt sampleDecls (set_command sampleDecls 20109 0x012c) 0 = 0x01
      ∧ checksum (set_command sampleDecls 20109 0x012c).bytes
          (set_command sampleDecls 20109 0x012c).pkt_len
        = dataAt sampleDecls (set_command sampleDecls 20109 0x012c)
            (headerOf sampleDecls (set_command sampleDecls 20109 0x012c)).data_len :=
  ⟨((set_command_frame sampleDecls 20109 0x05 (by decide) (by decide)).1 (by decide)).1,
   ((set_command_frame sampleDecls 20109 0x012c (by decide) (by decide)).2 (by decide)).1,
   ((set_command_frame sampleDecls 20109 0x012c (by decide) (by decide)).2
      (by decide)).2.2.2.2.1,
   ((set_command_frame sampleDecls 20109 0x012c (by decide) (by decide)).2
      (by decide)).2.2.2.2.2.2.2 (by decide)⟩

/-! ## The build step on a command outside the catalog -/

/-- For a command that matches no case label, `set_command` leaves `pkt_len = 0`, and
`byte_stuffing` still copies the two markers and one more byte: it returns 3. -/
theorem byte_stuffing_unrecognized (D : Decls) (addr command : Nat) (pb : Buf)
    (h1 : command ∉ D.simpleCommands) (h2 : command ∉ D.paramCommands) :
    (byte_stuffing (set_command D addr command) pb).2 = 3
      ∧ rd (byte_stuffing (set_command D addr command) pb).1 0 = START
      ∧ rd (byte_stuffing (set_command D addr command) pb).1 1 = BOUNDARY := by
  unfold set_command
  simp only [if_neg h1, if_neg h2]
  unfold byte_stuffing
  simp only [Nat.zero_sub, stuffLoop]
  refine ⟨trivial, ?_, ?_⟩
  · rw [rd_wr_other _ _ (by omega), rd_wr_other _ _ (by omega), rd_wr_same]
    unfold rd
    rw [storeHeader_outside D _ _ (Or.inl (by omega))]
    rfl
  · rw [rd_wr_other _ _ (by omega), rd_wr_same]
    unfold rd
    rw [storeHeader_outside D _ _ (Or.inl (by omega))]
    rfl

/-- C10 (the code at the failing input). The command value `0x99` is in neither group of
the catalog; `send_command` nevertheless hands the three bytes `73 55 01` to
`write_bytes_to_uart` and reports three bytes sent. -/
theorem send_command_unrecognized_sends_three :
    (0x99 ∉ sampleDecls.simpleCommands ∧ 0x99 ∉ sampleDecls.paramCommands)
      ∧ (send_command sampleDecls 0x99
          (initState 20109 { idleUart with wr_results := [3] })).1.uart.tx
        = [[0x73, 0x55, 0x01]]
      ∧ (send_command sampleDecls 0x99
          (initState 20109 { idleUart with wr_results := [3] })).2 = 3 := by
  decide

/-! ## Facts about `byte_unstuffing` -/

theorem seg_succ (b : Buf) (s n : Nat) : seg b s (n + 1) = rd b s :: seg b (s + 1) n := by
  simp [seg, List.range'_succ]

theorem seg_length (b : Buf) (s n : Nat) : (seg b s n).length = n := by
  simp [seg]

theorem seg_add (b : Buf) (s m n : Nat) : seg b s (m + n) = seg b s m ++ seg b (s + m) n := by
  unfold seg
  rw [Nat.add_comm m n, ← List.range'_append s m n 1, List.map_append, Nat.one_mul]

theorem bytesOf_eq_seg (b : Buf) (n : Nat) : bytesOf b n = seg b 0 n := by
  unfold bytesOf seg
  rw [List.range_eq_range']

theorem seg_getElem (b : Buf) (s n i : Nat) (h : i < n) : (seg b s n)[i]? = some (rd b (s + i)) := by
  unfold seg
  rw [List.getElem?_map, List.getElem?_range' _ _ h]
  simp

theorem rd_eq_of_cell {b d : Buf} {i : Nat} (h : b i = d i) : rd b i = rd d i := by
  unfold rd; rw [h]

/-- Splitting the loop of `byte_unstuffing` into two runs. -/
theorem unstuffLoop_add (src : Buf) : ∀ (a b : Nat) (c : Cur),
    unstuffLoop src (a + b) c
      = if (unstuffLoop src a c).2 then unstuffLoop src b (unstuffLoop src a c).1
        else unstuffLoop src a c
  | 0, b, c => by simp [unstuffLoop]
  | a + 1, b, c => by
    have e : a + 1 + b = (a + b) + 1 := by omega
    rw [e]
    simp only [unstuffLoop]
    split
    · split
      · exact unstuffLoop_add src a b _
      · split
        · exact unstuffLoop_add src a b _
        · simp
    · exact unstuffLoop_add src a b _

/-- A run of the loop over source bytes none of which is the start marker copies them. -/
theorem unstuffLoop_plain (src : Buf) : ∀ (j : Nat) (c : Cur),
    (∀ i, i < j → rd src (c.source + i) ≠ START) →
    (unstuffLoop src j c).2 = true
      ∧ (unstuffLoop src j c).1.source = c.source + j
      ∧ (unstuffLoop src j c).1.receiver = c.receiver + j
      ∧ (unstuffLoop src j c).1.len = c.len + j
      ∧ (∀ i, i < c.receiver → (unstuffLoop src j c).1.out i = c.out i)
      ∧ (0 < j → rd (unstuffLoop src j c).1.out c.receiver = rd src c.source)
  | 0, c, _ => by simp [unstuffLoop]
  | j + 1, c, h => by
    have h0 : rd src c.source ≠ START := by simpa using h 0 (by omega)
    simp only [unstuffLoop, if_neg h0]
    obtain ⟨p1, p2, p3, p4, p5, _⟩ := unstuffLoop_plain src j
      { source := c.source + 1, receiver := c.receiver + 1, len := c.len + 1,
        out := wr c.out c.receiver (rd src c.source) }
      (fun i hi => by
        have := h (i + 1) (by omega)
        simpa [Nat.add_assoc, Nat.add_comm 1 i] using this)
    simp only [] at p2 p3 p4 p5
    refine ⟨p1, by omega, by omega, by omega, ?_, ?_⟩
    · intro i hi
      rw [p5 i (by omega)]
      simp [wr]; omega
    · intro _
      rw [rd_eq_of_cell (p5 c.receiver (by omega)), rd_wr_same]
      exact Nat.mod_eq_of_lt (rd_lt _ _)

/-- A run of the loop over the escape of the bytes `a .. a+k-1` of `frame` restores
them. -/
theorem unstuffLoop_escaped (src frame : Buf) : ∀ (k a : Nat) (c : Cur),
    1 ≤ c.len →
    seg src c.source ((seg frame a k).flatMap escapeOne).length
      = (seg frame a k).flatMap escapeOne →
    (unstuffLoop src k c).2 = true
      ∧ (unstuffLoop src k c).1.source
          = c.source + ((seg frame a k).flatMap escapeOne).length
      ∧ (unstuffLoop src k c).1.receiver = c.receiver + k
      ∧ (unstuffLoop src k c).1.len + ((seg frame a k).flatMap escapeOne).length
          = c.len + 2 * k
      ∧ (∀ i, i < c.receiver → (unstuffLoop src k c).1.out i = c.out i)
      ∧ (∀ i, i < k → rd (unstuffLoop src k c).1.out (c.receiver + i) = rd frame (a + i))
  | 0, a, c, _, _ => by simp [unstuffLoop, seg]
  | k + 1, a, c, hl, hs => by
    rw [seg_succ, List.flatMap_cons, List.length_append, seg_add] at hs
    have hs1 := (List.append_inj hs (seg_length _ _ _)).1
    have hs2 := (List.append_inj hs (seg_length _ _ _)).2
    rw [seg_succ, List.flatMap_cons, List.length_append]
    -- the continuation, common to the three cases
    have step : ∀ (c1 : Cur), c1.source = c.source + (escapeOne (rd frame a)).length →
        c1.receiver = c.receiver + 1 →
        c1.len + (escapeOne (rd frame a)).length = c.len + 2 →
        (∀ i, i < c.receiver → c1.out i = c.out i) →
        rd c1.out c.receiver = rd frame a →
        (unstuffLoop src k c1).2 = true
          ∧ (unstuffLoop src k c1).1.source = c.source
              + ((escapeOne (rd frame a)).length
                + ((seg frame (a + 1) k).flatMap escapeOne).length)
          ∧ (unstuffLoop src k c1).1.receiver = c.receiver + (k + 1)
          ∧ (unstuffLoop src k c1).1.len
              + ((escapeOne (rd frame a)).length
                + ((seg frame (a + 1) k).flatMap escapeOne).length) = c.len + 2 * (k + 1)
          ∧ (∀ i, i < c.receiver → (unstuffLoop src k c1).1.out i = c.out i)
          ∧ (∀ i, i < k + 1 →
              rd (unstuffLoop src k c1).1.out (c.receiver + i) = rd frame (a + i)) := by
      intro c1 e1 e2 e3 e4 e5
      have hlen1 : 1 ≤ c1.len := by
        have := escapeOne_length (rd frame a)
        split at this <;> omega
      obtain ⟨q1, q2, q3, q4, q5, q6⟩ := unstuffLoop_escaped src frame k (a + 1) c1 hlen1
        (by rw [e1]; exact hs2)
      refine ⟨q1, by omega, by omega, by omega, ?_, ?_⟩
      · intro i hi
        rw [q5 i (by omega), e4 i hi]
      · intro i hi
        cases i with
        | zero =>
          rw [Nat.add_zero, Nat.add_zero, rd_eq_of_cell (q5 c.receiver (by omega))]
          exact e5
        | succ i =>
          have := q6 i (by omega)
          rw [e2] at this
          rw [show c.receiver + (i + 1) = c.receiver + 1 + i by omega,
            show a + (i + 1) = a + 1 + i by omega]
          exact this
    by_cases hB : rd frame a = BOUNDARY
    · have he : escapeOne (rd frame a) = [START, STUFF_55] := by simp [escapeOne, hB]
      rw [he] at hs1
      have g0 := seg_getElem src c.source 2 0 (by omega)
      have g1 := seg_getElem src c.source 2 1 (by omega)
      simp only [List.length_cons, List.length_nil] at hs1
      rw [hs1] at g0 g1
      simp only [List.getElem?_cons_zero, List.getElem?_cons_succ, Option.some.injEq,
        Nat.add_zero] at g0 g1
      simp only [unstuffLoop, ← g0, ← g1, if_true]
      apply step
      · rw [he]; rfl
      · rfl
      · rw [he]; simp only [List.length_cons, List.length_nil]; omega
      · intro i hi; simp [wr]; omega
      · rw [rd_wr_same, hB]; rfl
    · by_cases hS : rd frame a = START
      · have he : escapeOne (rd frame a) = [START, STUFF_73] := by
          simp [escapeOne, hS]; decide
        rw [he] at hs1
        have g0 := seg_getElem src c.source 2 0 (by omega)
        have g1 := seg_getElem src c.source 2 1 (by omega)
        simp only [List.length_cons, List.length_nil] at hs1
        rw [hs1] at g0 g1
        simp only [List.getElem?_cons_zero, List.getElem?_cons_succ, Option.some.injEq,
          Nat.add_zero] at g0 g1
        have n55 : ¬ STUFF_73 = STUFF_55 := by decide
        simp only [unstuffLoop, ← g0, ← g1, if_true, if_neg n55]
        apply step
        · rw [he]; rfl
        · rfl
        · rw [he]; simp only [List.length_cons, List.length_nil]; omega
        · intro i hi; simp [wr]; omega
        · rw [rd_wr_same, hS]; rfl
      · have he : escapeOne (rd frame a) = [rd frame a] := by simp [escapeOne, hB, hS]
        rw [he] at hs1
        have g0 := seg_getElem src c.source 1 0 (by omega)
        simp only [List.length_cons, List.length_nil] at hs1
        rw [hs1] at g0
        simp only [List.getElem?_cons_zero, Option.some.injEq, Nat.add_zero] at g0
        have hne : ¬ rd src c.source = START := by rw [← g0]; exact hS
        simp only [unstuffLoop, if_neg hne]
        apply step
        · rw [he]; rfl
        · rfl
        · rw [he]; simp only [List.length_cons, List.length_nil]
        · intro i hi; simp [wr]; omega
        · rw [rd_wr_same, ← g0]; exact Nat.mod_eq_of_lt (rd_lt _ _)

/-- The facts about the loop of `byte_unstuffing` run over an escaped frame followed by
cells without a start marker: `k` is the number of escapes in the frame, which is also
the number of iterations the loop runs beyond the frame's source bytes. -/
theorem unstuffLoop_frame (src frame : Buf) (n k : Nat) (c : Cur) (hl : 1 ≤ c.len)
    (hE : ((seg frame 2 (n - 3)).flatMap escapeOne).length = n - 3 + k)
    (hs : seg src c.source (n - 3 + k) = (seg frame 2 (n - 3)).flatMap escapeOne)
    (ht : ∀ i, i < k → rd src (c.source + (n - 3 + k) + i) ≠ START) :
    (unstuffLoop src (n - 3 + k) c).2 = true
      ∧ (unstuffLoop src (n - 3 + k) c).1.source = c.source + (n - 3 + k) + k
      ∧ (unstuffLoop src (n - 3 + k) c).1.receiver = c.receiver + (n - 3) + k
      ∧ (unstuffLoop src (n - 3 + k) c).1.len = c.len + (n - 3)
      ∧ (∀ i, i < c.receiver → (unstuffLoop src (n - 3 + k) c).1.out i = c.out i)
      ∧ (∀ i, i < n - 3 →
          rd (unstuffLoop src (n - 3 + k) c).1.out (c.receiver + i) = rd frame (2 + i))
      ∧ (0 < k → rd (unstuffLoop src (n - 3 + k) c).1.out (c.receiver + (n - 3))
          = rd src (c.source + (n - 3 + k))) := by
  obtain ⟨a1, a2, a3, a4, a5, a6⟩ := unstuffLoop_escaped src frame (n - 3) 2 c hl
    (by rw [hE]; exact hs)
  rw [hE] at a2 a4
  obtain ⟨b1, b2, b3, b4, b5, b6⟩ := unstuffLoop_plain src k (unstuffLoop src (n - 3) c).1
    (fun i hi => by rw [a2]; exact ht i hi)
  rw [unstuffLoop_add, a1]
  simp only [if_true]
  rw [a2] at b2 b6
  rw [a3] at b3 b5 b6
  refine ⟨b1, b2, b3, by omega, ?_, ?_, b6⟩
  · intro i hi
    rw [b5 i (by omega), a5 i hi]
  · intro i hi
    rw [rd_eq_of_cell (b5 (c.receiver + i) (by omega))]
    exact a6 i hi

/-- Unstuffing a buffer that holds the escape of a frame gives the frame back, under the
condition the code needs: the escaped length fits the `uint8_t` parameter, the final
byte of the frame is not the start marker, and the `k - 1` cells behind the escaped
frame (`k` the number of escapes) hold no start marker. -/
theorem byte_unstuffing_escaped (src frame rb : Buf) (n k : Nat) (hn : 3 ≤ n)
    (hz : rd frame (n - 1) ≠ START) (hk : reservedCount frame n = k)
    (hb : bytesOf src (n + k) = escapeFrame frame n) (hL : n + k < 256)
    (htail : ∀ i, 1 ≤ i → i < k → rd src (n + k - 1 + i) ≠ START) :
    (byte_unstuffing (n + k) src rb).2 = n
      ∧ ∀ i, i < n → rd (byte_unstuffing (n + k) src rb).1 i = rd frame i := by
  have hE : ((seg frame 2 (n - 3)).flatMap escapeOne).length = n - 3 + k := by
    have := escape_length frame (List.range' 2 (n - 3))
    rw [List.length_range'] at this
    unfold reservedCount at hk
    rw [hk] at this
    exact this
  -- the cells of the stuffed buffer
  have hcells : seg src 0 2 = [rd frame 0, rd frame 1]
      ∧ seg src 2 (n - 3 + k) = (seg frame 2 (n - 3)).flatMap escapeOne
      ∧ rd src (2 + (n - 3 + k)) = rd frame (n - 1) := by
    have e : n + k = 2 + ((n - 3 + k) + 1) := by omega
    rw [bytesOf_eq_seg, e, seg_add, seg_add] at hb
    unfold escapeFrame at hb
    rw [List.append_assoc] at hb
    have h1 := List.append_inj hb (by rw [seg_length]; rfl)
    have h2 := List.append_inj h1.2 (by rw [seg_length]; exact hE.symm)
    refine ⟨h1.1, h2.1, ?_⟩
    have h3 := h2.2
    rw [Nat.zero_add] at h3
    have := seg_getElem src (2 + (n - 3 + k)) 1 0 (by omega)
    rw [h3] at this
    simpa using this.symm
  obtain ⟨c0, c2, cz⟩ := hcells
  have m0 : rd src 0 = rd frame 0 := by
    have := seg_getElem src 0 2 0 (by omega)
    rw [c0] at this; simpa using this.symm
  have m1 : rd src 1 = rd frame 1 := by
    have := seg_getElem src 0 2 1 (by omega)
    rw [c0] at this; simpa using this.symm
  obtain ⟨r1, r2, r3, r4, r5, r6, r7⟩ := unstuffLoop_frame src frame n k
    { source := 2, receiver := 2, len := 2, out := wr (wr rb 0 (rd src 0)) 1 (rd src 1) }
    (by show 1 ≤ 2; decide) hE c2
    (fun i hi => by
      by_cases h0 : i = 0
      · subst h0; rw [Nat.add_zero, cz]; exact hz
      · have := htail i (by omega) hi
        rw [show n + k - 1 + i = 2 + (n - 3 + k) + i by omega] at this
        exact this)
  simp only [] at r2 r3 r4 r5 r6 r7
  unfold byte_unstuffing
  have eL : (n + k) % 256 - 3 = n - 3 + k := by
    rw [Nat.mod_eq_of_lt hL]; omega
  simp only [eL, r1, if_true]
  refine ⟨by rw [r4]; omega, ?_⟩
  intro i hi
  rw [r3]
  by_cases hlast : i = 2 + (n - 3) + k
  · -- only when there is no escape: the final copy writes the last byte
    have hk0 : k = 0 := by omega
    rw [hlast, rd_wr_same, Nat.mod_eq_of_lt (rd_lt _ _), r2,
      show 2 + (n - 3 + k) + k = 2 + (n - 3 + k) by omega, cz]
    congr 1
    omega
  · rw [rd_wr_other _ _ hlast]
    by_cases h2 : i < 2
    · rw [rd_eq_of_cell (r5 i h2)]
      by_cases h0 : i = 0
      · subst h0
        rw [rd_wr_other _ _ (by omega), rd_wr_same, Nat.mod_eq_of_lt (rd_lt _ _), m0]
      · have h1 : i = 1 := by omega
        subst h1
        rw [rd_wr_same, Nat.mod_eq_of_lt (rd_lt _ _), m1]
    · by_cases hmid : i < n - 1
      · have := r6 (i - 2) (by omega)
        rw [show 2 + (i - 2) = i by omega] at this
        exact this
      · have hi1 : i = n - 1 := by omega
        have hkpos : 0 < k := by omega
        have := r7 hkpos
        rw [show 2 + (n - 3) = n - 1 by omega] at this
        rw [hi1, this, cz]

/-- The round trip through `byte_stuffing` and `byte_unstuffing`, under the condition the
code needs: the stuffed length fits the `uint8_t` parameter, the final byte of the frame
is not the start marker, and the `k - 1` cells of `package_buff` behind the escaped frame
(`k` the number of escapes) hold no start marker. -/
theorem byte_unstuffing_byte_stuffing (frame pb rb : Buf) (n : Nat) (hn : 3 ≤ n)
    (hz : rd frame (n - 1) ≠ START)
    (hL : (byte_stuffing ⟨frame, n⟩ pb).2 < 256)
    (htail : ∀ i, 1 ≤ i → i < reservedCount frame n →
      rd (byte_stuffing ⟨frame, n⟩ pb).1 ((byte_stuffing ⟨frame, n⟩ pb).2 - 1 + i) ≠ START) :
    (byte_unstuffing (byte_stuffing ⟨frame, n⟩ pb).2 (byte_stuffing ⟨frame, n⟩ pb).1 rb).2 = n
      ∧ ∀ i, i < n →
        rd (byte_unstuffing (byte_stuffing ⟨frame, n⟩ pb).2
          (byte_stuffing ⟨frame, n⟩ pb).1 rb).1 i = rd frame i := by
  have hb := byte_stuffing_bytes frame pb n hn
  have hlen := byte_stuffing_length frame pb n hn
  rw [hlen] at hb hL htail ⊢
  exact byte_unstuffing_escaped _ frame rb n (reservedCount frame n) hn hz rfl hb hL htail

/-- C1 (the code at the failing input). `package_buff` is as the stuffing of the request
`73 55 01 02 03 04 05 73 55` left it (`73 22 55` at the offsets 7 to 9).  The frame
`73 55 55 73 55` is stuffed into it: the seven escaped bytes are `73 55 73 11 73 22 55`.
The loop of `byte_unstuffing(7)` runs four times over the three source units of the
frame and the terminator, and so reads the stale `73 22` behind the frame as one more
escape: the function returns 4 instead of 5.  With a stale `73 00` it returns 0; with a
zeroed buffer it returns 5. -/
theorem byte_unstuffing_reads_past_frame :
    bytesOf (byte_stuffing ⟨ofList [0x73, 0x55, 0x55, 0x73, 0x55], 5⟩ staleBuff).1
        (byte_stuffing ⟨ofList [0x73, 0x55, 0x55, 0x73, 0x55], 5⟩ staleBuff).2
        = [0x73, 0x55, 0x73, 0x11, 0x73, 0x22, 0x55]
      ∧ (byte_unstuffing 7
          (byte_stuffing ⟨ofList [0x73, 0x55, 0x55, 0x73, 0x55], 5⟩ staleBuff).1
          zeroBuf).2 = 4
      ∧ (byte_unstuffing 7
          (byte_stuffing ⟨ofList [0x73, 0x55, 0x55, 0x73, 0x55], 5⟩ (wr zeroBuf 7 0x73)).1
          zeroBuf).2 = 0
      ∧ (byte_unstuffing 7
          (byte_stuffing ⟨ofList [0x73, 0x55, 0x55, 0x73, 0x55], 5⟩ zeroBuf).1
          zeroBuf).2 = 5 := by
  decide

/-! ## Facts about `response_meter` -/

/-- A frame the inner loop marks complete has at least three bytes. -/
theorem recvWhile_complete (m : Nat) : ∀ (rx : List Nat) (ls : Nat) (b : Buf) (e : pkt_error_t),
    (recvWhile m rx ls b e).2.2.2.2 = true → 3 ≤ (recvWhile m rx ls b e).2.1
  | [], _, _, _, h => by simp [recvWhile] at h
  | c :: rest, ls, b, e, h => by
    unfold recvWhile at h ⊢
    by_cases h1 : ls < m
    · simp only [if_pos h1] at h ⊢
      by_cases h2 : ls = 0
      · simp only [if_pos h2] at h ⊢
        by_cases h3 : c % 256 ≠ START
        · simp only [if_pos h3] at h ⊢
          exact recvWhile_complete m rest _ _ _ h
        · simp only [if_neg h3] at h ⊢
          exact recvWhile_complete m rest _ _ _ h
      · simp only [if_neg h2] at h ⊢
        by_cases h3 : ls = 1
        · simp only [if_pos h3] at h ⊢
          by_cases h4 : c % 256 ≠ BOUNDARY
          · simp only [if_pos h4] at h ⊢
            exact recvWhile_complete m rest _ _ _ h
          · simp only [if_neg h4] at h ⊢
            exact recvWhile_complete m rest _ _ _ h
        · simp only [if_neg h3] at h ⊢
          by_cases h4 : c % 256 = BOUNDARY
          · simp only [if_pos h4]
            omega
          · simp only [if_neg h4] at h ⊢
            exact recvWhile_complete m rest _ _ _ h
    · simp only [if_neg h1] at h
      exact absurd h (by decide)

theorem recvAttempts_complete (m : Nat) : ∀ (k : Nat) (r : Recv),
    (r.complete = true → 3 ≤ r.load_size) →
    (recvAttempts m k r).complete = true → 3 ≤ (recvAttempts m k r).load_size
  | 0, _, h0, h => h0 h
  | k + 1, r, _, h => by
    unfold recvAttempts at h ⊢
    by_cases hc : (recvWhile m r.uart.rx 0 r.buff r.err).2.2.2.2 = true
    · simp only [hc, if_true] at h ⊢
      exact recvWhile_complete m _ _ _ _ hc
    · simp only [hc] at h ⊢
      exact recvAttempts_complete m k _ (fun h' => Bool.noConfusion h') h

theorem receive_complete (D : Decls) (s : State) (h : (receive D s).complete = true) :
    3 ≤ (receive D s).load_size :=
  recvAttempts_complete _ 3 _ (fun h' => Bool.noConfusion h') h

/-- Once the receive phase has a complete frame, the outcome of `response_meter` is set
by the unstuffing and the header checks alone. -/
theorem response_meter_complete (D : Decls) (command : Nat) (s : State)
    (hc : (receive D s).complete = true) :
    (response_meter D command s).2
      = if (unstuffed D s).2 ≠ 0 then checkResponse D s.address_device command (unstuffedPkt D s)
        else PKT_ERR_UNSTUFFING := by
  have hl : (receive D s).load_size ≠ 0 := by
    have := receive_complete D s hc; omega
  unfold response_meter unstuffedPkt unstuffed
  simp only [hl, hc, ne_eq, not_false_eq_true, if_true]
  split <;> rfl

/-- C3. Validation order in `response_meter`: for every complete collected frame the
outcome is decided by the first failing check in the order unstuffing, checksum, device
status, source address, command.  In particular a recomputed checksum that differs from
the byte at payload offset `data_len` gives checksum-mismatch whatever status, source
address and command are, and a matching checksum with zero status and a foreign source
address gives address-mismatch whatever the command byte is. -/
theorem response_meter_validation_order (D : Decls) (command : Nat) (s : State)
    (hc : (receive D s).complete = true) :
    ((unstuffed D s).2 = 0 → (response_meter D command s).2 = PKT_ERR_UNSTUFFING)
    ∧ ((unstuffed D s).2 ≠ 0 →
        (checksum (unstuffedPkt D s).bytes (unstuffedPkt D s).pkt_len
            ≠ dataAt D (unstuffedPkt D s) (headerOf D (unstuffedPkt D s)).data_len →
          (response_meter D command s).2 = PKT_ERR_CRC)
        ∧ (checksum (unstuffedPkt D s).bytes (unstuffedPkt D s).pkt_len
            = dataAt D (unstuffedPkt D s) (headerOf D (unstuffedPkt D s)).data_len →
          (status_error (headerOf D (unstuffedPkt D s)).password_status ≠ 0 →
            (response_meter D command s).2 = PKT_ERR_RESPONSE)
          ∧ (status_error (headerOf D (unstuffedPkt D s)).password_status = 0 →
            ((headerOf D (unstuffedPkt D s)).address_from ≠ s.address_device →
              (response_meter D command s).2 = PKT_ERR_ADDRESS)
            ∧ ((headerOf D (unstuffedPkt D s)).address_from = s.address_device →
              ((headerOf D (unstuffedPkt D s)).command ≠ command % 256 →
                (response_meter D command s).2 = PKT_ERR_DIFFERENT_COMMAND)
              ∧ ((headerOf D (unstuffedPkt D s)).command = command % 256 →
                (response_meter D command s).2 = PKT_OK))))) := by
  rw [response_meter_complete D command s hc]
  refine ⟨fun h => by simp [h], fun h => ?_⟩
  simp only [h, ne_eq, not_false_eq_true, if_true]
  unfold checkResponse
  simp only [low_byte]
  refine ⟨fun h1 => by simp [h1], fun h1 => ⟨fun h2 => by simp [h1, h2], fun h2 =>
    ⟨fun h3 => by simp [h1, h2, h3], fun h3 =>
      ⟨fun h4 => by simp [h1, h2, h3, h4], fun h4 => by simp [h1, h2, h3, h4]⟩⟩⟩⟩

set_option maxRecDepth 100000 in
/-- Witness for C3: two responses waiting on the link for the tariffs command (0x05) of
device 20109.  The first has a wrong checksum byte together with status 7, a foreign
source address and another command byte: the outcome is checksum-mismatch.  The second
has the right checksum, status 0, the matching command byte and the foreign source
address 4242: the outcome is address-mismatch. -/
theorem response_meter_validation_order_witness :
    (response_meter sampleDecls 0x05 (waitingState 20109
        [115, 85, 0, 255, 255, 146, 16, 9, 7, 0, 0, 0, 12,
         10, 0, 0, 0, 20, 0, 0, 0, 30, 0, 0, 0, 0, 85])).2 = PKT_ERR_CRC
    ∧ (response_meter sampleDecls 0x05 (waitingState 20109
        [115, 85, 0, 255, 255, 146, 16, 5, 0, 0, 0, 0, 12,
         10, 0, 0, 0, 20, 0, 0, 0, 30, 0, 0, 0, 107, 85])).2 = PKT_ERR_ADDRESS :=
  ⟨((response_meter_validation_order sampleDecls 0x05 (waitingState 20109
        [115, 85, 0, 255, 255, 146, 16, 9, 7, 0, 0, 0, 12,
         10, 0, 0, 0, 20, 0, 0, 0, 30, 0, 0, 0, 0, 85]) (by decide)).2 (by decide)).1
      (by decide),
   ((((response_meter_validation_order sampleDecls 0x05 (waitingState 20109
        [115, 85, 0, 255, 255, 146, 16, 5, 0, 0, 0, 0, 12,
         10, 0, 0, 0, 20, 0, 0, 0, 30, 0, 0, 0, 107, 85]) (by decide)).2 (by decide)).2
      (by decide)).2 (by decide)).1 (by decide)⟩

/-! ## Facts about `get_pkt_data` -/

theorem sameReadings_refl (s : State) : sameReadings s s := by
  simp [sameReadings]

theorem sameReadings_trans {s t u : State} (h1 : sameReadings s t) (h2 : sameReadings t u) :
    sameReadings s u := by
  unfold sameReadings at *
  obtain ⟨a1, a2, a3, a4, a5, a6, a7, a8, a9, a10, a11, a12, a13, a14, a15⟩ := h1
  obtain ⟨b1, b2, b3, b4, b5, b6, b7, b8, b9, b10, b11, b12, b13, b14, b15⟩ := h2
  exact ⟨b1.trans a1, b2.trans a2, b3.trans a3, b4.trans a4, b5.trans a5, b6.trans a6,
    b7.trans a7, b8.trans a8, b9.trans a9, b10.trans a10, b11.trans a11, b12.trans a12,
    b13.trans a13, b14.trans a14, b15.trans a15⟩

theorem send_command_readings (D : Decls) (c : Nat) (s : State) :
    sameReadings s (send_command D c s).1 := by
  simp [sameReadings, send_command]

theorem response_meter_readings (D : Decls) (c : Nat) (s : State) :
    sameReadings s (response_meter D c s).1 := by
  unfold response_meter
  simp only []
  split
  · split
    · split <;> simp [sameReadings]
    · simp [sameReadings]
  · simp [sameReadings]

/-- An exchange changes neither the configuration, nor the meter, nor any flag or
notification counter. -/
theorem get_pkt_data_readings (D : Decls) (c : Nat) (s : State) :
    sameReadings s (get_pkt_data D c s).1 := by
  unfold get_pkt_data
  simp only []
  split
  · exact sameReadings_trans (send_command_readings D c s) (response_meter_readings D c _)
  · exact send_command_readings D c s

set_option maxRecDepth 100000 in
/-- The response frames used as concrete inputs are well-formed frames of the sample
layout: each is `sampleResponse` of its fields, checksum included, and contains no
reserved byte between its markers, so it is its own escaped form. -/
theorem sample_frames :
    sampleResponse 0xffff 20109 0x05 0 [10, 0, 0, 0, 20, 0, 0, 0, 30, 0, 0, 0]
        = [115, 85, 0, 255, 255, 141, 78, 5, 0, 0, 0, 0, 12,
           10, 0, 0, 0, 20, 0, 0, 0, 30, 0, 0, 0, 62, 85]
    ∧ sampleResponse 0xffff 4242 0x05 0 [10, 0, 0, 0, 20, 0, 0, 0, 30, 0, 0, 0]
        = [115, 85, 0, 255, 255, 146, 16, 5, 0, 0, 0, 0, 12,
           10, 0, 0, 0, 20, 0, 0, 0, 30, 0, 0, 0, 107, 85]
    ∧ sampleResponse 0xffff 20109 0x2c 0 [1, 0x40, 0x42, 0x0f]
        = [115, 85, 0, 255, 255, 141, 78, 44, 0, 0, 0, 0, 4, 1, 64, 66, 15, 84, 85]
    ∧ sampleResponse 0xffff 20109 0x1e 0 [100, 0, 50, 0]
        = [115, 85, 0, 255, 255, 141, 78, 30, 0, 0, 0, 0, 4, 100, 0, 50, 0, 239, 85]
    ∧ sampleResponse 0xffff 20109 0x1e 0 [1, 0, 3, 0]
        = [115, 85, 0, 255, 255, 141, 78, 30, 0, 0, 0, 0, 4, 1, 0, 3, 0, 253, 85]
    ∧ escaped (sampleResponse 0xffff 20109 0x05 0 [10, 0, 0, 0, 20, 0, 0, 0, 30, 0, 0, 0])
        = sampleResponse 0xffff 20109 0x05 0 [10, 0, 0, 0, 20, 0, 0, 0, 30, 0, 0, 0] := by
  decide

/-! ## Facts about the decoders -/

theorem update_tariffs_spec (D : Decls) (e : State) :
    (update_tariffs D e).meter.tariff_1
        = (if e.meter.tariff_1 < D.tariff_1 (payload D e) then D.tariff_1 (payload D e)
            else e.meter.tariff_1)
    ∧ (update_tariffs D e).meter.tariff_2
        = (if e.meter.tariff_2 < D.tariff_2 (payload D e) then D.tariff_2 (payload D e)
            else e.meter.tariff_2)
    ∧ (update_tariffs D e).meter.tariff_3
        = (if e.meter.tariff_3 < D.tariff_3 (payload D e) then D.tariff_3 (payload D e)
            else e.meter.tariff_3)
    ∧ (update_tariffs D e).tariff1_notify
        = (if e.meter.tariff_1 < D.tariff_1 (payload D e) then D.NOTIFY_MAX
            else e.tariff1_notify)
    ∧ (update_tariffs D e).tariff2_notify
        = (if e.meter.tariff_2 < D.tariff_2 (payload D e) then D.NOTIFY_MAX
            else e.tariff2_notify)
    ∧ (update_tariffs D e).tariff3_notify
        = (if e.meter.tariff_3 < D.tariff_3 (payload D e) then D.NOTIFY_MAX
            else e.tariff3_notify)
    ∧ (update_tariffs D e).tariff_changed
        = (if e.meter.tariff_1 < D.tariff_1 (payload D e)
              ∨ e.meter.tariff_2 < D.tariff_2 (payload D e)
              ∨ e.meter.tariff_3 < D.tariff_3 (payload D e) then true
            else e.tariff_changed) := by
  unfold update_tariffs
  by_cases h1 : e.meter.tariff_1 < D.tariff_1 (payload D e) <;>
  by_cases h2 : e.meter.tariff_2 < D.tariff_2 (payload D e) <;>
  by_cases h3 : e.meter.tariff_3 < D.tariff_3 (payload D e) <;>
  simp [h1, h2, h3]

/-- C4. Monotonic tariffs: after `get_tariffs_data` with a validated tariffs response,
each of the three registers holds the received value `R` if `R` is greater than the
stored value `V` and `V` otherwise, which is `max V R` and never less than `V`; the
register's notification counter is `NOTIFY_MAX` if `R > V` and is untouched otherwise;
and `tariff_changed` is set if at least one received value is greater than its stored
value and is untouched otherwise. -/
theorem get_tariffs_data_monotonic (D : Decls) (s : State)
    (hv : (get_pkt_data D D.cmd_tariffs_data s).2 = true) :
    ((get_tariffs_data D s).meter.tariff_1
        = (if s.meter.tariff_1 < D.tariff_1 (payload D (exchanged D D.cmd_tariffs_data s))
            then D.tariff_1 (payload D (exchanged D D.cmd_tariffs_data s))
            else s.meter.tariff_1)
      ∧ (get_tariffs_data D s).meter.tariff_1
        = max s.meter.tariff_1 (D.tariff_1 (payload D (exchanged D D.cmd_tariffs_data s)))
      ∧ s.meter.tariff_1 ≤ (get_tariffs_data D s).meter.tariff_1
      ∧ (get_tariffs_data D s).tariff1_notify
        = (if s.meter.tariff_1 < D.tariff_1 (payload D (exchanged D D.cmd_tariffs_data s))
            then D.NOTIFY_MAX else s.tariff1_notify))
    ∧ ((get_tariffs_data D s).meter.tariff_2
        = (if s.meter.tariff_2 < D.tariff_2 (payload D (exchanged D D.cmd_tariffs_data s))
            then D.tariff_2 (payload D (exchanged D D.cmd_tariffs_data s))
            else s.meter.tariff_2)
      ∧ (get_tariffs_data D s).meter.tariff_2
        = max s.meter.tariff_2 (D.tariff_2 (payload D (exchanged D D.cmd_tariffs_data s)))
      ∧ s.meter.tariff_2 ≤ (get_tariffs_data D s).meter.tariff_2
      ∧ (get_tariffs_data D s).tariff2_notify
        = (if s.meter.tariff_2 < D.tariff_2 (payload D (exchanged D D.cmd_tariffs_data s))
            then D.NOTIFY_MAX else s.tariff2_notify))
    ∧ ((get_tariffs_data D s).meter.tariff_3
        = (if s.meter.tariff_3 < D.tariff_3 (payload D (exchanged D D.cmd_tariffs_data s))
            then D.tariff_3 (payload D (exchanged D D.cmd_tariffs_data s))
            else s.meter.tariff_3)
      ∧ (get_tariffs_data D s).meter.tariff_3
        = max s.meter.tariff_3 (D.tariff_3 (payload D (exchanged D D.cmd_tariffs_data s)))
      ∧ s.meter.tariff_3 ≤ (get_tariffs_data D s).meter.tariff_3
      ∧ (get_tariffs_data D s).tariff3_notify
        = (if s.meter.tariff_3 < D.tariff_3 (payload D (exchanged D D.cmd_tariffs_data s))
            then D.NOTIFY_MAX else s.tariff3_notify))
    ∧ (get_tariffs_data D s).tariff_changed
        = (if s.meter.tariff_1 < D.tariff_1 (payload D (exchanged D D.cmd_tariffs_data s))
              ∨ s.meter.tariff_2 < D.tariff_2 (payload D (exchanged D D.cmd_tariffs_data s))
              ∨ s.meter.tariff_3 < D.tariff_3 (payload D (exchanged D D.cmd_tariffs_data s))
            then true else s.tariff_changed) := by
  have hr := get_pkt_data_readings D D.cmd_tariffs_data s
  unfold sameReadings at hr
  obtain ⟨_, hm, hc, _, hn1, hn2, hn3, _⟩ := hr
  have hg : get_tariffs_data D s = update_tariffs D (exchanged D D.cmd_tariffs_data s) := by
    unfold get_tariffs_data exchanged
    simp only [hv, if_true]
  obtain ⟨u1, u2, u3, n1, n2, n3, c⟩ := update_tariffs_spec D (exchanged D D.cmd_tariffs_data s)
  have hm' : (exchanged D D.cmd_tariffs_data s).meter = s.meter := hm
  have hc' : (exchanged D D.cmd_tariffs_data s).tariff_changed = s.tariff_changed := hc
  have hn1' : (exchanged D D.cmd_tariffs_data s).tariff1_notify = s.tariff1_notify := hn1
  have hn2' : (exchanged D D.cmd_tariffs_data s).tariff2_notify = s.tariff2_notify := hn2
  have hn3' : (exchanged D D.cmd_tariffs_data s).tariff3_notify = s.tariff3_notify := hn3
  rw [hm'] at u1 u2 u3 n1 n2 n3 c
  rw [hc'] at c
  rw [hn1'] at n1
  rw [hn2'] at n2
  rw [hn3'] at n3
  rw [hg]
  refine ⟨⟨u1, ?_, ?_, n1⟩, ⟨u2, ?_, ?_, n2⟩, ⟨u3, ?_, ?_, n3⟩, c⟩
  · rw [u1]; split <;> omega
  · rw [u1]; split <;> omega
  · rw [u2]; split <;> omega
  · rw [u2]; split <;> omega
  · rw [u3]; split <;> omega
  · rw [u3]; split <;> omega

set_option maxRecDepth 100000 in
/-- Witness for C4: stored tariffs 5, 20, 40 and received tariffs 10, 20, 30 give
10, 20, 40; only the first notification counter is set, and `tariff_changed` is set. -/
theorem get_tariffs_data_monotonic_witness :
    (get_pkt_data sampleDecls sampleDecls.cmd_tariffs_data tariffsScenario).2 = true
    ∧ tariffsScenario.meter.tariff_1 ≤ (get_tariffs_data sampleDecls tariffsScenario).meter.tariff_1
    ∧ ((get_tariffs_data sampleDecls tariffsScenario).meter.tariff_1 = 10
      ∧ (get_tariffs_data sampleDecls tariffsScenario).meter.tariff_2 = 20
      ∧ (get_tariffs_data sampleDecls tariffsScenario).meter.tariff_3 = 40
      ∧ (get_tariffs_data sampleDecls tariffsScenario).tariff1_notify = 2
      ∧ (get_tariffs_data sampleDecls tariffsScenario).tariff2_notify = 0
      ∧ (get_tariffs_data sampleDecls tariffsScenario).tariff3_notify = 0
      ∧ (get_tariffs_data sampleDecls tariffsScenario).tariff_changed = true) :=
  ⟨by decide,
   (get_tariffs_data_monotonic sampleDecls tariffsScenario (by decide)).1.2.2.1,
   by decide⟩

/-! ### Current -/

theorem shift8_mask : ∀ b < 256, (b <<< 8) &&& 0xff00 = 2 ^ 8 * b := by decide!

theorem shift16_mask : ∀ b < 256, (b <<< 16) &&& 0xff0000 = 2 ^ 16 * b := by decide!

theorem mask8 : ∀ b < 256, b &&& 0xff = b := by decide!

/-- The two-byte decode of lines 382-383 is the little-endian pair. -/
theorem decode16 {a b : Nat} (ha : a < 256) (hb : b < 256) :
    a ||| ((b <<< 8) &&& 0xff00) = a + 256 * b := by
  rw [shift8_mask b hb, Nat.lor_comm, ← Nat.mul_add_lt_is_or (by omega) b]
  omega

/-- The three-byte decode of `from24to32` is the little-endian triple. -/
theorem decode24 {a b c : Nat} (ha : a < 256) (hb : b < 256) (hc : c < 256) :
    (a &&& 0xff) ||| ((b <<< 8) &&& 0xff00) ||| ((c <<< 16) &&& 0xff0000)
      = a + 256 * b + 65536 * c := by
  rw [mask8 a ha, decode16 ha hb, shift16_mask c hc, Nat.lor_comm,
    ← Nat.mul_add_lt_is_or (by omega) c]
  omega

theorem from24to32_eq (str : Buf) :
    from24to32 str = rd str 0 + 256 * rd str 1 + 65536 * rd str 2 := by
  unfold from24to32
  exact decode24 (rd_lt str 0) (rd_lt str 1) (rd_lt str 2)

theorem rd_rd (b : Buf) (f : Nat → Nat) (k : Nat) :
    rd (fun j => rd b (f j)) k = rd b (f k) := by
  unfold rd
  exact Nat.mod_mod _ _

/-- The scaling loop ends within `fuel` iterations whenever `amps < fuel`, with the value
divided by the least power of ten that brings it to at most 65535. -/
theorem scaleLoop_spec : ∀ (fuel amps : Nat), amps < fuel →
    ∃ k, scaleLoop fuel amps = some (amps / 10 ^ k) ∧ amps / 10 ^ k ≤ 65535
      ∧ ∀ j, j < k → 65535 < amps / 10 ^ j
  | 0, _, h => absurd h (Nat.not_lt_zero _)
  | fuel + 1, amps, h => by
    unfold scaleLoop
    by_cases hgt : amps > 0xffff
    · rw [if_pos hgt]
      obtain ⟨k, h1, h2, h3⟩ := scaleLoop_spec fuel (amps / 10) (by omega)
      refine ⟨k + 1, ?_, ?_, ?_⟩
      · rw [h1, Nat.pow_succ, Nat.mul_comm, Nat.div_div_eq_div_mul]
      · rw [Nat.pow_succ, Nat.mul_comm, ← Nat.div_div_eq_div_mul]; exact h2
      · intro j hj
        cases j with
        | zero => simpa using hgt
        | succ j =>
          rw [Nat.pow_succ, Nat.mul_comm, ← Nat.div_div_eq_div_mul]
          exact h3 j (by omega)
    · rw [if_neg hgt]
      exact ⟨0, by simp, by simpa using Nat.le_of_not_lt hgt, fun j hj => absurd hj (Nat.not_lt_zero _)⟩

theorem update_amps_spec (D : Decls) (e : State) :
    ∃ s1 k, update_amps D e = some s1
      ∧ s1.meter.amps = raw_amps D e / 10 ^ k
      ∧ s1.meter.amps ≤ 65535
      ∧ ∀ j, j < k → 65535 < raw_amps D e / 10 ^ j := by
  obtain ⟨k, h1, h2, h3⟩ := scaleLoop_spec (raw_amps D e + 1) (raw_amps D e) (Nat.lt_succ_self _)
  unfold update_amps
  rw [h1]
  by_cases hne : e.meter.amps ≠ raw_amps D e / 10 ^ k
  · simp only [hne, ne_eq, not_false_eq_true, if_true]
    exact ⟨_, k, rfl, rfl, h2, h3⟩
  · simp only [hne, if_false]
    refine ⟨_, k, rfl, ?_, ?_, h3⟩
    · exact Classical.not_not.mp hne
    · rw [Classical.not_not.mp hne]; exact h2

/-- C5. Current decode in `get_amps_data`, for every validated response: with declared
payload length 3 the raw value is the little-endian pair `b0 + 256*b1`, with declared
payload length 4 it is the little-endian triple `b0 + 256*b1 + 65536*b2`; the scaling
loop terminates, and the value stored in the meter state is the raw value divided by
`10^k` for the least `k` that brings it to at most 65535. -/
theorem get_amps_data_decode (D : Decls) (s : State)
    (hv : (get_pkt_data D D.cmd_amps_data s).2 = true) :
    ((headerOf D (exchanged D D.cmd_amps_data s).response_pkt).data_len = 3 →
        raw_amps D (exchanged D D.cmd_amps_data s)
          = payload D (exchanged D D.cmd_amps_data s) (D.amps_offset + 0)
            + 256 * payload D (exchanged D D.cmd_amps_data s) (D.amps_offset + 1))
    ∧ ((headerOf D (exchanged D D.cmd_amps_data s).response_pkt).data_len = 4 →
        raw_amps D (exchanged D D.cmd_amps_data s)
          = payload D (exchanged D D.cmd_amps_data s) (D.amps_offset + 0)
            + 256 * payload D (exchanged D D.cmd_amps_data s) (D.amps_offset + 1)
            + 65536 * payload D (exchanged D D.cmd_amps_data s) (D.amps_offset + 2))
    ∧ ∃ s1 k, get_amps_data D s = some s1
        ∧ s1.meter.amps = raw_amps D (exchanged D D.cmd_amps_data s) / 10 ^ k
        ∧ s1.meter.amps ≤ 65535
        ∧ ∀ j, j < k → 65535 < raw_amps D (exchanged D D.cmd_amps_data s) / 10 ^ j := by
  have hb : ∀ (e : State) (k : Nat),
      rd (fun j => payload D e (D.amps_offset + j)) k = payload D e (D.amps_offset + k) := by
    intro e k
    unfold payload dataAt
    exact rd_rd _ (fun j => 2 + D.header_size + (D.amps_offset + j)) k
  refine ⟨?_, ?_, ?_⟩
  · intro h3
    unfold raw_amps
    simp only [h3, if_true]
    rw [decode16 (rd_lt _ _) (rd_lt _ _), hb, hb]
  · intro h4
    unfold raw_amps
    have : ¬ (headerOf D (exchanged D D.cmd_amps_data s).response_pkt).data_len = 3 := by
      rw [h4]; decide
    simp only [this, if_false]
    rw [from24to32_eq, hb, hb, hb]
  · have hg : get_amps_data D s = update_amps D (exchanged D D.cmd_amps_data s) := by
      unfold get_amps_data exchanged
      simp only [hv, if_true]
    rw [hg]
    exact update_amps_spec D _

set_option maxRecDepth 100000 in
/-- Witness for C5: a validated response with declared payload length 4 and current bytes
`40 42 0f`, raw value 1000000, which two divisions by ten bring to 10000. -/
theorem get_amps_data_decode_witness :
    (get_pkt_data sampleDecls sampleDecls.cmd_amps_data ampsScenario).2 = true
    ∧ raw_amps sampleDecls (exchanged sampleDecls sampleDecls.cmd_amps_data ampsScenario)
        = 1000000
    ∧ (get_amps_data sampleDecls ampsScenario).map (fun t => t.meter.amps) = some 10000 :=
  ⟨by decide,
   by
    rw [(get_amps_data_decode sampleDecls ampsScenario (by decide)).2.1 (by decide)]
    decide,
   by decide⟩

/-! ### Battery resource -/

/-- With `lifetime = 0` the division of line 528 is a division by zero. -/
theorem battery_level_zero (w : Nat) : battery_level w 0 = none := rfl

/-- The level for `lifetime > 0`. -/
theorem battery_level_pos (w l : Nat) (hl : 0 < l) :
    battery_level w l
      = some (if ((w * 100) % 2 ^ 32) % l ≥ l / 2
              then (((w * 100) % 2 ^ 32 / l) % 256 + 1) % 256
              else ((w * 100) % 2 ^ 32 / l) % 256) := by
  unfold battery_level
  rw [if_neg (by omega)]

theorem update_resbat_level (D : Decls) (e : State) :
    (update_resbat D e).map (fun t => t.meter.battery_level)
      = battery_level (D.worktime (payload D e)) (D.lifetime (payload D e)) := by
  unfold update_resbat
  cases battery_level (D.worktime (payload D e)) (D.lifetime (payload D e)) with
  | none => rfl
  | some level =>
    simp only [Option.map_some']
    congr 1
    split
    · rfl
    · rename_i h
      exact Classical.not_not.mp h

theorem get_resbat_data_level (D : Decls) (s : State)
    (hv : (get_pkt_data D D.cmd_resource_battery s).2 = true) :
    (get_resbat_data D s).map (fun t => t.meter.battery_level)
      = battery_level (D.worktime (payload D (exchanged D D.cmd_resource_battery s)))
          (D.lifetime (payload D (exchanged D D.cmd_resource_battery s))) := by
  unfold get_resbat_data
  simp only [hv, if_true]
  exact update_resbat_level D _

set_option maxRecDepth 100000 in
/-- C6 as stated fails: a validated response with `lifetime = 1` and `worktime = 3` has
quotient 300 and remainder 0 ≥ 0, so the stated level would be 301; the 8-bit variable
`battery_level` holds 45. -/
theorem get_resbat_data_level_counterexample :
    ¬ (∀ (D : Decls) (s : State), (get_pkt_data D D.cmd_resource_battery s).2 = true →
        0 < D.lifetime (payload D (exchanged D D.cmd_resource_battery s)) →
        (get_resbat_data D s).map (fun t => t.meter.battery_level)
          = some (D.worktime (payload D (exchanged D D.cmd_resource_battery s)) * 100
              / D.lifetime (payload D (exchanged D D.cmd_resource_battery s))
            + (if D.worktime (payload D (exchanged D D.cmd_resource_battery s)) * 100
                  % D.lifetime (payload D (exchanged D D.cmd_resource_battery s))
                ≥ D.lifetime (payload D (exchanged D D.cmd_resource_battery s)) / 2
               then 1 else 0))) := by
  intro h
  have h1 := h sampleDecls (resbatScenario 1 3 253) (by decide) (by decide)
  have h2 : (get_resbat_data sampleDecls (resbatScenario 1 3 253)).map
      (fun t => t.meter.battery_level) = some 45 := by
    decide
  rw [h2] at h1
  revert h1
  decide

/-- C6, amended. Battery rounding in `get_resbat_data`: for every validated response
with `lifetime > 0` the function returns and the stored level is the 8-bit value of
lines 528-532; when moreover the product `worktime*100` fits 32 bits and the rounded
quotient fits 8 bits, the level equals `floor(worktime*100 / lifetime)`, increased by one
exactly when `(worktime*100) mod lifetime ≥ floor(lifetime/2)`; and `worktime = 50`,
`lifetime = 100` gives exactly 50, `worktime = 75`, `lifetime = 100` exactly 75, without
round-up. -/
theorem get_resbat_data_rounding (D : Decls) (s : State)
    (hv : (get_pkt_data D D.cmd_resource_battery s).2 = true) :
    (0 < D.lifetime (payload D (exchanged D D.cmd_resource_battery s)) →
      D.worktime (payload D (exchanged D D.cmd_resource_battery s)) * 100 < 2 ^ 32 →
      D.worktime (payload D (exchanged D D.cmd_resource_battery s)) * 100
          / D.lifetime (payload D (exchanged D D.cmd_resource_battery s))
        + (if D.worktime (payload D (exchanged D D.cmd_resource_battery s)) * 100
              % D.lifetime (payload D (exchanged D D.cmd_resource_battery s))
            ≥ D.lifetime (payload D (exchanged D D.cmd_resource_battery s)) / 2
           then 1 else 0) ≤ 255 →
      (get_resbat_data D s).map (fun t => t.meter.battery_level)
        = some (D.worktime (payload D (exchanged D D.cmd_resource_battery s)) * 100
            / D.lifetime (payload D (exchanged D D.cmd_resource_battery s))
          + (if D.worktime (payload D (exchanged D D.cmd_resource_battery s)) * 100
                % D.lifetime (payload D (exchanged D D.cmd_resource_battery s))
              ≥ D.lifetime (payload D (exchanged D D.cmd_resource_battery s)) / 2
             then 1 else 0)))
    ∧ (D.worktime (payload D (exchanged D D.cmd_resource_battery s)) = 50 →
        D.lifetime (payload D (exchanged D D.cmd_resource_battery s)) = 100 →
        (get_resbat_data D s).map (fun t => t.meter.battery_level) = some 50)
    ∧ (D.worktime (payload D (exchanged D D.cmd_resource_battery s)) = 75 →
        D.lifetime (payload D (exchanged D D.cmd_resource_battery s)) = 100 →
        (get_resbat_data D s).map (fun t => t.meter.battery_level) = some 75) := by
  rw [get_resbat_data_level D s hv]
  refine ⟨?_, ?_, ?_⟩
  · intro hl hw hfit
    rw [battery_level_pos _ _ hl]
    congr 1
    simp only [Nat.mod_eq_of_lt hw]
    generalize D.worktime (payload D (exchanged D D.cmd_resource_battery s)) * 100
      / D.lifetime (payload D (exchanged D D.cmd_resource_battery s)) = q at hfit ⊢
    split
    · rename_i hr
      simp only [hr, if_true] at hfit ⊢
      omega
    · rename_i hr
      simp only [hr, if_false] at hfit ⊢
      omega
  · intro h1 h2
    rw [h1, h2]; decide
  · intro h1 h2
    rw [h1, h2]; decide

set_option maxRecDepth 100000 in
/-- Witness for C6 (amended): a validated response with `lifetime = 100` and
`worktime = 50` leaves the level 50. -/
theorem get_resbat_data_rounding_witness :
    (get_pkt_data sampleDecls sampleDecls.cmd_resource_battery (resbatScenario 100 50 239)).2
        = true
    ∧ (get_resbat_data sampleDecls (resbatScenario 100 50 239)).map
        (fun t => t.meter.battery_level) = some 50 :=
  ⟨by decide,
   (get_resbat_data_rounding sampleDecls (resbatScenario 100 50 239) (by decide)).2.1
     (by decide) (by decide)⟩

/-! ## Facts about `send_command` -/

theorem getD_tail (l : List Nat) (i : Nat) : l.tail.getD i 0 = l.getD (i + 1) 0 := by
  cases l <;> simp

theorem headD_eq_getD (l : List Nat) : l.headD 0 = l.getD 0 0 := by
  cases l <;> simp

theorem write_result (u : Uart) (buf : Buf) (len : Nat) :
    (write_bytes_to_uart u buf len).2 = u.wr_results.getD 0 0 := by
  unfold write_bytes_to_uart
  exact headD_eq_getD _

theorem accepts_step (u : Uart) (buf : Buf) (len i : Nat) :
    accepts (sleep_ms 250 (write_bytes_to_uart u buf len).1) len i ↔ accepts u len (i + 1) := by
  unfold accepts sleep_ms write_bytes_to_uart
  simp only [getD_tail]

/-- While no write is accepted the loop goes through all its attempts and ends with
`len = 0`. -/
theorem sendLoop_refused (buf : Buf) (len : Nat) : ∀ (k : Nat) (u : Uart),
    (∀ i, i < k → ¬ accepts u len i) →
    sendLoop buf len k u = (afterFailures buf len k u, 0)
  | 0, _, _ => rfl
  | k + 1, u, h => by
    have h0 : ¬ (write_bytes_to_uart u buf len).2 % 256 = len := by
      rw [write_result]; exact h 0 (by omega)
    simp only [sendLoop, if_neg h0, afterFailures]
    exact sendLoop_refused buf len k _
      (fun i hi => by rw [accepts_step]; exact h (i + 1) (by omega))

/-- The loop stops at the first accepted write and ends with `len = buff_len`. -/
theorem sendLoop_accepted (buf : Buf) (len : Nat) : ∀ (i k : Nat) (u : Uart),
    i < k → accepts u len i → (∀ j, j < i → ¬ accepts u len j) →
    sendLoop buf len k u
      = ((write_bytes_to_uart (afterFailures buf len i u) buf len).1, len)
  | 0, k + 1, u, _, ha, _ => by
    have h0 : (write_bytes_to_uart u buf len).2 % 256 = len := by
      rw [write_result]; exact ha
    simp only [sendLoop, afterFailures, h0, if_true]
  | i + 1, k + 1, u, hi, ha, hn => by
    have h0 : ¬ (write_bytes_to_uart u buf len).2 % 256 = len := by
      rw [write_result]; exact hn 0 (by omega)
    simp only [sendLoop, if_neg h0, afterFailures]
    exact sendLoop_accepted buf len i k _ (by omega)
      ((accepts_step u buf len i).mpr ha)
      (fun j hj => by rw [accepts_step]; exact hn (j + 1) (by omega))

theorem afterFailures_tx (buf : Buf) (len : Nat) : ∀ (k : Nat) (u : Uart),
    (afterFailures buf len k u).tx = u.tx ++ List.replicate k (bytesOf buf len)
  | 0, u => by simp [afterFailures]
  | k + 1, u => by
    rw [afterFailures, afterFailures_tx buf len k]
    simp [sleep_ms, write_bytes_to_uart, List.replicate_succ]

theorem afterFailures_rx3 (buf : Buf) (len : Nat) (u : Uart) :
    (afterFailures buf len 3 u).rx = u.rx ++ arriving u 0 ++ arriving u 1 ++ arriving u 2 := by
  unfold arriving
  cases h : u.arrivals with
  | nil => simp [afterFailures, sleep_ms, write_bytes_to_uart, h]
  | cons a l =>
    cases l with
    | nil => simp [afterFailures, sleep_ms, write_bytes_to_uart, h]
    | cons b l =>
      cases l with
      | nil => simp [afterFailures, sleep_ms, write_bytes_to_uart, h]
      | cons c l => simp [afterFailures, sleep_ms, write_bytes_to_uart, h]

/-- Among the first `k` writes there is a first accepted one, or none is accepted. -/
theorem first_accept (u : Uart) (len : Nat) : ∀ (k : Nat),
    (∀ i, i < k → ¬ accepts u len i)
      ∨ ∃ i, i < k ∧ accepts u len i ∧ ∀ j, j < i → ¬ accepts u len j
  | 0 => Or.inl (fun i hi => absurd hi (Nat.not_lt_zero i))
  | k + 1 => by
    rcases first_accept u len k with h | ⟨i, hi, ha, hn⟩
    · by_cases hk : accepts u len k
      · exact Or.inr ⟨k, by omega, hk, h⟩
      · left
        intro i hi
        by_cases e : i = k
        · rw [e]; exact hk
        · exact h i (by omega)
    · exact Or.inr ⟨i, by omega, ha, hn⟩

theorem stuffStep_len_le (src : Buf) (c : Cur) : (stuffStep src c).len ≤ c.len + 2 := by
  unfold stuffStep
  split
  · simp
  · split <;> simp

theorem stuffLoop_len_le (src : Buf) : ∀ (k : Nat) (c : Cur),
    c.len ≤ (stuffLoop src k c).len ∧ (stuffLoop src k c).len ≤ c.len + 2 * k
  | 0, _ => by simp [stuffLoop]
  | k + 1, c => by
    simp only [stuffLoop]
    have h1 := stuffLoop_len_le src k (stuffStep src c)
    have h2 := stuffStep_len_le src c
    have h3 : c.len ≤ (stuffStep src c).len := by
      unfold stuffStep
      split
      · simp
      · split <;> simp
    omega

/-- The length `byte_stuffing` returns is at least 3 and below twice the request
length. -/
theorem byte_stuffing_bounds (p : package_t) (pb : Buf) :
    3 ≤ (byte_stuffing p pb).2 ∧ (byte_stuffing p pb).2 ≤ 3 + 2 * (p.pkt_len - 3) := by
  unfold byte_stuffing
  have h := stuffLoop_len_le p.bytes (p.pkt_len - 3)
    { source := 2, receiver := 2, len := 2,
      out := wr (wr pb 0 (rd p.bytes 0)) 1 (rd p.bytes 1) }
  simp only [] at h ⊢
  omega

theorem set_command_pkt_len_le (D : Decls) (addr command : Nat) :
    (set_command D addr command).pkt_len ≤ D.header_size + 5 := by
  unfold set_command
  simp only []
  split
  · exact Nat.le_trans (Nat.mod_le _ _) (by omega)
  · split
    · exact Nat.le_trans (Nat.mod_le _ _) (by omega)
    · simp

/-- With a header of at most 120 bytes the escaped request is shorter than 256 bytes, so
`buff_len` is the full escaped byte count. -/
theorem buff_len_full (D : Decls) (command : Nat) (s : State) (hH : D.header_size ≤ 120) :
    buff_len D command s
        = (byte_stuffing (set_command D s.address_device command) s.package_buff).2
      ∧ 3 ≤ buff_len D command s := by
  have h1 := byte_stuffing_bounds (set_command D s.address_device command) s.package_buff
  have h2 := set_command_pkt_len_le D s.address_device command
  unfold buff_len
  rw [Nat.mod_eq_of_lt (by omega)]
  exact ⟨rfl, h1.1⟩

theorem send_command_eq (D : Decls) (command : Nat) (s : State) :
    (send_command D command s).2
        = (sendLoop (byte_stuffing (set_command D s.address_device command) s.package_buff).1
            (buff_len D command s) 3 s.uart).2
      ∧ (send_command D command s).1.uart
        = (if (sendLoop (byte_stuffing (set_command D s.address_device command)
                  s.package_buff).1 (buff_len D command s) 3 s.uart).2 = 0
            then (sendLoop (byte_stuffing (set_command D s.address_device command)
                  s.package_buff).1 (buff_len D command s) 3 s.uart).1
            else sleep_ms 100 (sendLoop (byte_stuffing (set_command D s.address_device command)
                  s.package_buff).1 (buff_len D command s) 3 s.uart).1) :=
  ⟨rfl, rfl⟩

/-- C11. Transmit retry, for every behaviour of the write operation (header of at most
120 bytes, so that the escaped request is shorter than 256 bytes and `buff_len` is its
full byte count): `send_command` calls `write_bytes_to_uart` at most 3 times and stops
at the first call that accepts `buff_len` bytes; it returns nonzero, and `get_pkt_data`
goes on to `response_meter`, exactly when one of those calls accepts.  In particular two
refused writes followed by an accepted one lead to the receive phase, and three refused
writes make `get_pkt_data` return no packet with the receive buffer of the link holding
what it held plus what arrived meanwhile: no byte was read. -/
theorem send_command_retry (D : Decls) (command : Nat) (s : State)
    (hH : D.header_size ≤ 120) :
    (buff_len D command s
        = (byte_stuffing (set_command D s.address_device command) s.package_buff).2
      ∧ 0 < buff_len D command s)
    ∧ (send_command D command s).1.uart.tx.length ≤ s.uart.tx.length + 3
    ∧ (∀ i, i < 3 → accepts s.uart (buff_len D command s) i →
        (∀ j, j < i → ¬ accepts s.uart (buff_len D command s) j) →
        (send_command D command s).1.uart.tx.length = s.uart.tx.length + (i + 1)
          ∧ (send_command D command s).2 = buff_len D command s)
    ∧ ((∀ i, i < 3 → ¬ accepts s.uart (buff_len D command s) i) →
        (send_command D command s).1.uart.tx.length = s.uart.tx.length + 3
          ∧ (send_command D command s).2 = 0)
    ∧ ((send_command D command s).2 ≠ 0
        ↔ ∃ i, i < 3 ∧ accepts s.uart (buff_len D command s) i)
    ∧ ((send_command D command s).2 ≠ 0 →
        get_pkt_data D command s
          = ((response_meter D command (send_command D command s).1).1,
             decide ((response_meter D command (send_command D command s).1).2 = PKT_OK)))
    ∧ (¬ accepts s.uart (buff_len D command s) 0 →
        ¬ accepts s.uart (buff_len D command s) 1 →
        accepts s.uart (buff_len D command s) 2 →
        (send_command D command s).2 ≠ 0)
    ∧ ((∀ i, i < 3 → ¬ accepts s.uart (buff_len D command s) i) →
        (get_pkt_data D command s).2 = false
          ∧ (get_pkt_data D command s).1.uart.rx
              = s.uart.rx ++ arriving s.uart 0 ++ arriving s.uart 1 ++ arriving s.uart 2
          ∧ (get_pkt_data D command s).1.response_pkt = s.response_pkt) := by
  obtain ⟨hfull, h3⟩ := buff_len_full D command s hH
  obtain ⟨e2, eu⟩ := send_command_eq D command s
  have hpos : 0 < buff_len D command s := by omega
  -- the two cases of the loop
  have hacc : ∀ i, i < 3 → accepts s.uart (buff_len D command s) i →
      (∀ j, j < i → ¬ accepts s.uart (buff_len D command s) j) →
      (send_command D command s).1.uart.tx.length = s.uart.tx.length + (i + 1)
        ∧ (send_command D command s).2 = buff_len D command s := by
    intro i hi ha hn
    have hl := sendLoop_accepted
      (byte_stuffing (set_command D s.address_device command) s.package_buff).1
      (buff_len D command s) i 3 s.uart hi ha hn
    rw [hl] at e2 eu
    simp only [] at e2 eu
    have hne : ¬ buff_len D command s = 0 := by omega
    rw [if_neg hne] at eu
    refine ⟨?_, e2⟩
    rw [eu]
    simp [sleep_ms, write_bytes_to_uart, afterFailures_tx]
  have hrej : (∀ i, i < 3 → ¬ accepts s.uart (buff_len D command s) i) →
      (send_command D command s).1.uart
          = afterFailures
              (byte_stuffing (set_command D s.address_device command) s.package_buff).1
              (buff_len D command s) 3 s.uart
        ∧ (send_command D command s).2 = 0 := by
    intro hn
    have hl := sendLoop_refused
      (byte_stuffing (set_command D s.address_device command) s.package_buff).1
      (buff_len D command s) 3 s.uart hn
    rw [hl] at e2 eu
    simp only [if_true] at e2 eu
    exact ⟨eu, e2⟩
  have hiff : (send_command D command s).2 ≠ 0
      ↔ ∃ i, i < 3 ∧ accepts s.uart (buff_len D command s) i := by
    constructor
    · intro hne
      by_contra hex
      exact hne (hrej (fun i hi ha => hex ⟨i, hi, ha⟩)).2
    · rintro ⟨i, hi, ha⟩
      rcases first_accept s.uart (buff_len D command s) 3 with h | ⟨j, hj, hja, hjn⟩
      · exact absurd ha (h i hi)
      · rw [(hacc j hj hja hjn).2]; omega
  refine ⟨⟨hfull, hpos⟩, ?_, hacc, ?_, hiff, ?_, ?_, ?_⟩
  · rcases first_accept s.uart (buff_len D command s) 3 with h | ⟨j, hj, hja, hjn⟩
    · rw [(hrej h).1, afterFailures_tx]; simp
    · rw [(hacc j hj hja hjn).1]; omega
  · intro hn
    refine ⟨?_, (hrej hn).2⟩
    rw [(hrej hn).1, afterFailures_tx]; simp
  · intro hne
    unfold get_pkt_data
    simp only [hne, ne_eq, not_false_eq_true, if_true]
  · intro _ _ h2
    exact hiff.mpr ⟨2, by omega, h2⟩
  · intro hn
    have hz := (hrej hn).2
    have hu := (hrej hn).1
    have hg : get_pkt_data D command s = ((send_command D command s).1, false) := by
      unfold get_pkt_data
      simp only [hz, ne_eq, not_true_eq_false, if_false]
    rw [hg]
    refine ⟨rfl, ?_, rfl⟩
    simp only []
    rw [hu, afterFailures_rx3]

set_option maxRecDepth 100000 in
/-- Witness for C11: the tariffs request (15 bytes) of device 20109 on a link that
refuses two writes and accepts the third, and on a link that refuses all three. -/
theorem send_command_retry_witness :
    (send_command sampleDecls 0x05 (retryState [0, 7, 15])).2 ≠ 0
    ∧ (send_command sampleDecls 0x05 (retryState [0, 7, 15])).1.uart.tx.length = 3
    ∧ (get_pkt_data sampleDecls 0x05 (retryState [0, 7, 14])).2 = false
    ∧ (get_pkt_data sampleDecls 0x05 (retryState [0, 7, 14])).1.uart.rx = [1, 2, 3, 4, 5] :=
  ⟨(send_command_retry sampleDecls 0x05 (retryState [0, 7, 15]) (by decide)).2.2.2.2.2.2.1
      (by decide) (by decide) (by decide),
   ((send_command_retry sampleDecls 0x05 (retryState [0, 7, 15]) (by decide)).2.2.1 2
      (by decide) (by decide) (by decide)).1,
   ((send_command_retry sampleDecls 0x05 (retryState [0, 7, 14]) (by decide)).2.2.2.2.2.2.2
      (by decide)).1,
   ((send_command_retry sampleDecls 0x05 (retryState [0, 7, 14]) (by decide)).2.2.2.2.2.2.2
      (by decide)).2.1⟩

/-! ### Identity strings -/

/-- The serial-number decoder leaves every reading alone when the response carries the
bytes already stored. -/
theorem get_serial_number_data_same (D : Decls) (fuel : Nat) (s : State)
    (hv : (get_pkt_data D D.cmd_serial_number s).2 = true)
    (hsame : memcmp_ne (exchanged D D.cmd_serial_number s).meter.serial_number
      (data31 D (exchanged D D.cmd_serial_number s)) D.DATA_MAX_LEN = false) :
    get_serial_number_data_kaskad1mt D fuel s = some (exchanged D D.cmd_serial_number s)
      ∧ sameReadings s (exchanged D D.cmd_serial_number s) := by
  refine ⟨?_, get_pkt_data_readings D D.cmd_serial_number s⟩
  unfold get_serial_number_data_kaskad1mt
  simp only [hv, if_true]
  unfold update_serial_number
  unfold exchanged at hsame
  rw [hsame]
  rfl

/-- The release-date decoder sets its notification counter after every validated
response whose string is terminated, whatever is stored. -/
theorem get_date_release_data_notify (D : Decls) (fuel : Nat) (s t : State)
    (hv : (get_pkt_data D D.cmd_date_release s).2 = true)
    (ht : get_date_release_data_kaskad1mt D fuel s = some t) :
    t.dr_notify = D.NOTIFY_MAX := by
  unfold get_date_release_data_kaskad1mt at ht
  simp only [hv, if_true] at ht
  unfold update_date_release at ht
  simp only [Option.map_eq_some'] at ht
  obtain ⟨r, _, hr⟩ := ht
  rw [← hr]

set_option maxRecDepth 100000 in
/-- C12 (the code at the failing input). The string `AB12` is stored as serial number and
as release date, the notification counters are 0, and a validated response carries the
same `DATA_MAX_LEN` bytes.  The release-date decoder, whose condition is a `memcpy`,
sets `dr_notify` to `NOTIFY_MAX`; the serial-number decoder, whose condition is a
`memcmp`, leaves `sn_notify` at 0. -/
theorem get_date_release_data_updates_on_same :
    (get_pkt_data sampleDecls sampleDecls.cmd_date_release identityScenario).2 = true
    ∧ memcmp_ne identityScenario.meter.date_release
        (data31 sampleDecls (exchanged sampleDecls sampleDecls.cmd_date_release identityScenario))
        sampleDecls.DATA_MAX_LEN = false
    ∧ identityScenario.dr_notify = 0
    ∧ (get_date_release_data_kaskad1mt sampleDecls 32 identityScenario).map
        (fun t => t.dr_notify) = some 2
    ∧ (get_serial_number_data_kaskad1mt sampleDecls 32 identityScenario).map
        (fun t => t.sn_notify) = some 0 := by
  decide

/-! ## The string scans end -/

/-- The scan finds a terminator that lies within its bound. -/
theorem strlen_isSome (src : Buf) : ∀ (fuel i j : Nat), i ≤ j → j < i + fuel →
    rd src j = 0 → (strlen src fuel i).isSome = true
  | 0, i, j, h1, h2, _ => by omega
  | fuel + 1, i, j, h1, h2, h0 => by
    unfold strlen
    by_cases hi : rd src i = 0
    · rw [if_pos hi]; rfl
    · rw [if_neg hi]
      have hne : i ≠ j := fun e => hi (e ▸ h0)
      exact strlen_isSome src fuel (i + 1) j (by omega) (by omega) h0

/-- The serial-number decoder returns whenever the string of the response it may have
to copy is terminated within the bound. -/
theorem get_serial_number_data_isSome (D : Decls) (fuel : Nat) (s : State)
    (h : ∃ j, j < fuel ∧ rd (data31 D (exchanged D D.cmd_serial_number s)) j = 0) :
    (get_serial_number_data_kaskad1mt D fuel s).isSome = true := by
  obtain ⟨j, hj, h0⟩ := h
  have hs := strlen_isSome (data31 D (exchanged D D.cmd_serial_number s)) fuel 0 j
    (Nat.zero_le j) (by omega) h0
  obtain ⟨len, hlen⟩ := Option.isSome_iff_exists.mp hs
  unfold exchanged at hlen
  unfold get_serial_number_data_kaskad1mt update_serial_number sprintf_s
  simp only [hlen]
  split
  · split <;> rfl
  · rfl

/-- The release-date decoder returns whenever the string of the response is terminated
within the bound. -/
theorem get_date_release_data_isSome (D : Decls) (fuel : Nat) (s : State)
    (h : ∃ j, j < fuel ∧ rd (data31 D (exchanged D D.cmd_date_release s)) j = 0) :
    (get_date_release_data_kaskad1mt D fuel s).isSome = true := by
  obtain ⟨j, hj, h0⟩ := h
  have hs := strlen_isSome (data31 D (exchanged D D.cmd_date_release s)) fuel 0 j
    (Nat.zero_le j) (by omega) h0
  obtain ⟨len, hlen⟩ := Option.isSome_iff_exists.mp hs
  unfold exchanged at hlen
  unfold get_date_release_data_kaskad1mt update_date_release sprintf_s
  simp only [hlen]
  split <;> rfl

/-! ## Facts about `set_device_type` -/

/-- With the configured type `device_mercury_206`, `set_device_type` leaves the
serial-number pointer as it was. -/
theorem set_device_type_mercury (d : dispatch_t)
    (h : d.device_type = device_type_t.device_mercury_206) :
    (set_device_type d).get_serial_number_data = d.get_serial_number_data := by
  unfold set_device_type
  rw [h]

/-- C13 (the code at the failing input). The handle is first bound for the configured
type `device_kaskad_1_mt`; the configuration is then changed to `device_mercury_206` and
`set_device_type` runs again: the serial-number pointer is still bound to the decoder of
the first model, not null.  Only when it was null before is it null afterwards. -/
theorem set_device_type_mercury_keeps_binding :
    (set_device_type
        { set_device_type (startDispatch device_type_t.device_kaskad_1_mt) with
          device_type := device_type_t.device_mercury_206 }).get_serial_number_data
      = some serial_number_fn.k1mt_get_serial_number_data
    ∧ (set_device_type
        { set_device_type (startDispatch device_type_t.device_kaskad_1_mt) with
          device_type := device_type_t.device_mercury_206 }).measure_meter
      = some measure_fn.m206_measure_meter
    ∧ (set_device_type (startDispatch device_type_t.device_mercury_206)).get_serial_number_data
      = none := by
  decide

/-! ## Facts about the cycle -/

theorem send_command_requested (D : Decls) (c : Nat) (s : State) :
    (send_command D c s).1.requested = s.requested ++ [c] := rfl

theorem response_meter_requested (D : Decls) (c : Nat) (s : State) :
    (response_meter D c s).1.requested = s.requested := by
  unfold response_meter
  simp only []
  split
  · split
    · split <;> rfl
    · rfl
  · rfl

/-- Every exchange records its command, once. -/
theorem get_pkt_data_requested (D : Decls) (c : Nat) (s : State) :
    (get_pkt_data D c s).1.requested = s.requested ++ [c] := by
  unfold get_pkt_data
  simp only []
  split
  · rw [response_meter_requested, send_command_requested]
  · exact send_command_requested D c s

theorem get_pkt_data_new_start (D : Decls) (c : Nat) (s : State) :
    (get_pkt_data D c s).1.new_start = s.new_start :=
  (get_pkt_data_readings D c s).2.2.2.2.2.2.2.2.2.2.2.2.2.2

theorem update_tariffs_frame (D : Decls) (e : State) :
    (update_tariffs D e).requested = e.requested
      ∧ (update_tariffs D e).new_start = e.new_start := by
  unfold update_tariffs
  simp only []
  split <;> split <;> split <;> exact ⟨rfl, rfl⟩

theorem get_tariffs_data_frame (D : Decls) (s : State) :
    (get_tariffs_data D s).requested = s.requested ++ [D.cmd_tariffs_data]
      ∧ (get_tariffs_data D s).new_start = s.new_start := by
  unfold get_tariffs_data
  simp only []
  split
  · rw [(update_tariffs_frame D _).1, (update_tariffs_frame D _).2]
    exact ⟨get_pkt_data_requested D _ s, get_pkt_data_new_start D _ s⟩
  · exact ⟨get_pkt_data_requested D _ s, get_pkt_data_new_start D _ s⟩

theorem get_resbat_data_frame (D : Decls) (s t : State) (h : get_resbat_data D s = some t) :
    t.requested = s.requested ++ [D.cmd_resource_battery] ∧ t.new_start = s.new_start := by
  unfold get_resbat_data at h
  simp only [] at h
  split at h
  · unfold update_resbat at h
    simp only [Option.map_eq_some'] at h
    obtain ⟨level, _, hr⟩ := h
    rw [← hr]
    split <;> exact ⟨get_pkt_data_requested D _ s, get_pkt_data_new_start D _ s⟩
  · cases h
    exact ⟨get_pkt_data_requested D _ s, get_pkt_data_new_start D _ s⟩

theorem get_voltage_data_frame (D : Decls) (s : State) :
    (get_voltage_data D s).requested = s.requested ++ [D.cmd_volts_data]
      ∧ (get_voltage_data D s).new_start = s.new_start := by
  unfold get_voltage_data
  simp only []
  split
  · split <;> exact ⟨get_pkt_data_requested D _ s, get_pkt_data_new_start D _ s⟩
  · exact ⟨get_pkt_data_requested D _ s, get_pkt_data_new_start D _ s⟩

theorem get_power_data_frame (D : Decls) (s : State) :
    (get_power_data D s).requested = s.requested ++ [D.cmd_power_data]
      ∧ (get_power_data D s).new_start = s.new_start := by
  unfold get_power_data
  simp only []
  split
  · split <;> exact ⟨get_pkt_data_requested D _ s, get_pkt_data_new_start D _ s⟩
  · exact ⟨get_pkt_data_requested D _ s, get_pkt_data_new_start D _ s⟩

theorem update_amps_frame (D : Decls) (e t : State) (h : update_amps D e = some t) :
    t.requested = e.requested ∧ t.new_start = e.new_start := by
  unfold update_amps at h
  split at h
  · exact absurd h (by simp)
  · split at h <;> (cases h; exact ⟨rfl, rfl⟩)

theorem get_amps_data_isSome (D : Decls) (s : State) : (get_amps_data D s).isSome = true := by
  unfold get_amps_data
  simp only []
  split
  · obtain ⟨s1, _, h, _⟩ := update_amps_spec D (get_pkt_data D D.cmd_amps_data s).1
    rw [h]; rfl
  · rfl

theorem get_amps_data_frame (D : Decls) (s t : State) (h : get_amps_data D s = some t) :
    t.requested = s.requested ++ [D.cmd_amps_data] ∧ t.new_start = s.new_start := by
  unfold get_amps_data at h
  simp only [] at h
  split at h
  · obtain ⟨h1, h2⟩ := update_amps_frame D _ t h
    rw [h1, h2]
    exact ⟨get_pkt_data_requested D _ s, get_pkt_data_new_start D _ s⟩
  · cases h
    exact ⟨get_pkt_data_requested D _ s, get_pkt_data_new_start D _ s⟩

theorem get_serial_number_data_frame (D : Decls) (fuel : Nat) (s t : State)
    (h : get_serial_number_data_kaskad1mt D fuel s = some t) :
    t.requested = s.requested ++ [D.cmd_serial_number] ∧ t.new_start = s.new_start := by
  unfold get_serial_number_data_kaskad1mt at h
  simp only [] at h
  split at h
  · unfold update_serial_number at h
    split at h
    · simp only [Option.map_eq_some'] at h
      obtain ⟨r, _, hr⟩ := h
      rw [← hr]
      exact ⟨get_pkt_data_requested D _ s, get_pkt_data_new_start D _ s⟩
    · cases h
      exact ⟨get_pkt_data_requested D _ s, get_pkt_data_new_start D _ s⟩
  · cases h
    exact ⟨get_pkt_data_requested D _ s, get_pkt_data_new_start D _ s⟩

theorem get_date_release_data_frame (D : Decls) (fuel : Nat) (s t : State)
    (h : get_date_release_data_kaskad1mt D fuel s = some t) :
    t.requested = s.requested ++ [D.cmd_date_release] ∧ t.new_start = s.new_start := by
  unfold get_date_release_data_kaskad1mt at h
  simp only [] at h
  split at h
  · unfold update_date_release at h
    simp only [Option.map_eq_some'] at h
    obtain ⟨r, _, hr⟩ := h
    rw [← hr]
    exact ⟨get_pkt_data_requested D _ s, get_pkt_data_new_start D _ s⟩
  · cases h
    exact ⟨get_pkt_data_requested D _ s, get_pkt_data_new_start D _ s⟩

/-- The five fetches return exactly when `get_resbat_data` does. -/
theorem readings_fetch_isSome (D : Decls) (s : State) :
    (readings_fetch D s).isSome = (get_resbat_data D (get_tariffs_data D s)).isSome := by
  unfold readings_fetch
  cases get_resbat_data D (get_tariffs_data D s) with
  | none => rfl
  | some s2 =>
    rw [Option.some_bind]
    exact get_amps_data_isSome D _

theorem readings_fetch_frame (D : Decls) (s t : State) (h : readings_fetch D s = some t) :
    t.requested = s.requested ++ readingCommands D ∧ t.new_start = s.new_start := by
  unfold readings_fetch at h
  simp only [Option.bind_eq_some] at h
  obtain ⟨s2, hs2, h⟩ := h
  obtain ⟨a1, a2⟩ := get_amps_data_frame D _ t h
  obtain ⟨p1, p2⟩ := get_power_data_frame D (get_voltage_data D s2)
  obtain ⟨v1, v2⟩ := get_voltage_data_frame D s2
  obtain ⟨r1, r2⟩ := get_resbat_data_frame D (get_tariffs_data D s) s2 hs2
  obtain ⟨t1, t2⟩ := get_tariffs_data_frame D s
  constructor
  · rw [a1, p1, v1, r1, t1]
    simp [readingCommands]
  · rw [a2, p2, v2, r2, t2]

theorem identity_fetch_frame (D : Decls) (fuel : Nat) (s t : State)
    (h : identity_fetch D fuel s = some t) :
    t.requested = s.requested
        ++ (if s.new_start then [D.cmd_serial_number, D.cmd_date_release] else [])
      ∧ t.new_start = false := by
  unfold identity_fetch at h
  by_cases hn : s.new_start = true
  · simp only [hn, if_true] at h ⊢
    simp only [Option.bind_eq_some, Option.map_eq_some'] at h
    obtain ⟨s1, h1, s2, h2, h3⟩ := h
    obtain ⟨a1, _⟩ := get_serial_number_data_frame D fuel s s1 h1
    obtain ⟨b1, _⟩ := get_date_release_data_frame D fuel s1 s2 h2
    rw [← h3]
    simp only []
    rw [b1, a1]
    simp
  · simp only [hn] at h ⊢
    cases h
    simp only [Bool.false_eq_true, if_false, List.append_nil, true_and]
    simpa using hn

theorem ping_start_data_eq (D : Decls) (s : State) :
    ping_start_data D s = get_pkt_data D D.cmd_open_channel s := by
  unfold ping_start_data
  simp only []
  split
  · rename_i h; rw [← h]
  · rename_i h
    have : (get_pkt_data D D.cmd_open_channel s).2 = false := by simpa using h
    rw [← this]


/-! ## A failed exchange changes no reading -/

/-- An exchange fails exactly when nothing could be sent or the response was not
accepted. -/
theorem get_pkt_data_fails_iff (D : Decls) (c : Nat) (s : State) :
    (get_pkt_data D c s).2 = false
      ↔ (send_command D c s).2 = 0
        ∨ ((send_command D c s).2 ≠ 0
          ∧ (response_meter D c (send_command D c s).1).2 ≠ PKT_OK) := by
  unfold get_pkt_data
  simp only []
  by_cases h : (send_command D c s).2 = 0
  · simp [h]
  · simp [h]

/-- C15. No update on a failed exchange: for each of the seven decoders, when its
exchange does not succeed (nothing could be sent, or `response_meter` returned anything
but `PKT_OK`), the decoder returns and the meter state, the changed flags, the
notification counters and buffers are exactly as before the call. -/
theorem decoders_keep_state_on_failure (D : Decls) (fuel : Nat) (s : State) :
    ((get_pkt_data D D.cmd_tariffs_data s).2 = false →
      sameReadings s (get_tariffs_data D s))
    ∧ ((get_pkt_data D D.cmd_amps_data s).2 = false →
      ∃ t, get_amps_data D s = some t ∧ sameReadings s t)
    ∧ ((get_pkt_data D D.cmd_volts_data s).2 = false →
      sameReadings s (get_voltage_data D s))
    ∧ ((get_pkt_data D D.cmd_power_data s).2 = false →
      sameReadings s (get_power_data D s))
    ∧ ((get_pkt_data D D.cmd_resource_battery s).2 = false →
      ∃ t, get_resbat_data D s = some t ∧ sameReadings s t)
    ∧ ((get_pkt_data D D.cmd_serial_number s).2 = false →
      ∃ t, get_serial_number_data_kaskad1mt D fuel s = some t ∧ sameReadings s t)
    ∧ ((get_pkt_data D D.cmd_date_release s).2 = false →
      ∃ t, get_date_release_data_kaskad1mt D fuel s = some t ∧ sameReadings s t) := by
  refine ⟨?_, ?_, ?_, ?_, ?_, ?_, ?_⟩
  · intro h
    unfold get_tariffs_data
    simp only [h, Bool.false_eq_true, if_false]
    exact get_pkt_data_readings D _ s
  · intro h
    refine ⟨(get_pkt_data D D.cmd_amps_data s).1, ?_, get_pkt_data_readings D _ s⟩
    unfold get_amps_data
    simp only [h, Bool.false_eq_true, if_false]
  · intro h
    unfold get_voltage_data
    simp only [h, Bool.false_eq_true, if_false]
    exact get_pkt_data_readings D _ s
  · intro h
    unfold get_power_data
    simp only [h, Bool.false_eq_true, if_false]
    exact get_pkt_data_readings D _ s
  · intro h
    refine ⟨(get_pkt_data D D.cmd_resource_battery s).1, ?_, get_pkt_data_readings D _ s⟩
    unfold get_resbat_data
    simp only [h, Bool.false_eq_true, if_false]
  · intro h
    refine ⟨(get_pkt_data D D.cmd_serial_number s).1, ?_, get_pkt_data_readings D _ s⟩
    unfold get_serial_number_data_kaskad1mt
    simp only [h, Bool.false_eq_true, if_false]
  · intro h
    refine ⟨(get_pkt_data D D.cmd_date_release s).1, ?_, get_pkt_data_readings D _ s⟩
    unfold get_date_release_data_kaskad1mt
    simp only [h, Bool.false_eq_true, if_false]

set_option maxRecDepth 100000 in
/-- Witness for C15: on an idle link nothing can be sent, and a tariffs response with a
wrong checksum byte is not accepted; in both cases the readings are as before. -/
theorem decoders_keep_state_on_failure_witness :
    sameReadings (initState 20109 idleUart)
        (get_tariffs_data sampleDecls (initState 20109 idleUart))
    ∧ sameReadings
        (exchangeState 20109 15
          [115, 85, 0, 255, 255, 141, 78, 5, 0, 0, 0, 0, 12,
           10, 0, 0, 0, 20, 0, 0, 0, 30, 0, 0, 0, 0, 85])
        (get_tariffs_data sampleDecls
          (exchangeState 20109 15
            [115, 85, 0, 255, 255, 141, 78, 5, 0, 0, 0, 0, 12,
             10, 0, 0, 0, 20, 0, 0, 0, 30, 0, 0, 0, 0, 85]))
    ∧ ∃ t, get_date_release_data_kaskad1mt sampleDecls 32 (initState 20109 idleUart) = some t
        ∧ sameReadings (initState 20109 idleUart) t :=
  ⟨(decoders_keep_state_on_failure sampleDecls 32 (initState 20109 idleUart)).1 (by decide),
   (decoders_keep_state_on_failure sampleDecls 32
      (exchangeState 20109 15
        [115, 85, 0, 255, 255, 141, 78, 5, 0, 0, 0, 0, 12,
         10, 0, 0, 0, 20, 0, 0, 0, 30, 0, 0, 0, 0, 85])).1 (by decide),
   (decoders_keep_state_on_failure sampleDecls 32 (initState 20109 idleUart)).2.2.2.2.2.2
      (by decide)⟩

/-! ## The cycle of `measure_meter_kaskad1mt` -/

/-- The commands a cycle requests, for every behaviour of the link.  When the ping
exchange fails, the cycle returns, the only command requested is open-channel and the
readings are unchanged.  When it succeeds, a cycle that returns has requested
open-channel, then serial-number and release-date exactly if the first-cycle flag was
set, then tariffs, battery-resource, voltage, power, current in this order, and has
cleared the first-cycle flag; and the cycle returns exactly when the identity fetch
returns and `get_resbat_data`, called in the state the tariffs fetch left, returns. -/
theorem measure_meter_requests (D : Decls) (fuel : Nat) (s : State) :
    ((ping_start_data D s).2 = false →
      ∃ t, measure_meter_kaskad1mt D fuel s = some t
        ∧ t.requested = s.requested ++ [D.cmd_open_channel]
        ∧ sameReadings s t)
    ∧ ((ping_start_data D s).2 = true →
      (∀ t, measure_meter_kaskad1mt D fuel s = some t →
        t.requested = s.requested ++ [D.cmd_open_channel]
            ++ (if s.new_start then [D.cmd_serial_number, D.cmd_date_release] else [])
            ++ readingCommands D
          ∧ t.new_start = false)
      ∧ ((measure_meter_kaskad1mt D fuel s).isSome
          = ((before_resbat D fuel s).bind (get_resbat_data D)).isSome)) := by
  have hp := ping_start_data_eq D s
  have hreq : (ping_start_data D s).1.requested = s.requested ++ [D.cmd_open_channel] := by
    rw [hp]; exact get_pkt_data_requested D _ s
  have hns : (ping_start_data D s).1.new_start = s.new_start := by
    rw [hp]; exact get_pkt_data_new_start D _ s
  constructor
  · intro hf
    refine ⟨(ping_start_data D s).1, ?_, hreq, ?_⟩
    · unfold measure_meter_kaskad1mt
      simp only [hf, Bool.false_eq_true, if_false]
    · rw [hp]; exact get_pkt_data_readings D _ s
  · intro ht
    have hm : measure_meter_kaskad1mt D fuel s
        = (identity_fetch D fuel (ping_start_data D s).1).bind (readings_fetch D) := by
      unfold measure_meter_kaskad1mt
      simp only [ht, if_true]
    refine ⟨?_, ?_⟩
    · intro t h
      rw [hm] at h
      simp only [Option.bind_eq_some] at h
      obtain ⟨e, he, hr⟩ := h
      obtain ⟨i1, i2⟩ := identity_fetch_frame D fuel _ e he
      obtain ⟨r1, r2⟩ := readings_fetch_frame D e t hr
      refine ⟨?_, r2.trans i2⟩
      rw [r1, i1, hreq, hns]
    · rw [hm]
      unfold before_resbat
      cases identity_fetch D fuel (ping_start_data D s).1 with
      | none => rfl
      | some e =>
        rw [Option.some_bind, Option.map_some', Option.some_bind]
        exact readings_fetch_isSome D e

/-! ### The result of a string scan does not depend on its bound -/

theorem strlen_unique (src : Buf) : ∀ (f g i n m : Nat),
    strlen src f i = some n → strlen src g i = some m → n = m
  | 0, _, _, _, _, h, _ => by simp [strlen] at h
  | _ + 1, 0, _, _, _, _, h => by simp [strlen] at h
  | f + 1, g + 1, i, n, m, h1, h2 => by
    unfold strlen at h1 h2
    by_cases hi : rd src i = 0
    · rw [if_pos hi] at h1 h2
      cases h1; cases h2; rfl
    · rw [if_neg hi] at h1 h2
      exact strlen_unique src f g (i + 1) n m h1 h2

theorem sprintf_s_unique (f g : Nat) (dst src : Buf) (r q : Buf × Nat)
    (h1 : sprintf_s f dst src = some r) (h2 : sprintf_s g dst src = some q) : r = q := by
  unfold sprintf_s at h1 h2
  simp only [Option.map_eq_some'] at h1 h2
  obtain ⟨n, hn, e1⟩ := h1
  obtain ⟨m, hm, e2⟩ := h2
  have := strlen_unique src f g 0 n m hn hm
  subst this
  rw [← e1, ← e2]

theorem get_serial_number_data_unique (D : Decls) (f g : Nat) (s t u : State)
    (h1 : get_serial_number_data_kaskad1mt D f s = some t)
    (h2 : get_serial_number_data_kaskad1mt D g s = some u) : t = u := by
  unfold get_serial_number_data_kaskad1mt at h1 h2
  simp only [] at h1 h2
  by_cases hv : (get_pkt_data D D.cmd_serial_number s).2 = true
  · rw [if_pos hv] at h1 h2
    unfold update_serial_number at h1 h2
    by_cases hc : memcmp_ne (get_pkt_data D D.cmd_serial_number s).1.meter.serial_number
        (data31 D (get_pkt_data D D.cmd_serial_number s).1) D.DATA_MAX_LEN = true
    · rw [if_pos hc] at h1 h2
      simp only [Option.map_eq_some'] at h1 h2
      obtain ⟨r, hr, e1⟩ := h1
      obtain ⟨q, hq, e2⟩ := h2
      have := sprintf_s_unique f g _ _ r q hr hq
      subst this
      rw [← e1, ← e2]
    · rw [if_neg hc] at h1 h2
      cases h1; cases h2; rfl
  · rw [if_neg hv] at h1 h2
    cases h1; cases h2; rfl

theorem get_date_release_data_unique (D : Decls) (f g : Nat) (s t u : State)
    (h1 : get_date_release_data_kaskad1mt D f s = some t)
    (h2 : get_date_release_data_kaskad1mt D g s = some u) : t = u := by
  unfold get_date_release_data_kaskad1mt at h1 h2
  simp only [] at h1 h2
  by_cases hv : (get_pkt_data D D.cmd_date_release s).2 = true
  · rw [if_pos hv] at h1 h2
    unfold update_date_release at h1 h2
    simp only [Option.map_eq_some'] at h1 h2
    obtain ⟨r, hr, e1⟩ := h1
    obtain ⟨q, hq, e2⟩ := h2
    have := sprintf_s_unique f g _ _ r q hr hq
    subst this
    rw [← e1, ← e2]
  · rw [if_neg hv] at h1 h2
    cases h1; cases h2; rfl

theorem identity_fetch_unique (D : Decls) (f g : Nat) (s t u : State)
    (h1 : identity_fetch D f s = some t) (h2 : identity_fetch D g s = some u) : t = u := by
  unfold identity_fetch at h1 h2
  by_cases hn : s.new_start = true
  · rw [if_pos hn] at h1 h2
    simp only [Option.bind_eq_some, Option.map_eq_some'] at h1 h2
    obtain ⟨a1, ha1, a2, ha2, e1⟩ := h1
    obtain ⟨b1, hb1, b2, hb2, e2⟩ := h2
    have := get_serial_number_data_unique D f g s a1 b1 ha1 hb1
    subst this
    have := get_date_release_data_unique D f g a1 a2 b2 ha2 hb2
    subst this
    rw [← e1, ← e2]
  · rw [if_neg hn] at h1 h2
    cases h1; cases h2; rfl

/-- A cycle that does not return under one bound of the string scans although its
identity fetch does, does not return under any bound. -/
theorem measure_meter_none_of_bound (D : Decls) (f : Nat) (s : State)
    (hi : (identity_fetch D f (ping_start_data D s).1).isSome = true)
    (hm : measure_meter_kaskad1mt D f s = none) (g : Nat) :
    measure_meter_kaskad1mt D g s = none := by
  unfold measure_meter_kaskad1mt at hm ⊢
  simp only [] at hm ⊢
  split
  · rename_i hp
    rw [if_pos hp] at hm
    obtain ⟨e, he⟩ := Option.isSome_iff_exists.mp hi
    rw [he, Option.some_bind] at hm
    cases hg : identity_fetch D g (ping_start_data D s).1 with
    | none => rfl
    | some e1 =>
      rw [Option.some_bind, identity_fetch_unique D g f _ e1 e hg he]
      exact hm
  · rename_i hp
    rw [if_neg hp] at hm
    cases hm

/-- C14 (the code at the failing input). A first cycle on a link that accepts every
request and answers each with a validated response.  When the battery-resource response
carries `lifetime = 100`, the cycle returns after the eight requests open-channel,
serial-number, release-date, tariffs, battery-resource, voltage, power, current, with the
first-cycle flag clear and the readings decoded.  When it carries `lifetime = 0`, the
ping succeeds, as do the identity and tariffs fetches; the battery-resource exchange is
validated, its `lifetime` is 0, and up to there the commands requested are open-channel,
serial-number, release-date, tariffs, battery-resource; `get_resbat_data` then divides by
zero and does not return, and neither does the cycle, whatever the bound of the string
scans: voltage, power and current are never requested. -/
theorem measure_meter_stops_at_zero_lifetime :
    (measure_meter_kaskad1mt sampleDecls 32 (answeredCycle true 100 239)).map
        (fun t => (t.requested, t.new_start, t.meter.battery_level, t.meter.voltage,
          t.meter.power, t.meter.amps))
      = some ([0x01, 0x010a, 0x020a, 0x05, 0x1e, 0x0129, 0x2d, 0x012c], false, 50, 230,
          10000, 10000)
    ∧ (ping_start_data sampleDecls (answeredCycle true 0 119)).2 = true
    ∧ (before_resbat sampleDecls 32 (answeredCycle true 0 119)).map
        (fun s2 =>
          ((get_pkt_data sampleDecls sampleDecls.cmd_resource_battery s2).2,
           sampleDecls.lifetime
             (payload sampleDecls (exchanged sampleDecls sampleDecls.cmd_resource_battery s2)),
           (exchanged sampleDecls sampleDecls.cmd_resource_battery s2).requested,
           (get_resbat_data sampleDecls s2).isSome))
      = some (true, 0, [0x01, 0x010a, 0x020a, 0x05, 0x1e], false)
    ∧ ∀ fuel, measure_meter_kaskad1mt sampleDecls fuel (answeredCycle true 0 119) = none := by
  refine ⟨by decide!, by decide!, by decide!, ?_⟩
  exact measure_meter_none_of_bound sampleDecls 32 (answeredCycle true 0 119) (by decide!)
    (Option.isNone_iff_eq_none.mp (by decide!))

/-! ## The device-reported error -/

/-- A complete, unstuffed, checksummed response with a nonzero status byte gives the
outcome `PKT_ERR_RESPONSE`, whatever the status byte is. -/
theorem response_meter_device_error (D : Decls) (command : Nat) (s : State)
    (hc : (receive D s).complete = true) (hu : (unstuffed D s).2 ≠ 0)
    (hcrc : checksum (unstuffedPkt D s).bytes (unstuffedPkt D s).pkt_len
      = dataAt D (unstuffedPkt D s) (headerOf D (unstuffedPkt D s)).data_len)
    (hst : status_error (headerOf D (unstuffedPkt D s)).password_status ≠ 0) :
    (response_meter D command s).2 = PKT_ERR_RESPONSE := by
  rw [response_meter_complete D command s hc]
  simp only [hu, ne_eq, not_false_eq_true, if_true]
  unfold checkResponse
  simp [hcrc, hst]

set_option maxRecDepth 100000 in
/-- C16 (the code at the failing input). Two validated-but-for-the-status responses to
the tariffs request that differ in their status code (1 and 2) and, accordingly, in
their checksum byte: `response_meter` returns `PKT_ERR_RESPONSE` for both and
`get_pkt_data` returns no packet for both, so the caller receives the same outcome; the
code is in neither. -/
theorem device_error_code_is_dropped :
    (status_error (headerOf sampleDecls (unstuffedPkt sampleDecls
        (send_command sampleDecls 0x05 (deviceErrorScenario 1 201)).1)).password_status = 1
      ∧ status_error (headerOf sampleDecls (unstuffedPkt sampleDecls
        (send_command sampleDecls 0x05 (deviceErrorScenario 2 121)).1)).password_status = 2)
    ∧ (response_meter sampleDecls 0x05
        (send_command sampleDecls 0x05 (deviceErrorScenario 1 201)).1).2 = PKT_ERR_RESPONSE
    ∧ (response_meter sampleDecls 0x05
        (send_command sampleDecls 0x05 (deviceErrorScenario 2 121)).1).2 = PKT_ERR_RESPONSE
    ∧ (get_pkt_data sampleDecls 0x05 (deviceErrorScenario 1 201)).2 = false
    ∧ (get_pkt_data sampleDecls 0x05 (deviceErrorScenario 2 121)).2 = false
    ∧ (get_pkt_data sampleDecls 0x05 (deviceErrorScenario 1 201)).1.pkt_error_no
        = (get_pkt_data sampleDecls 0x05 (deviceErrorScenario 2 121)).1.pkt_error_no := by
  decide

/-! ## The checksum and the specification's CRC-8 -/

theorem crcBit_eq_spec : ∀ c < 256, crcBit c = crc8_bit c := by decide!

theorem crcBits_eq_spec : ∀ (k c : Nat), c < 256 → crcBits k c = Nat.iterate crc8_bit k c
  | 0, _, _ => rfl
  | k + 1, c, h => by
    rw [crcBits, Function.iterate_succ_apply, ← crcBit_eq_spec c h]
    exact crcBits_eq_spec k (crcBit c) (crcBit_lt c)

theorem crcLoop_eq_spec (src : Buf) : ∀ (k p c : Nat), c < 256 →
    crcLoop src k p c = (seg src p k).foldl crc8_byte c
  | 0, _, _, _ => rfl
  | k + 1, p, c, h => by
    rw [crcLoop, seg_succ, List.foldl_cons, crcLoop_eq_spec src k (p + 1) _ (crcByte_lt c _),
      xor_mod_256 h (rd_lt src p),
      crcBits_eq_spec 8 _ (Nat.xor_lt_two_pow (n := 8) h (rd_lt src p))]
    rfl

/-- The checksum of a frame of 4 to 255 bytes is the specification's CRC-8 of its bytes
at the indices `2 .. n-3`. -/
theorem checksum_eq_crc8 (frame : Buf) (n : Nat) (h4 : 4 ≤ n) (h255 : n ≤ 255) :
    checksum frame n = crc8 (seg frame 2 (n - 4)) := by
  unfold checksum crc8
  have e : (n % 256 + 256 - 4) % 256 = n - 4 := by omega
  simp only [e]
  exact crcLoop_eq_spec frame (n - 4) 2 0 (by decide)

/-- C17. Checksum region: for every frame of length `n` with `4 ≤ n ≤ 255`, `checksum`
is the CRC-8 of the specification (polynomial `0xA9`, seed 0, most significant bit
first, no reflection, no final XOR) of exactly the bytes at the indices `2 .. n-3`;
hence two frames of the same length that agree on those indices have the same checksum,
whatever their other bytes are, and the checksum of a frame of length 4 is 0. -/
theorem checksum_region (frame : Buf) (n : Nat) (h4 : 4 ≤ n) (h255 : n ≤ 255) :
    checksum frame n = crc8 (seg frame 2 (n - 4))
    ∧ (∀ other : Buf, (∀ j, 2 ≤ j → j ≤ n - 3 → rd other j = rd frame j) →
        checksum other n = checksum frame n)
    ∧ (n = 4 → checksum frame n = 0) := by
  refine ⟨checksum_eq_crc8 frame n h4 h255, ?_, ?_⟩
  · intro other h
    apply checksum_congr
    intro j h1 h2
    exact h j h1 (by omega)
  · intro hn
    subst hn
    rfl

/-- Witness for C17: the ten-byte frame `73 55 01 02 03 04 05 06 b8 55`, whose covered
bytes are `01 .. 06`. -/
theorem checksum_region_witness :
    checksum (ofList [0x73, 0x55, 1, 2, 3, 4, 5, 6, 0xb8, 0x55]) 10 = crc8 [1, 2, 3, 4, 5, 6] :=
  (checksum_region (ofList [0x73, 0x55, 1, 2, 3, 4, 5, 6, 0xb8, 0x55]) 10
    (by decide) (by decide)).1

/-! ## The shortest complete frame -/

set_option maxRecDepth 100000 in
/-- C19 (the code at the failing input). The link delivers the three bytes `73 55 55`.
The receive loop marks the frame complete with `load_size = 3`, `byte_unstuffing`
returns 3, and `checksum` is called with `len = 3`: its covered length `len - 4` wraps
to 255, so the checksum runs over the offsets 2 to 256 of `response_pkt`; changing the
byte at offset 200, far outside the three-byte frame, changes it. -/
theorem checksum_length_wraps :
    (receive sampleDecls (shortFrameState zeroBuf)).complete = true
    ∧ (unstuffed sampleDecls (shortFrameState zeroBuf)).2 = 3
    ∧ (unstuffedPkt sampleDecls (shortFrameState zeroBuf)).pkt_len = 3
    ∧ checksum (unstuffedPkt sampleDecls (shortFrameState zeroBuf)).bytes 3
      = crcLoop (unstuffedPkt sampleDecls (shortFrameState zeroBuf)).bytes 255 2 0
    ∧ checksum (wr (unstuffedPkt sampleDecls (shortFrameState zeroBuf)).bytes 200 1) 3
      ≠ checksum (unstuffedPkt sampleDecls (shortFrameState zeroBuf)).bytes 3 := by
  refine ⟨by decide, by decide, by decide, rfl, ?_⟩
  exact crcLoop_wr_ne _ 200 1 (by decide) (by decide) 255 2 0 (by decide) (by decide)
    (by decide)

/-! ## The battery level as a percentage -/

set_option maxRecDepth 100000 in
/-- C20 as stated fails: a validated response with `lifetime = 1` and `worktime = 1` has
quotient 100 and remainder 0 ≥ `lifetime/2` = 0, so the level is rounded up to 101. -/
theorem battery_level_percentage_counterexample :
    ¬ (∀ (D : Decls) (s : State), (get_pkt_data D D.cmd_resource_battery s).2 = true →
        0 < D.lifetime (payload D (exchanged D D.cmd_resource_battery s)) →
        D.worktime (payload D (exchanged D D.cmd_resource_battery s))
          ≤ D.lifetime (payload D (exchanged D D.cmd_resource_battery s)) →
        D.worktime (payload D (exchanged D D.cmd_resource_battery s)) * 100 < 2 ^ 32 →
        ∀ t, get_resbat_data D s = some t → t.meter.battery_level ≤ 100) := by
  intro h
  have h2 : (get_resbat_data sampleDecls (resbatScenario 1 1 205)).map
      (fun t => t.meter.battery_level) = some 101 := by
    decide
  obtain ⟨t, ht, hlev⟩ := Option.map_eq_some'.mp h2
  have h1 := h sampleDecls (resbatScenario 1 1 205) (by decide) (by decide) (by decide)
    (by decide) t ht
  rw [hlev] at h1
  exact absurd h1 (by decide)

/-- The level of a reading with `worktime ≤ lifetime`, other than the reading 1 of 1. -/
theorem battery_level_le (w l : Nat) (hl : 0 < l) (hwl : w ≤ l) (hw : w * 100 < 2 ^ 32)
    (h11 : ¬ (l = 1 ∧ w = 1)) : ∃ v, battery_level w l = some v ∧ v ≤ 100 := by
  rw [battery_level_pos w l hl]
  refine ⟨_, rfl, ?_⟩
  simp only [Nat.mod_eq_of_lt hw]
  have hq : w * 100 / l ≤ 100 := by
    apply Nat.div_le_of_le_mul
    exact Nat.mul_le_mul_right 100 hwl
  have hqm : w * 100 / l % 256 = w * 100 / l := Nat.mod_eq_of_lt (by omega)
  rw [hqm]
  split
  · rename_i hr
    by_cases h100 : w * 100 / l = 100
    · exfalso
      have h1 : w * 100 / l * l ≤ w * 100 := Nat.div_mul_le_self _ _
      rw [h100] at h1
      have h2 : l ≤ w := by omega
      have h3 : w = l := by omega
      subst h3
      rw [Nat.mul_mod_right] at hr
      have h4 : w / 2 = 0 := by omega
      have h5 : w = 1 := by omega
      exact h11 ⟨h5, h5⟩
    · have : w * 100 / l + 1 ≤ 100 := by omega
      rw [Nat.mod_eq_of_lt (by omega)]
      exact this
  · exact hq

/-- C20, amended. Battery level is a percentage: for every validated battery-resource
response with `lifetime > 0`, `worktime ≤ lifetime` and `worktime*100` within 32 bits,
other than the reading `lifetime = worktime = 1`, `get_resbat_data` returns and the level
it computed, the round-up step included, is at most 100. -/
theorem battery_level_percentage (D : Decls) (s : State)
    (hv : (get_pkt_data D D.cmd_resource_battery s).2 = true)
    (hl : 0 < D.lifetime (payload D (exchanged D D.cmd_resource_battery s)))
    (hwl : D.worktime (payload D (exchanged D D.cmd_resource_battery s))
      ≤ D.lifetime (payload D (exchanged D D.cmd_resource_battery s)))
    (hw : D.worktime (payload D (exchanged D D.cmd_resource_battery s)) * 100 < 2 ^ 32)
    (h11 : ¬ (D.lifetime (payload D (exchanged D D.cmd_resource_battery s)) = 1
      ∧ D.worktime (payload D (exchanged D D.cmd_resource_battery s)) = 1)) :
    ∃ t, get_resbat_data D s = some t ∧ t.meter.battery_level ≤ 100 := by
  obtain ⟨v, hv1, hv2⟩ := battery_level_le _ _ hl hwl hw h11
  have h := get_resbat_data_level D s hv
  rw [hv1] at h
  obtain ⟨t, ht, hlev⟩ := Option.map_eq_some'.mp h
  exact ⟨t, ht, by rw [hlev]; exact hv2⟩

set_option maxRecDepth 100000 in
/-- Witness for C20 (amended): a validated response with `lifetime = 100` and
`worktime = 50`. -/
theorem battery_level_percentage_witness :
    (get_pkt_data sampleDecls sampleDecls.cmd_resource_battery (resbatScenario 100 50 239)).2
        = true
    ∧ ∃ t, get_resbat_data sampleDecls (resbatScenario 100 50 239) = some t
        ∧ t.meter.battery_level ≤ 100 :=
  ⟨by decide,
   battery_level_percentage sampleDecls (resbatScenario 100 50 239) (by decide) (by decide)
     (by decide) (by decide) (by decide)⟩
/-! ## The receive loop on a well-formed frame -/

theorem storeList_below (l : List Nat) : ∀ (b : Buf) (i j : Nat), j < i →
    storeList b i l j = b j := by
  induction l with
  | nil => intro b i j _; rfl
  | cons x l ih =>
    intro b i j h
    rw [storeList, ih _ _ _ (by omega)]
    simp [wr]; omega

theorem storeList_above (l : List Nat) : ∀ (b : Buf) (i j : Nat), i + l.length ≤ j →
    storeList b i l j = b j := by
  induction l with
  | nil => intro b i j _; rfl
  | cons x l ih =>
    intro b i j h
    rw [List.length_cons] at h
    rw [storeList, ih _ _ _ (by omega)]
    simp [wr]; omega

theorem storeList_seg (l : List Nat) : ∀ (b : Buf) (i : Nat),
    seg (storeList b i l) i l.length = l.map (fun x => x % 256) := by
  induction l with
  | nil => intro b i; rfl
  | cons x l ih =>
    intro b i
    rw [List.length_cons, seg_succ, storeList, ih, List.map_cons]
    congr 1
    unfold rd
    rw [storeList_below l _ _ _ (by omega)]
    simp [wr]

/-- Bytes other than the start marker are dropped while the buffer is empty. -/
theorem recvWhile_junk (m : Nat) (hm : 0 < m) : ∀ (junk xs : List Nat) (b : Buf) (e : pkt_error_t),
    (∀ x, x ∈ junk → x % 256 ≠ START) →
    ∃ e1, recvWhile m (junk ++ xs) 0 b e = recvWhile m xs 0 b e1
  | [], xs, b, e, _ => ⟨e, rfl⟩
  | x :: junk, xs, b, e, h => by
    have hx : x % 256 ≠ START := h x (List.mem_cons_self x junk)
    obtain ⟨e1, h1⟩ := recvWhile_junk m hm junk xs b PKT_ERR_NO_PKT
      (fun y hy => h y (List.mem_cons_of_mem x hy))
    refine ⟨e1, ?_⟩
    rw [List.cons_append, recvWhile]
    simp only [hm, if_true, hx, ne_eq, not_false_eq_true]
    exact h1

/-- From the third byte on, bytes other than the boundary marker are stored and the
first boundary marker completes the frame. -/
theorem recvWhile_body (m : Nat) : ∀ (mid : List Nat) (t : Nat) (rest : List Nat)
    (ls : Nat) (b : Buf) (e : pkt_error_t),
    2 ≤ ls → (∀ x, x ∈ mid → x % 256 ≠ BOUNDARY) → t % 256 = BOUNDARY →
    ls + mid.length < m →
    recvWhile m (mid ++ t :: rest) ls b e
      = (rest, ls + mid.length + 1, storeList b ls (mid ++ [t]), PKT_OK, true)
  | [], t, rest, ls, b, e, h2, _, ht, hm => by
    have hm1 : ls < m := by simpa using hm
    have n0 : ¬ ls = 0 := by omega
    have n1 : ¬ ls = 1 := by omega
    rw [List.nil_append, recvWhile]
    simp only [hm1, if_true, n0, n1, if_false, ht, List.length_nil, Nat.add_zero,
      List.nil_append, storeList]
  | x :: mid, t, rest, ls, b, e, h2, hmid, ht, hm => by
    have hm1 : ls < m := by rw [List.length_cons] at hm; omega
    have n0 : ¬ ls = 0 := by omega
    have n1 : ¬ ls = 1 := by omega
    have hx : ¬ x % 256 = BOUNDARY := hmid x (List.mem_cons_self x mid)
    rw [List.cons_append, recvWhile]
    simp only [hm1, if_true, n0, n1, if_false, hx]
    rw [recvWhile_body m mid t rest (ls + 1) _ e (by omega)
      (fun y hy => hmid y (List.mem_cons_of_mem x hy)) ht
      (by rw [List.length_cons] at hm; omega)]
    simp only [List.length_cons, List.cons_append, storeList]
    congr 2
    omega

/-- A frame `start, boundary, mid, boundary` whose middle holds no boundary marker is
collected whole, after any bytes other than the start marker. -/
theorem recvWhile_frame (m : Nat) (junk mid rest : List Nat) (x0 x1 t : Nat) (b : Buf)
    (e : pkt_error_t)
    (hjunk : ∀ x, x ∈ junk → x % 256 ≠ START)
    (h0 : x0 % 256 = START) (h1 : x1 % 256 = BOUNDARY) (ht : t % 256 = BOUNDARY)
    (hmid : ∀ x, x ∈ mid → x % 256 ≠ BOUNDARY)
    (hfit : mid.length + 3 ≤ m) :
    recvWhile m (junk ++ (x0 :: x1 :: (mid ++ [t])) ++ rest) 0 b e
      = (rest, mid.length + 3, storeList b 0 (x0 :: x1 :: (mid ++ [t])), PKT_OK, true) := by
  rw [List.append_assoc]
  obtain ⟨e1, hj⟩ := recvWhile_junk m (by omega) junk ((x0 :: x1 :: (mid ++ [t])) ++ rest) b e
    hjunk
  rw [hj, List.cons_append, List.cons_append, recvWhile]
  have hm0 : 0 < m := by omega
  have hm1 : 0 + 1 < m := by omega
  have s0 : ¬ x0 % 256 ≠ START := by simp [h0]
  have s1 : ¬ x1 % 256 ≠ BOUNDARY := by simp [h1]
  simp only [hm0, if_true, s0, if_false]
  rw [recvWhile]
  simp only [hm1, if_true, s1, if_false, Nat.zero_add, Nat.one_ne_zero]
  rw [List.append_assoc, List.singleton_append,
    recvWhile_body m mid t rest (1 + 1) _ e1 (by omega) hmid ht (by omega)]
  have e : 1 + 1 + mid.length + 1 = mid.length + 3 := by omega
  rw [e]
  rfl

theorem escapeOne_lt {b x : Nat} (hb : b < 256) (h : x ∈ escapeOne b) : x < 256 := by
  unfold escapeOne at h
  by_cases h1 : b = BOUNDARY
  · rw [if_pos h1] at h
    rcases List.mem_cons.mp h with h | h
    · rw [h]; decide
    · rw [List.mem_singleton.mp h]; decide
  · rw [if_neg h1] at h
    by_cases h2 : b = START
    · rw [if_pos h2] at h
      rcases List.mem_cons.mp h with h | h
      · rw [h]; decide
      · rw [List.mem_singleton.mp h]; decide
    · rw [if_neg h2] at h
      rw [List.mem_singleton.mp h]; exact hb

/-- The escaped middle of a frame holds bytes only, none of them the boundary marker. -/
theorem escaped_mid (frame : Buf) (a k : Nat) :
    ∀ x, x ∈ (seg frame a k).flatMap escapeOne → x < 256 ∧ x ≠ BOUNDARY := by
  intro x hx
  obtain ⟨b, hb, hxb⟩ := List.mem_flatMap.mp hx
  have hb256 : b < 256 := by
    unfold seg at hb
    obtain ⟨j, _, hj⟩ := List.mem_map.mp hb
    rw [← hj]; exact rd_lt frame j
  exact ⟨escapeOne_lt hb256 hxb, escapeOne_ne_boundary hxb⟩

theorem escapeFrame_shape (frame : Buf) (n : Nat) :
    escapeFrame frame n
      = rd frame 0 :: rd frame 1
          :: ((seg frame 2 (n - 3)).flatMap escapeOne ++ [rd frame (n - 1)]) := rfl

/-- The receive phase on a link that delivers bytes other than the start marker and then
a frame whose middle holds no boundary marker: the first attempt collects the frame. -/
theorem receive_frame (D : Decls) (s : State) (junk mid rest : List Nat) (x0 x1 t : Nat)
    (hrx : s.uart.rx = junk ++ (x0 :: x1 :: (mid ++ [t])) ++ rest)
    (hjunk : ∀ x, x ∈ junk → x % 256 ≠ START)
    (h0 : x0 % 256 = START) (h1 : x1 % 256 = BOUNDARY) (ht : t % 256 = BOUNDARY)
    (hmid : ∀ x, x ∈ mid → x % 256 ≠ BOUNDARY)
    (hfit : mid.length + 3 ≤ D.PKT_BUFF_MAX_LEN) :
    (receive D s).complete = true
      ∧ (receive D s).load_size = mid.length + 3
      ∧ (receive D s).buff
          = storeList (memset s.package_buff 0 D.PKT_BUFF_MAX_LEN) 0
              (x0 :: x1 :: (mid ++ [t])) := by
  unfold receive
  rw [recvAttempts]
  simp only [hrx]
  rw [recvWhile_frame D.PKT_BUFF_MAX_LEN junk mid rest x0 x1 t
    (memset s.package_buff 0 D.PKT_BUFF_MAX_LEN) PKT_ERR_TIMEOUT hjunk h0 h1 ht hmid hfit]
  simp

/-- The state `response_meter` leaves holds the unstuffed packet. -/
theorem response_meter_pkt (D : Decls) (command : Nat) (s : State)
    (hc : (receive D s).complete = true) (hu : (unstuffed D s).2 ≠ 0) :
    (response_meter D command s).1.response_pkt = unstuffedPkt D s := by
  have hl : (receive D s).load_size ≠ 0 := by
    have := receive_complete D s hc; omega
  unfold unstuffed at hu
  unfold response_meter unstuffedPkt unstuffed
  simp only [hl, hc, hu, ne_eq, not_false_eq_true, if_true]

theorem map_mod_256 : ∀ (l : List Nat), (∀ x, x ∈ l → x < 256) →
    l.map (fun x => x % 256) = l
  | [], _ => rfl
  | x :: l, h => by
    rw [List.map_cons, Nat.mod_eq_of_lt (h x (List.mem_cons_self x l)),
      map_mod_256 l (fun y hy => h y (List.mem_cons_of_mem x hy))]

/-- The cells of the zeroed array that lie behind a stored list. -/
theorem storeList_memset_zero (l : List Nat) (b : Buf) (m j : Nat) (h1 : l.length ≤ j)
    (h2 : j < m) : storeList (memset b 0 m) 0 l j = 0 := by
  rw [storeList_above l _ 0 j (by omega)]
  unfold memset
  rw [if_pos h2]

/-- End-to-end acceptance of a well-formed response whose escaped form ends far enough
from the end of the receive buffer (header fields read from the header bytes alone,
receive buffer of at most 255 bytes, so that lengths fit their 8-bit variables).  Let
`R` be an unescaped response of length `n = 2 + header_size + d + 2`, `d` its declared
payload length, that starts with `0x73, 0x55`, ends with `0x55`, holds `checksum(R)` at
payload offset `d`, has status low byte 0, source address = configured address and
command byte = low byte of the requested command.  If the receive buffer of the link
holds bytes none of which is `0x73`, followed by the escaped form of `R` (and anything
after it), and the escaped form together with as many further cells as it has escapes
fits the buffer, then `byte_unstuffing` reads cells of the array only, `response_meter`
returns `PKT_OK` and the first `n` bytes of `response_pkt` are those of `R`, whatever
the memory behind the array holds. -/
theorem response_meter_accepts_inside (D : Decls) (command : Nat) (s : State) (R : Buf)
    (n : Nat) (junk rest : List Nat)
    (hloc : D.headerLocal) (hmax : D.PKT_BUFF_MAX_LEN ≤ 255)
    (hn : n = 2 + D.header_size + (headerOf D ⟨R, n⟩).data_len + 2)
    (h0 : rd R 0 = START) (h1 : rd R 1 = BOUNDARY) (hlast : rd R (n - 1) = BOUNDARY)
    (hcrc : dataAt D ⟨R, n⟩ (headerOf D ⟨R, n⟩).data_len = checksum R n)
    (hst : status_error (headerOf D ⟨R, n⟩).password_status = 0)
    (haddr : (headerOf D ⟨R, n⟩).address_from = s.address_device)
    (hcmd : (headerOf D ⟨R, n⟩).command = command % 256)
    (hjunk : ∀ x, x ∈ junk → x % 256 ≠ START)
    (hrx : s.uart.rx = junk ++ escapeFrame R n ++ rest)
    (hfit : (escapeFrame R n).length + reservedCount R n ≤ D.PKT_BUFF_MAX_LEN) :
    (response_meter D command s).2 = PKT_OK
      ∧ ∀ i, i < n → rd (response_meter D command s).1.response_pkt.bytes i = rd R i := by
  have hn4 : 4 ≤ n := by omega
  -- the escaped frame
  have hEl := escape_length R (List.range' 2 (n - 3))
  rw [List.length_range'] at hEl
  have hEl2 : ((seg R 2 (n - 3)).flatMap escapeOne).length = n - 3 + reservedCount R n := hEl
  have hFlen : (escapeFrame R n).length = n + reservedCount R n := by
    rw [escapeFrame_shape]
    simp only [List.length_cons, List.length_append, List.length_nil, hEl2]
    omega
  have hmid := escaped_mid R 2 (n - 3)
  -- the receive phase
  have hfit1 : (escapeFrame R n).length ≤ D.PKT_BUFF_MAX_LEN := by omega
  rw [hFlen] at hfit
  rw [escapeFrame_shape] at hrx hfit1
  obtain ⟨rc, rl, rb⟩ := receive_frame D s junk ((seg R 2 (n - 3)).flatMap escapeOne) rest
    (rd R 0) (rd R 1) (rd R (n - 1)) hrx hjunk
    (by rw [h0]; decide) (by rw [h1]; decide) (by rw [hlast]; decide)
    (fun x hx => by rw [Nat.mod_eq_of_lt (hmid x hx).1]; exact (hmid x hx).2)
    (by simp only [List.length_cons, List.length_append, List.length_nil] at hfit1; omega)
  rw [← escapeFrame_shape] at rb
  have rl2 : (receive D s).load_size = n + reservedCount R n := by
    rw [rl, hEl2]; omega
  -- the collected buffer holds the escaped frame, and behind it the zeroed cells of the array
  have hall : ∀ x, x ∈ escapeFrame R n → x < 256 := by
    intro x hx
    rw [escapeFrame_shape] at hx
    rcases List.mem_cons.mp hx with h | hx
    · rw [h]; exact rd_lt R 0
    · rcases List.mem_cons.mp hx with h | hx
      · rw [h]; exact rd_lt R 1
      · rcases List.mem_append.mp hx with hx | hx
        · exact (hmid x hx).1
        · rw [List.mem_singleton.mp hx]; exact rd_lt R (n - 1)
  have hbuf : bytesOf (receive D s).buff (n + reservedCount R n) = escapeFrame R n := by
    rw [rb, bytesOf_eq_seg, ← hFlen, storeList_seg, map_mod_256 _ hall]
  have htail : ∀ i, 1 ≤ i → i < reservedCount R n →
      rd (receive D s).buff (n + reservedCount R n - 1 + i) ≠ START := by
    intro i hi hik
    unfold rd
    rw [rb, storeList_memset_zero _ _ _ _ (by rw [hFlen]; omega) (by omega)]
    show (0 : Nat) % 256 ≠ START
    decide
  have hL : n + reservedCount R n < 256 := by omega
  -- unstuffing gives the frame back
  have hun : (unstuffed D s).2 = n
      ∧ ∀ i, i < n → rd (unstuffed D s).1 i = rd R i := by
    unfold unstuffed
    rw [rl2]
    exact byte_unstuffing_escaped (receive D s).buff R s.response_pkt.bytes n
      (reservedCount R n) (by omega) (by rw [hlast]; decide) rfl hbuf hL htail
  obtain ⟨hu2, hu1⟩ := hun
  have hune : (unstuffed D s).2 ≠ 0 := by omega
  have hpl : (unstuffedPkt D s).pkt_len = n := by
    unfold unstuffedPkt
    simp only [hu2]
    exact Nat.mod_eq_of_lt (by omega)
  have hpb : ∀ i, i < n → rd (unstuffedPkt D s).bytes i = rd R i := hu1
  -- the checks
  have hhdr : headerOf D (unstuffedPkt D s) = headerOf D ⟨R, n⟩ := by
    unfold headerOf
    apply hloc
    intro i hi
    exact hpb (2 + i) (by omega)
  have hck : checksum (unstuffedPkt D s).bytes (unstuffedPkt D s).pkt_len = checksum R n := by
    rw [hpl]
    apply checksum_congr
    intro j _ hj2
    have : j < n := by omega
    exact hpb j this
  have hslot : dataAt D (unstuffedPkt D s) (headerOf D (unstuffedPkt D s)).data_len
      = dataAt D ⟨R, n⟩ (headerOf D ⟨R, n⟩).data_len := by
    rw [hhdr]
    unfold dataAt
    exact hpb _ (by omega)
  constructor
  · rw [response_meter_complete D command s rc]
    simp only [hune, ne_eq, not_false_eq_true, if_true]
    unfold checkResponse
    rw [hck, hslot, hhdr]
    simp only [hcrc, hst, haddr, hcmd, low_byte, if_true]
  · intro i hi
    rw [response_meter_pkt D command s rc hune]
    exact hpb i hi

theorem sampleDecls_headerLocal : sampleDecls.headerLocal := by
  intro b d h
  simp only [sampleDecls, rd, le16, le32] at h ⊢
  simp [h]

set_option maxRecDepth 100000 in
/-- An instance of the acceptance away from the buffer end: three stray bytes, then the
escaped form of a tariffs response whose payload begins with the two reserved values, 29
bytes in a buffer of 128; the response is accepted and its first two payload bytes come
back as `55 73`. -/
theorem response_meter_accepts_inside_example :
    (response_meter sampleDecls 0x05 acceptScenario).2 = PKT_OK
    ∧ rd (response_meter sampleDecls 0x05 acceptScenario).1.response_pkt.bytes 13 = 0x55
    ∧ rd (response_meter sampleDecls 0x05 acceptScenario).1.response_pkt.bytes 14 = 0x73 :=
  ⟨(response_meter_accepts_inside sampleDecls 0x05 acceptScenario reservedResponse 27
      [0, 1, 2] [] sampleDecls_headerLocal (by decide) (by decide) (by decide) (by decide)
      (by decide) (by decide) (by decide) (by decide) (by decide) (by decide) (by decide)
      (by decide)).1,
   (response_meter_accepts_inside sampleDecls 0x05 acceptScenario reservedResponse 27
      [0, 1, 2] [] sampleDecls_headerLocal (by decide) (by decide) (by decide) (by decide)
      (by decide) (by decide) (by decide) (by decide) (by decide) (by decide) (by decide)
      (by decide)).2 13 (by decide),
   (response_meter_accepts_inside sampleDecls 0x05 acceptScenario reservedResponse 27
      [0, 1, 2] [] sampleDecls_headerLocal (by decide) (by decide) (by decide) (by decide)
      (by decide) (by decide) (by decide) (by decide) (by decide) (by decide) (by decide)
      (by decide)).2 14 (by decide)⟩

/-- C18 (the code at the failing input). The response `longResponse` is well formed as
the claim asks: length `2 + header_size + d + 2`, markers, checksum byte, status 0,
source address 20109, command byte of the tariffs request.  Its escaped form has 128
bytes and fits the 128 cells of the receive buffer; the link delivers it and the receive
loop collects it whole.  The frame has two escapes, so the loop of `byte_unstuffing`
runs two iterations beyond the frame's bytes and reads the cells 128 and 129, which lie
behind the array.  The outcome follows what these hold: `PKT_OK` when they hold zeros,
`PKT_ERR_UNSTUFFING` when they hold `73 55`, and with `73 11` the length comes out as
125 instead of 126 and the outcome is `PKT_ERR_CRC`. -/
theorem response_meter_reads_behind_buffer :
    (126 = 2 + sampleDecls.header_size
            + (headerOf sampleDecls ⟨longResponse, 126⟩).data_len + 2
      ∧ rd longResponse 0 = START ∧ rd longResponse 1 = BOUNDARY
      ∧ rd longResponse 125 = BOUNDARY
      ∧ dataAt sampleDecls ⟨longResponse, 126⟩
          (headerOf sampleDecls ⟨longResponse, 126⟩).data_len = checksum longResponse 126
      ∧ status_error (headerOf sampleDecls ⟨longResponse, 126⟩).password_status = 0
      ∧ (headerOf sampleDecls ⟨longResponse, 126⟩).address_from = 20109
      ∧ (headerOf sampleDecls ⟨longResponse, 126⟩).command = 0x05 % 256)
    ∧ (escapeFrame longResponse 126).length = 128
    ∧ reservedCount longResponse 126 = 2
    ∧ sampleDecls.PKT_BUFF_MAX_LEN = 128
    ∧ ((receive sampleDecls (bufferEndScenario 0x73 0x55)).complete = true
      ∧ (receive sampleDecls (bufferEndScenario 0x73 0x55)).load_size = 128
      ∧ bytesOf (receive sampleDecls (bufferEndScenario 0x73 0x55)).buff 128
          = escapeFrame longResponse 126)
    ∧ (response_meter sampleDecls 0x05 (bufferEndScenario 0 0)).2 = PKT_OK
    ∧ (unstuffed sampleDecls (bufferEndScenario 0x73 0x55)).2 = 0
    ∧ (response_meter sampleDecls 0x05 (bufferEndScenario 0x73 0x55)).2 = PKT_ERR_UNSTUFFING
    ∧ (unstuffed sampleDecls (bufferEndScenario 0x73 0x11)).2 = 125
    ∧ (response_meter sampleDecls 0x05 (bufferEndScenario 0x73 0x11)).2 = PKT_ERR_CRC := by
  refine ⟨⟨by decide!, by decide!, by decide!, by decide!, by decide!, by decide!,
    by decide!, by decide!⟩, by decide!, by decide!, rfl, ⟨by decide!, by decide!, by decide!⟩,
    by decide!, by decide!, by decide!, by decide!, by decide!⟩

end Kaskad
